import Mathlib

/-!
# DMusic: loader, identity caches, band binding and synth channel table

A shallow embedding of `src/Loader.c`, `src/Band.c` and `src/Synth.c`, and the properties
of the resolver chain, the two identity caches, the matching algorithm, the band
operations and the channel table of the synth.

Conventions of the embedding:

* a C pointer to a reference counted object is an address (`Nat`) into a typed heap of
  `Memory`; a nullable pointer is an `Option Nat` with `none` for `NULL`; a pointer to an
  entry of a sound bank is the address of the sound bank with the index of the entry;
* a heap cell is `none` once the object was freed; dereferencing such an address, or an
  address beyond the heap, is undefined behaviour;
* functions that can run into undefined behaviour return an `Option`, `none` standing for
  undefined behaviour;
* the loader is passed by value and returned with the result of every call;
* the allocator is an oracle: `Memory.alloc_fate` lists the outcomes of the allocations to
  come, so that every allocation of the sources can fail;
* resolver callbacks are functions of the context and the name; the parsers, `c16rtomb`
  and the flag constants are fields of `Env`, since the sources at hand do not define them;
* `Memory.log` records what the operations do to their collaborators; it is not part of
  the C state and no operation reads it;
* `size_t` counters wrap at `2 ^ 64`;
* a synthesis context is a number, given in the order of construction; the calls of the
  synthesis library are recorded in `TsfWorld.calls` with the context pointer passed,
  `none` for `NULL`;
* the diagnostics written by `Dm_report` are not part of the state.
-/

namespace DMusic

/-! ## Data model -/

/-- Modelled from the spec: the status codes of the public operations (the enumeration is
declared in a header that is not part of the sources at hand). -/
inductive DmResult
  | SUCCESS
  | INVALID_ARGUMENT
  | MEMORY_EXHAUSTED
  | NOT_FOUND
  | FILE_CORRUPT
  deriving DecidableEq, Repr

/-- Modelled from the spec: a GUID is a 128-bit value that the core only compares. -/
structure DmGuid where
  data : Nat
  deriving DecidableEq, Repr

/-- Modelled from the spec: `DmGuid_equals` compares the two 128-bit values. -/
def DmGuid_equals (a b : DmGuid) : Bool := decide (a = b)

/-- A reference to a loadable resource: name, GUID and the file-name hint, the latter as the
array of 16-bit code units it is stored in (terminator included). -/
structure DmReference where
  name : List Nat
  guid : DmGuid
  file : List Nat
  deriving DecidableEq, Repr

/-- An instrument entry of a downloadable sound bank. -/
structure DmDlsInstrument where
  bank : Nat
  patch : Nat
  deriving DecidableEq, Repr

/-- A downloadable sound bank; `instrument_count` is the length of `instruments`. -/
structure DmDls where
  reference_count : Nat
  guid : DmGuid
  instruments : List DmDlsInstrument
  deriving DecidableEq, Repr

/-- A band member. `dls` is the pointer to the matched entry, given as the address of the
collection together with the index of the entry in the collection's array. -/
structure DmInstrument where
  reference : DmReference
  patch : Nat
  flags : Nat
  channel : Nat
  pan : Nat
  volume : Nat
  dls : Option (Nat × Nat)
  dls_collection : Option Nat
  deriving DecidableEq, Repr

/-- A band; `instrument_count` is the length of `instruments`. -/
structure DmBand where
  reference_count : Nat
  instruments : List DmInstrument
  deriving DecidableEq, Repr

/-- A style; only its identity and reference count matter to the loader, the parsed
content is kept as an uninterpreted payload. -/
structure DmStyle where
  reference_count : Nat
  guid : DmGuid
  payload : List Nat
  deriving DecidableEq, Repr

/-- A segment; the parsed content is kept as an uninterpreted payload. -/
structure DmSegment where
  reference_count : Nat
  payload : List Nat
  deriving DecidableEq, Repr

/-- What the operations do to their collaborators, recorded in the order it happens. The
record is not part of the C state; it makes the number of resolver invocations, parses,
retains and releases observable. -/
inductive Event
  | resolve (name : List Nat)
  | callback (index : Nat) (name : List Nat)
  | dls_create (p : Nat)
  | dls_parse (p : Nat)
  | dls_retain (p : Nat)
  | dls_release (p : Nat)
  | style_create (p : Nat)
  | style_parse (p : Nat)
  | style_retain (p : Nat)
  | style_release (p : Nat)
  | segment_create (p : Nat)
  | segment_parse (p : Nat)
  | segment_download (p : Nat)
  | segment_release (p : Nat)
  deriving DecidableEq, Repr

/-- The memory the operations work on: one heap per object type, the future answers of
the allocator (`false` for an allocation that fails; an exhausted list means success) and
the record of events. -/
structure Memory where
  dls : List (Option DmDls)
  styles : List (Option DmStyle)
  segments : List (Option DmSegment)
  bands : List (Option DmBand)
  alloc_fate : List Bool
  log : List Event
  deriving DecidableEq, Repr

/-- A registered resolver: the callback and the context it is called with. The callback
maps `(context, name)` to the byte buffer it produces, `none` for `NULL`. -/
structure DmResolver where
  context : Nat
  resolve : Nat → List Nat → Option (List Nat)

/-- The loader. The two caches are arrays of pointers to cached objects. -/
structure DmLoader where
  reference_count : Nat
  autodownload : Bool
  resolvers : List DmResolver
  style_cache : List Nat
  dls_cache : List Nat

/-- Constants and collaborators that the sources use but do not define. -/
structure Env where
  /-- the flag `DmDls_DRUM_KIT` in the bank number of a sound bank entry -/
  DmDls_DRUM_KIT : Nat
  /-- the flag `DmInstrument_PATCH` -/
  DmInstrument_PATCH : Nat
  /-- the flag `DmInstrument_GS` -/
  DmInstrument_GS : Nat
  /-- the flag `DmInstrument_GM` -/
  DmInstrument_GM : Nat
  /-- the option bit `DmLoader_DOWNLOAD` -/
  DmLoader_DOWNLOAD : Nat
  /-- the C library function `c16rtomb`: conversion state and code unit to the value
  returned, the bytes stored at the destination and the new conversion state -/
  c16rtomb : Nat → Nat → Nat × List Nat × Nat
  /-- the parser of sound banks: bytes to status, GUID and entries it leaves in the object -/
  DmDls_parse : List Nat → DmResult × DmGuid × List DmDlsInstrument
  /-- the parser of styles: bytes to status, GUID and content it leaves in the object -/
  DmStyle_parse : List Nat → DmResult × DmGuid × List Nat
  /-- the parser of segments: bytes to status and content it leaves in the object -/
  DmSegment_parse : List Nat → DmResult × List Nat
  /-- the dependency download of the segment at the given address -/
  DmSegment_download : Memory → DmLoader → Nat → DmResult × DmLoader × Memory

/-- The result of a loader operation: the status returned, the caller's output slot (the
outer `none` when the caller passed no slot), the loader and the memory afterwards. -/
structure LoaderCall where
  rv : DmResult
  out : Option (Option Nat)
  loader : Option DmLoader
  mem : Memory

/-! ## Memory -/

/-- The object at address `p`, `none` when no live object is there. -/
def deref {α : Type} (h : List (Option α)) (p : Nat) : Option α :=
  match h[p]? with
  | some (some a) => some a
  | _ => none

/-- Modelled from the spec: `Dm_alloc`, whose result is `NULL` on memory exhaustion; the
answer is the next one of `alloc_fate`. -/
def Dm_alloc (m : Memory) : Bool × Memory :=
  match m.alloc_fate with
  | [] => (true, m)
  | ok :: rest => (ok, { m with alloc_fate := rest })

/-- The size of `size_t`. -/
def SIZE_MOD : Nat := 2 ^ 64

/-- Modelled from the spec: `DmDls_create`, following `DmBand_create` (Band.c lines 5-17):
a zeroed object with reference count 1, or `MEMORY_EXHAUSTED` with a `NULL` result. -/
def DmDls_create (m : Memory) : DmResult × Option Nat × Memory :=
  match Dm_alloc m with
  | (false, m1) => (DmResult.MEMORY_EXHAUSTED, none, m1)
  | (true, m1) =>
    (DmResult.SUCCESS, some m1.dls.length,
      { m1 with dls := m1.dls ++ [some ⟨1, ⟨0⟩, []⟩],
                log := m1.log ++ [Event.dls_create m1.dls.length] })

/-- Modelled from the spec: `DmDls_retain`, following `DmLoader_retain` (Loader.c lines
28-35); the pointer returned is the argument. -/
def DmDls_retain (m : Memory) (slf : Option Nat) : Option Memory :=
  match slf with
  | none => some m
  | some p =>
    match deref m.dls p with
    | none => none
    | some o =>
      some { m with dls := m.dls.set p (some { o with reference_count := (o.reference_count + 1) % SIZE_MOD }),
                    log := m.log ++ [Event.dls_retain p] }

/-- Modelled from the spec: `DmDls_release`, following `DmLoader_release` (Loader.c lines
37-51): the object is freed when the count reaches zero. -/
def DmDls_release (m : Memory) (slf : Option Nat) : Option Memory :=
  match slf with
  | none => some m
  | some p =>
    match deref m.dls p with
    | none => none
    | some o =>
      let refs := (o.reference_count + SIZE_MOD - 1) % SIZE_MOD
      if refs ≠ 0 then
        some { m with dls := m.dls.set p (some { o with reference_count := refs }),
                      log := m.log ++ [Event.dls_release p] }
      else
        some { m with dls := m.dls.set p none, log := m.log ++ [Event.dls_release p] }

/-- Modelled from the spec: `DmDls_parse` stores what the parser read in the object and
returns the parser's status. -/
def DmDls_parse (env : Env) (m : Memory) (p : Nat) (bytes : List Nat) :
    Option (DmResult × Memory) :=
  match deref m.dls p with
  | none => none
  | some o =>
    some ((env.DmDls_parse bytes).1,
      { m with dls := m.dls.set p (some { o with guid := (env.DmDls_parse bytes).2.1,
                                                 instruments := (env.DmDls_parse bytes).2.2 }),
               log := m.log ++ [Event.dls_parse p] })

/-- Modelled from the spec: `DmStyle_create`, following `DmBand_create`. -/
def DmStyle_create (m : Memory) : DmResult × Option Nat × Memory :=
  match Dm_alloc m with
  | (false, m1) => (DmResult.MEMORY_EXHAUSTED, none, m1)
  | (true, m1) =>
    (DmResult.SUCCESS, some m1.styles.length,
      { m1 with styles := m1.styles ++ [some ⟨1, ⟨0⟩, []⟩],
                log := m1.log ++ [Event.style_create m1.styles.length] })

/-- Modelled from the spec: `DmStyle_retain`, following `DmLoader_retain`. -/
def DmStyle_retain (m : Memory) (slf : Option Nat) : Option Memory :=
  match slf with
  | none => some m
  | some p =>
    match deref m.styles p with
    | none => none
    | some o =>
      some { m with styles := m.styles.set p (some { o with reference_count := (o.reference_count + 1) % SIZE_MOD }),
                    log := m.log ++ [Event.style_retain p] }

/-- Modelled from the spec: `DmStyle_release`, following `DmLoader_release`. -/
def DmStyle_release (m : Memory) (slf : Option Nat) : Option Memory :=
  match slf with
  | none => some m
  | some p =>
    match deref m.styles p with
    | none => none
    | some o =>
      let refs := (o.reference_count + SIZE_MOD - 1) % SIZE_MOD
      if refs ≠ 0 then
        some { m with styles := m.styles.set p (some { o with reference_count := refs }),
                      log := m.log ++ [Event.style_release p] }
      else
        some { m with styles := m.styles.set p none, log := m.log ++ [Event.style_release p] }

/-- Modelled from the spec: `DmStyle_parse` stores what the parser read in the object and
returns the parser's status. -/
def DmStyle_parse (env : Env) (m : Memory) (p : Nat) (bytes : List Nat) :
    Option (DmResult × Memory) :=
  match deref m.styles p with
  | none => none
  | some o =>
    some ((env.DmStyle_parse bytes).1,
      { m with styles := m.styles.set p (some { o with guid := (env.DmStyle_parse bytes).2.1,
                                                       payload := (env.DmStyle_parse bytes).2.2 }),
               log := m.log ++ [Event.style_parse p] })

/-- Modelled from the spec: `DmSegment_create`, following `DmBand_create`. -/
def DmSegment_create (m : Memory) : DmResult × Option Nat × Memory :=
  match Dm_alloc m with
  | (false, m1) => (DmResult.MEMORY_EXHAUSTED, none, m1)
  | (true, m1) =>
    (DmResult.SUCCESS, some m1.segments.length,
      { m1 with segments := m1.segments ++ [some ⟨1, []⟩],
                log := m1.log ++ [Event.segment_create m1.segments.length] })

/-- Modelled from the spec: `DmSegment_release`, following `DmLoader_release`. -/
def DmSegment_release (m : Memory) (slf : Option Nat) : Option Memory :=
  match slf with
  | none => some m
  | some p =>
    match deref m.segments p with
    | none => none
    | some o =>
      let refs := (o.reference_count + SIZE_MOD - 1) % SIZE_MOD
      if refs ≠ 0 then
        some { m with segments := m.segments.set p (some { o with reference_count := refs }),
                      log := m.log ++ [Event.segment_release p] }
      else
        some { m with segments := m.segments.set p none,
                      log := m.log ++ [Event.segment_release p] }

/-- Modelled from the spec: `DmSegment_parse` stores what the parser read in the object and
returns the parser's status. -/
def DmSegment_parse (env : Env) (m : Memory) (p : Nat) (bytes : List Nat) :
    Option (DmResult × Memory) :=
  match deref m.segments p with
  | none => none
  | some o =>
    some ((env.DmSegment_parse bytes).1,
      { m with segments := m.segments.set p (some { o with payload := (env.DmSegment_parse bytes).2 }),
               log := m.log ++ [Event.segment_parse p] })

/-- Modelled from the spec: the `add` operation of the growable arrays (`DmResolverList`,
`DmDlsCache`, `DmStyleCache`): appends without looking for duplicates; when the allocator
fails the array is unchanged and the status is `MEMORY_EXHAUSTED`. -/
def DmArray_add {α : Type} (m : Memory) (arr : List α) (itm : α) : DmResult × List α × Memory :=
  match Dm_alloc m with
  | (false, m1) => (DmResult.MEMORY_EXHAUSTED, arr, m1)
  | (true, m1) => (DmResult.SUCCESS, arr ++ [itm], m1)

/-! ## Loader -/

/-- The function `DmLoader_create` (Loader.c lines 7-26); `slf` is the caller's slot. -/
def DmLoader_create (env : Env) (m : Memory) (slf : Option (Option DmLoader)) (opt : Nat) :
    DmResult × Option (Option DmLoader) × Memory :=
  match slf with
  | none => (DmResult.INVALID_ARGUMENT, none, m)
  | some _ =>
    match Dm_alloc m with
    | (false, m1) => (DmResult.MEMORY_EXHAUSTED, some none, m1)
    | (true, m1) =>
      (DmResult.SUCCESS,
        some (some { reference_count := 1
                     autodownload := decide (opt &&& env.DmLoader_DOWNLOAD ≠ 0)
                     resolvers := []
                     style_cache := []
                     dls_cache := [] }),
        m1)

/-- The function `DmLoader_addResolver` (Loader.c lines 53-63). -/
def DmLoader_addResolver (m : Memory) (slf : Option DmLoader)
    (resolve : Option (Nat → List Nat → Option (List Nat))) (ctx : Nat) :
    DmResult × Option DmLoader × Memory :=
  match slf, resolve with
  | some l, some f =>
    match DmArray_add m l.resolvers { context := ctx, resolve := f } with
    | (rv, resolvers, m1) => (rv, some { l with resolvers := resolvers }, m1)
  | _, _ => (DmResult.INVALID_ARGUMENT, slf, m)

/-- The loop of `DmLoader_resolveName` (Loader.c lines 66-72) over the resolvers from
index `i` on; every callback invoked is recorded. -/
def DmLoader_resolveName_scan (name : List Nat) :
    List DmResolver → Nat → List Event → Option (List Nat) × List Event
  | [], _, log => (none, log)
  | resolver :: rest, i, log =>
    match resolver.resolve resolver.context name with
    | some bytes => (some bytes, log ++ [Event.callback i name])
    | none => DmLoader_resolveName_scan name rest (i + 1) (log ++ [Event.callback i name])

/-- The function `DmLoader_resolveName` (Loader.c lines 65-74); the length reported through
`length` is the length of the list returned. -/
def DmLoader_resolveName (m : Memory) (slf : DmLoader) (name : List Nat) :
    Option (List Nat) × Memory :=
  match DmLoader_resolveName_scan name slf.resolvers 0 (m.log ++ [Event.resolve name]) with
  | (bytes, log) => (bytes, { m with log := log })

/-- The function `DmLoader_getSegment` (Loader.c lines 76-110). -/
def DmLoader_getSegment (env : Env) (m : Memory) (slf : Option DmLoader)
    (name : Option (List Nat)) (segment : Option (Option Nat)) : Option LoaderCall :=
  match slf, name, segment with
  | some l, some n, some out =>
    match DmLoader_resolveName m l n with
    | (none, m1) => some ⟨DmResult.NOT_FOUND, some out, some l, m1⟩
    | (some bytes, m1) =>
      match DmSegment_create m1 with
      | (rv, q, m2) =>
        if rv ≠ DmResult.SUCCESS then some ⟨rv, some q, some l, m2⟩
        else
          match q with
          | none => none
          | some p =>
            match DmSegment_parse env m2 p bytes with
            | none => none
            | some (rv, m3) =>
              if rv ≠ DmResult.SUCCESS then
                match DmSegment_release m3 (some p) with
                | none => none
                | some m4 => some ⟨rv, some (some p), some l, m4⟩
              else if !l.autodownload then some ⟨DmResult.SUCCESS, some (some p), some l, m3⟩
              else
                match env.DmSegment_download
                    { m3 with log := m3.log ++ [Event.segment_download p] } l p with
                | (rv, l1, m4) =>
                  if rv ≠ DmResult.SUCCESS then
                    match DmSegment_release m4 (some p) with
                    | none => none
                    | some m5 => some ⟨rv, some (some p), some l1, m5⟩
                  else some ⟨DmResult.SUCCESS, some (some p), some l1, m4⟩
  | _, _, _ => some ⟨DmResult.INVALID_ARGUMENT, segment, slf, m⟩

/-- The first loop of `Dm_utf16ToUtf8` (Loader.c lines 113-116): the number of code units
before the terminator, undefined when the array holds no terminator. -/
def Dm_utf16Length : List Nat → Option Nat
  | [] => none
  | c :: rest =>
    if c = 0 then some 0
    else
      match Dm_utf16Length rest with
      | none => none
      | some n => some (n + 1)

/-- The conversion loop of `Dm_utf16ToUtf8` (Loader.c lines 124-128) over the code units
still to convert: `buf` is the allocated buffer, `j` the output offset, `state` the
conversion state. A store outside the buffer is undefined. -/
def Dm_utf16ToUtf8_loop (env : Env) : List Nat → List Nat → Nat → Nat → Option (List Nat × Nat)
  | [], buf, j, _ => some (buf, j)
  | c :: rest, buf, j, state =>
    match env.c16rtomb state c with
    | (ret, bytes, state1) =>
      if j + bytes.length ≤ buf.length then
        Dm_utf16ToUtf8_loop env rest (buf.take j ++ bytes ++ buf.drop (j + bytes.length))
          ((j + ret) % SIZE_MOD) state1
      else none

/-- The function `Dm_utf16ToUtf8` (Loader.c lines 112-132): the C string left in the
buffer. The buffer is zeroed by `Dm_alloc`; a failed allocation makes the stores undefined. -/
def Dm_utf16ToUtf8 (env : Env) (m : Memory) (u16 : List Nat) : Option (List Nat × Memory) :=
  match Dm_utf16Length u16 with
  | none => none
  | some len =>
    match Dm_alloc m with
    | (false, _) => none
    | (true, m1) =>
      match Dm_utf16ToUtf8_loop env (u16.take len)
          (List.replicate ((len * 4 + 1) % SIZE_MOD) 0) 0 0 with
      | none => none
      | some (buf, j) =>
        if j < buf.length then some ((buf.set j 0).takeWhile (fun b => b ≠ 0), m1)
        else none

/-- The cache scan at the head of `DmLoader_getDownloadableSound` and `DmLoader_getStyle`
(Loader.c lines 140-147 and 184-191): `guidAt` reads the GUID of the object a cache entry
points to. The result is the first entry with the requested GUID, `some none` when the
scan ends without a hit. -/
def Dm_cacheScan (guidAt : Nat → Option DmGuid) (guid : DmGuid) : List Nat → Option (Option Nat)
  | [] => some none
  | p :: rest =>
    match guidAt p with
    | none => none
    | some g => if DmGuid_equals guid g then some (some p) else Dm_cacheScan guidAt guid rest

/-- The GUID of the sound bank at address `p`. -/
def dlsGuidAt (m : Memory) (p : Nat) : Option DmGuid :=
  match deref m.dls p with
  | none => none
  | some o => some o.guid

/-- The GUID of the style at address `p`. -/
def styleGuidAt (m : Memory) (p : Nat) : Option DmGuid :=
  match deref m.styles p with
  | none => none
  | some o => some o.guid

/-- The function `DmLoader_getDownloadableSound` (Loader.c lines 134-176). -/
def DmLoader_getDownloadableSound (env : Env) (m : Memory) (slf : Option DmLoader)
    (ref : Option DmReference) (snd : Option (Option Nat)) : Option LoaderCall :=
  match slf, ref, snd with
  | some l, some r, some out =>
    match Dm_cacheScan (dlsGuidAt m) r.guid l.dls_cache with
    | none => none
    | some (some p) =>
      match DmDls_retain m (some p) with
      | none => none
      | some m1 => some ⟨DmResult.SUCCESS, some (some p), some l, m1⟩
    | some none =>
      match Dm_utf16ToUtf8 env m r.file with
      | none => none
      | some (name, m1) =>
        match DmLoader_resolveName m1 l name with
        | (none, m2) => some ⟨DmResult.NOT_FOUND, some out, some l, m2⟩
        | (some bytes, m2) =>
          match DmDls_create m2 with
          | (rv, q, m3) =>
            if rv ≠ DmResult.SUCCESS then some ⟨rv, some q, some l, m3⟩
            else
              match q with
              | none => none
              | some p =>
                match DmDls_parse env m3 p bytes with
                | none => none
                | some (rv, m4) =>
                  if rv ≠ DmResult.SUCCESS then
                    match DmDls_release m4 (some p) with
                    | none => none
                    | some m5 => some ⟨rv, some (some p), some l, m5⟩
                  else
                    match DmDls_retain m4 (some p) with
                    | none => none
                    | some m5 =>
                      match DmArray_add m5 l.dls_cache p with
                      | (rv, cache, m6) =>
                        some ⟨rv, some (some p), some { l with dls_cache := cache }, m6⟩
  | _, _, _ => some ⟨DmResult.INVALID_ARGUMENT, snd, slf, m⟩

/-- The function `DmLoader_getStyle` (Loader.c lines 178-219). -/
def DmLoader_getStyle (env : Env) (m : Memory) (slf : Option DmLoader)
    (ref : Option DmReference) (sty : Option (Option Nat)) : Option LoaderCall :=
  match slf, ref, sty with
  | some l, some r, some out =>
    match Dm_cacheScan (styleGuidAt m) r.guid l.style_cache with
    | none => none
    | some (some p) =>
      match DmStyle_retain m (some p) with
      | none => none
      | some m1 => some ⟨DmResult.SUCCESS, some (some p), some l, m1⟩
    | some none =>
      match Dm_utf16ToUtf8 env m r.file with
      | none => none
      | some (name, m1) =>
        match DmLoader_resolveName m1 l name with
        | (none, m2) => some ⟨DmResult.NOT_FOUND, some out, some l, m2⟩
        | (some bytes, m2) =>
          match DmStyle_create m2 with
          | (rv, q, m3) =>
            if rv ≠ DmResult.SUCCESS then some ⟨rv, some q, some l, m3⟩
            else
              match q with
              | none => none
              | some p =>
                match DmStyle_parse env m3 p bytes with
                | none => none
                | some (rv, m4) =>
                  if rv ≠ DmResult.SUCCESS then
                    match DmStyle_release m4 (some p) with
                    | none => none
                    | some m5 => some ⟨rv, some (some p), some l, m5⟩
                  else
                    match DmStyle_retain m4 (some p) with
                    | none => none
                    | some m5 =>
                      match DmArray_add m5 l.style_cache p with
                      | (rv, cache, m6) =>
                        some ⟨rv, some (some p), some { l with style_cache := cache }, m6⟩
  | _, _, _ => some ⟨DmResult.INVALID_ARGUMENT, sty, slf, m⟩

/-- A sequence of `DmLoader_addResolver` calls, one per resolver of the list and in the
order of the list; the result collects the status of every call. -/
def DmLoader_addResolvers :
    Memory → Option DmLoader → List DmResolver → List DmResult × Option DmLoader × Memory
  | m, slf, [] => ([], slf, m)
  | m, slf, r :: rest =>
    match DmLoader_addResolver m slf (some r.resolve) r.context with
    | (rv, slf1, m1) =>
      match DmLoader_addResolvers m1 slf1 rest with
      | (rvs, slf2, m2) => (rv :: rvs, slf2, m2)

/-- The resolvers of a sequence of registrations whose call returned `SUCCESS`. -/
def registered : List DmResolver → List DmResult → List DmResolver
  | r :: rest, rv :: rvs =>
    if rv = DmResult.SUCCESS then r :: registered rest rvs else registered rest rvs
  | _, _ => []

/-! ## Band -/

/-- The scan of `DmBand_findDlsInstrument` (Band.c lines 51-64) over the entries from
index `i` on; the result is the index of the entry returned, `none` for `NULL`. -/
def DmBand_findDlsInstrument_scan (drum_kit bank patch : Nat) :
    List DmDlsInstrument → Nat → Option Nat
  | [], _ => none
  | ins :: rest, i =>
    if ins.bank &&& drum_kit ≠ 0 then
      DmBand_findDlsInstrument_scan drum_kit bank patch rest (i + 1)
    else if ins.bank = bank ∧ ins.patch = patch then
      some i
    else
      DmBand_findDlsInstrument_scan drum_kit bank patch rest (i + 1)

/-- The function `DmBand_findDlsInstrument` (Band.c lines 46-72). -/
def DmBand_findDlsInstrument (env : Env) (slf : DmInstrument) (dls : DmDls) : Option Nat :=
  let bank := (slf.patch &&& 0xFF00) >>> 8
  let patch := slf.patch &&& 0xFF
  DmBand_findDlsInstrument_scan env.DmDls_DRUM_KIT bank patch dls.instruments 0

/-- The entries the matching algorithm is specified to select for patch code `p`: not
flagged as a drum kit, bank equal to the high byte and patch equal to the low byte. -/
def MatchesPatch (env : Env) (p : Nat) (e : DmDlsInstrument) : Prop :=
  e.bank &&& env.DmDls_DRUM_KIT = 0 ∧ e.bank = (p &&& 0xFF00) >>> 8 ∧ e.patch = p &&& 0xFF

instance (env : Env) (p : Nat) (e : DmDlsInstrument) : Decidable (MatchesPatch env p e) := by
  unfold MatchesPatch
  infer_instance

/-- The function `DmInstrument_free` (Band.c lines 150-158) on the instrument `slf` points
to; the result is the instrument afterwards. -/
def DmInstrument_free (m : Memory) (slf : Option DmInstrument) :
    Option (Option DmInstrument × Memory) :=
  match slf with
  | none => some (none, m)
  | some ins =>
    if ins.dls = none then some (some ins, m)
    else
      match DmDls_release m ins.dls_collection with
      | none => none
      | some m1 => some (some { ins with dls := none, dls_collection := none }, m1)

/-- The loop of `DmBand_release` (Band.c lines 38-40) over the instruments still to free. -/
def DmBand_release_loop : Memory → List DmInstrument → Option Memory
  | m, [] => some m
  | m, ins :: rest =>
    match DmInstrument_free m (some ins) with
    | none => none
    | some (_, m1) => DmBand_release_loop m1 rest

/-- The function `DmBand_release` (Band.c lines 28-44); freeing the instrument array and
the band leaves no object at the band's address. -/
def DmBand_release (m : Memory) (slf : Option Nat) : Option Memory :=
  match slf with
  | none => some m
  | some p =>
    match deref m.bands p with
    | none => none
    | some b =>
      let count := (b.reference_count + SIZE_MOD - 1) % SIZE_MOD
      let m1 := { m with bands := m.bands.set p (some { b with reference_count := count }) }
      if count > 0 then some m1
      else
        match DmBand_release_loop m1 b.instruments with
        | none => none
        | some m2 => some { m2 with bands := m2.bands.set p none }

/-- The loop of `DmBand_download` (Band.c lines 82-123) over the instruments still to
visit; the result is the status `rv`, the instruments afterwards, the loader and the memory. -/
def DmBand_download_loop (env : Env) :
    Memory → DmLoader → List DmInstrument → Option (DmResult × List DmInstrument × DmLoader × Memory)
  | m, l, [] => some (DmResult.SUCCESS, [], l, m)
  | m, l, instrument :: rest =>
    if instrument.dls ≠ none ∨ instrument.flags &&& env.DmInstrument_PATCH = 0 ∨
        instrument.flags &&& (env.DmInstrument_GS ||| env.DmInstrument_GM) ≠ 0 then
      match DmBand_download_loop env m l rest with
      | none => none
      | some (rv, rest1, l1, m1) => some (rv, instrument :: rest1, l1, m1)
    else
      match DmLoader_getDownloadableSound env m (some l) (some instrument.reference)
          (some instrument.dls_collection) with
      | some ⟨rv, some collection, some l1, m1⟩ =>
        if rv ≠ DmResult.SUCCESS then
          some (rv, { instrument with dls_collection := collection } :: rest, l1, m1)
        else
          match collection with
          | none => none
          | some p =>
            match deref m1.dls p with
            | none => none
            | some dls =>
              match DmBand_download_loop env m1 l1 rest with
              | none => none
              | some (rv1, rest1, l2, m2) =>
                some (rv1,
                  { instrument with
                    dls_collection := collection
                    dls := match DmBand_findDlsInstrument env instrument dls with
                      | none => none
                      | some i => some (p, i) } :: rest1, l2, m2)
      | _ => none

/-- The function `DmBand_download` (Band.c lines 74-126) on the band at address `slf`. -/
def DmBand_download (env : Env) (m : Memory) (slf : Option Nat) (loader : Option DmLoader) :
    Option (DmResult × Option DmLoader × Memory) :=
  match slf, loader with
  | some p, some l =>
    match deref m.bands p with
    | none => none
    | some b =>
      match DmBand_download_loop env m l b.instruments with
      | none => none
      | some (rv, instruments, l1, m1) =>
        some (rv, some l1, { m1 with bands := m1.bands.set p (some { b with instruments := instruments }) })
  | _, _ => some (DmResult.INVALID_ARGUMENT, loader, m)

/-- The loop of `DmBand_isSortOfSameAs` (Band.c lines 141-145): it runs over the
instruments of `oth` and reads the instrument of `slf` at the same index. -/
def DmBand_isSortOfSameAs_loop : List DmInstrument → List DmInstrument → Option Bool
  | _, [] => some true
  | [], _ :: _ => none
  | a :: slf, b :: oth =>
    if a.dls ≠ b.dls then some false else DmBand_isSortOfSameAs_loop slf oth

/-- The function `DmBand_isSortOfSameAs` (Band.c lines 128-148) on two band pointers. -/
def DmBand_isSortOfSameAs (m : Memory) (slf oth : Option Nat) : Option Bool :=
  if slf = oth then some true
  else
    match slf, oth with
    | some p, some q =>
      match deref m.bands p, deref m.bands q with
      | some a, some b =>
        if a.instruments.length ≠ b.instruments.length then some false
        else DmBand_isSortOfSameAs_loop a.instruments b.instruments
      | _, _ => none
    | _, _ => some false

/-! ## Observations used in the statements -/

/-- Whether an event is an invocation of the resolver chain. -/
def isResolve : Event → Bool
  | Event.resolve _ => true
  | _ => false

/-- The ways a call of `DmLoader_getDownloadableSound` with a loader, a reference and an
output slot ends, each with the conditions of its path and its result. -/
inductive DlsOutcome (env : Env) (m : Memory) (l : DmLoader) (ref : DmReference)
    (out : Option Nat) : LoaderCall → Prop
  | hit (p : Nat) (o : DmDls)
      (hscan : Dm_cacheScan (dlsGuidAt m) ref.guid l.dls_cache = some (some p))
      (ho : deref m.dls p = some o) :
      DlsOutcome env m l ref out
        ⟨DmResult.SUCCESS, some (some p), some l,
          { m with
            dls := m.dls.set p
              (some { o with reference_count := (o.reference_count + 1) % SIZE_MOD })
            log := m.log ++ [Event.dls_retain p] }⟩
  | not_found (name : List Nat) (m1 : Memory)
      (hscan : Dm_cacheScan (dlsGuidAt m) ref.guid l.dls_cache = some none)
      (hname : Dm_utf16ToUtf8 env m ref.file = some (name, m1))
      (hres : (DmLoader_resolveName m1 l name).1 = none) :
      DlsOutcome env m l ref out
        ⟨DmResult.NOT_FOUND, some out, some l, (DmLoader_resolveName m1 l name).2⟩
  | create_failed (name : List Nat) (m1 : Memory) (bytes : List Nat) (m3 : Memory)
      (hscan : Dm_cacheScan (dlsGuidAt m) ref.guid l.dls_cache = some none)
      (hname : Dm_utf16ToUtf8 env m ref.file = some (name, m1))
      (hres : (DmLoader_resolveName m1 l name).1 = some bytes)
      (halloc : Dm_alloc (DmLoader_resolveName m1 l name).2 = (false, m3)) :
      DlsOutcome env m l ref out ⟨DmResult.MEMORY_EXHAUSTED, some none, some l, m3⟩
  | parse_failed (name : List Nat) (m1 : Memory) (bytes : List Nat) (m3 : Memory)
      (hscan : Dm_cacheScan (dlsGuidAt m) ref.guid l.dls_cache = some none)
      (hname : Dm_utf16ToUtf8 env m ref.file = some (name, m1))
      (hres : (DmLoader_resolveName m1 l name).1 = some bytes)
      (halloc : Dm_alloc (DmLoader_resolveName m1 l name).2 = (true, m3))
      (hparse : (env.DmDls_parse bytes).1 ≠ DmResult.SUCCESS) :
      DlsOutcome env m l ref out
        ⟨(env.DmDls_parse bytes).1, some (some m3.dls.length), some l,
          { m3 with
            dls := m3.dls ++ [none]
            log := m3.log ++ [Event.dls_create m3.dls.length, Event.dls_parse m3.dls.length,
              Event.dls_release m3.dls.length] }⟩
  | add_failed (name : List Nat) (m1 : Memory) (bytes : List Nat) (m3 m6 : Memory)
      (hscan : Dm_cacheScan (dlsGuidAt m) ref.guid l.dls_cache = some none)
      (hname : Dm_utf16ToUtf8 env m ref.file = some (name, m1))
      (hres : (DmLoader_resolveName m1 l name).1 = some bytes)
      (halloc : Dm_alloc (DmLoader_resolveName m1 l name).2 = (true, m3))
      (hparse : (env.DmDls_parse bytes).1 = DmResult.SUCCESS)
      (hadd : Dm_alloc { m3 with
            dls := m3.dls ++ [some ⟨2, (env.DmDls_parse bytes).2.1, (env.DmDls_parse bytes).2.2⟩]
            log := m3.log ++ [Event.dls_create m3.dls.length, Event.dls_parse m3.dls.length,
              Event.dls_retain m3.dls.length] } = (false, m6)) :
      DlsOutcome env m l ref out
        ⟨DmResult.MEMORY_EXHAUSTED, some (some m3.dls.length), some l, m6⟩
  | added (name : List Nat) (m1 : Memory) (bytes : List Nat) (m3 m6 : Memory)
      (hscan : Dm_cacheScan (dlsGuidAt m) ref.guid l.dls_cache = some none)
      (hname : Dm_utf16ToUtf8 env m ref.file = some (name, m1))
      (hres : (DmLoader_resolveName m1 l name).1 = some bytes)
      (halloc : Dm_alloc (DmLoader_resolveName m1 l name).2 = (true, m3))
      (hparse : (env.DmDls_parse bytes).1 = DmResult.SUCCESS)
      (hadd : Dm_alloc { m3 with
            dls := m3.dls ++ [some ⟨2, (env.DmDls_parse bytes).2.1, (env.DmDls_parse bytes).2.2⟩]
            log := m3.log ++ [Event.dls_create m3.dls.length, Event.dls_parse m3.dls.length,
              Event.dls_retain m3.dls.length] } = (true, m6)) :
      DlsOutcome env m l ref out
        ⟨DmResult.SUCCESS, some (some m3.dls.length),
          some { l with dls_cache := l.dls_cache ++ [m3.dls.length] }, m6⟩

/-- Whether an event is a parse of a sound bank. -/
def isDlsParse : Event → Bool
  | Event.dls_parse _ => true
  | _ => false

/-- The entries of the sound bank cache point to live objects with pairwise distinct GUIDs. -/
def DlsCacheDistinct (m : Memory) (l : DmLoader) : Prop :=
  (∀ p ∈ l.dls_cache, (dlsGuidAt m p).isSome = true) ∧ (l.dls_cache.map (dlsGuidAt m)).Nodup

instance (m : Memory) (l : DmLoader) : Decidable (DlsCacheDistinct m l) := by
  unfold DlsCacheDistinct
  infer_instance

/-- A call returned a sound bank that carries the GUID of the reference it was requested
under. -/
def DlsGuidAsRequested (ref : DmReference) (r : LoaderCall) : Prop :=
  r.rv = DmResult.SUCCESS → ∀ p, r.out = some (some p) → dlsGuidAt r.mem p = some ref.guid

/-- The ways a call of `DmLoader_getStyle` with a loader, a reference and an
output slot ends, each with the conditions of its path and its result. -/
inductive StyleOutcome (env : Env) (m : Memory) (l : DmLoader) (ref : DmReference)
    (out : Option Nat) : LoaderCall → Prop
  | hit (p : Nat) (o : DmStyle)
      (hscan : Dm_cacheScan (styleGuidAt m) ref.guid l.style_cache = some (some p))
      (ho : deref m.styles p = some o) :
      StyleOutcome env m l ref out
        ⟨DmResult.SUCCESS, some (some p), some l,
          { m with
            styles := m.styles.set p
              (some { o with reference_count := (o.reference_count + 1) % SIZE_MOD })
            log := m.log ++ [Event.style_retain p] }⟩
  | not_found (name : List Nat) (m1 : Memory)
      (hscan : Dm_cacheScan (styleGuidAt m) ref.guid l.style_cache = some none)
      (hname : Dm_utf16ToUtf8 env m ref.file = some (name, m1))
      (hres : (DmLoader_resolveName m1 l name).1 = none) :
      StyleOutcome env m l ref out
        ⟨DmResult.NOT_FOUND, some out, some l, (DmLoader_resolveName m1 l name).2⟩
  | create_failed (name : List Nat) (m1 : Memory) (bytes : List Nat) (m3 : Memory)
      (hscan : Dm_cacheScan (styleGuidAt m) ref.guid l.style_cache = some none)
      (hname : Dm_utf16ToUtf8 env m ref.file = some (name, m1))
      (hres : (DmLoader_resolveName m1 l name).1 = some bytes)
      (halloc : Dm_alloc (DmLoader_resolveName m1 l name).2 = (false, m3)) :
      StyleOutcome env m l ref out ⟨DmResult.MEMORY_EXHAUSTED, some none, some l, m3⟩
  | parse_failed (name : List Nat) (m1 : Memory) (bytes : List Nat) (m3 : Memory)
      (hscan : Dm_cacheScan (styleGuidAt m) ref.guid l.style_cache = some none)
      (hname : Dm_utf16ToUtf8 env m ref.file = some (name, m1))
      (hres : (DmLoader_resolveName m1 l name).1 = some bytes)
      (halloc : Dm_alloc (DmLoader_resolveName m1 l name).2 = (true, m3))
      (hparse : (env.DmStyle_parse bytes).1 ≠ DmResult.SUCCESS) :
      StyleOutcome env m l ref out
        ⟨(env.DmStyle_parse bytes).1, some (some m3.styles.length), some l,
          { m3 with
            styles := m3.styles ++ [none]
            log := m3.log ++ [Event.style_create m3.styles.length, Event.style_parse m3.styles.length,
              Event.style_release m3.styles.length] }⟩
  | add_failed (name : List Nat) (m1 : Memory) (bytes : List Nat) (m3 m6 : Memory)
      (hscan : Dm_cacheScan (styleGuidAt m) ref.guid l.style_cache = some none)
      (hname : Dm_utf16ToUtf8 env m ref.file = some (name, m1))
      (hres : (DmLoader_resolveName m1 l name).1 = some bytes)
      (halloc : Dm_alloc (DmLoader_resolveName m1 l name).2 = (true, m3))
      (hparse : (env.DmStyle_parse bytes).1 = DmResult.SUCCESS)
      (hadd : Dm_alloc { m3 with
            styles := m3.styles ++ [some ⟨2, (env.DmStyle_parse bytes).2.1, (env.DmStyle_parse bytes).2.2⟩]
            log := m3.log ++ [Event.style_create m3.styles.length, Event.style_parse m3.styles.length,
              Event.style_retain m3.styles.length] } = (false, m6)) :
      StyleOutcome env m l ref out
        ⟨DmResult.MEMORY_EXHAUSTED, some (some m3.styles.length), some l, m6⟩
  | added (name : List Nat) (m1 : Memory) (bytes : List Nat) (m3 m6 : Memory)
      (hscan : Dm_cacheScan (styleGuidAt m) ref.guid l.style_cache = some none)
      (hname : Dm_utf16ToUtf8 env m ref.file = some (name, m1))
      (hres : (DmLoader_resolveName m1 l name).1 = some bytes)
      (halloc : Dm_alloc (DmLoader_resolveName m1 l name).2 = (true, m3))
      (hparse : (env.DmStyle_parse bytes).1 = DmResult.SUCCESS)
      (hadd : Dm_alloc { m3 with
            styles := m3.styles ++ [some ⟨2, (env.DmStyle_parse bytes).2.1, (env.DmStyle_parse bytes).2.2⟩]
            log := m3.log ++ [Event.style_create m3.styles.length, Event.style_parse m3.styles.length,
              Event.style_retain m3.styles.length] } = (true, m6)) :
      StyleOutcome env m l ref out
        ⟨DmResult.SUCCESS, some (some m3.styles.length),
          some { l with style_cache := l.style_cache ++ [m3.styles.length] }, m6⟩

/-- Whether an event is a parse of a style. -/
def isStyleParse : Event → Bool
  | Event.style_parse _ => true
  | _ => false

/-- The entries of the style cache point to live objects with pairwise distinct GUIDs. -/
def StyleCacheDistinct (m : Memory) (l : DmLoader) : Prop :=
  (∀ p ∈ l.style_cache, (styleGuidAt m p).isSome = true) ∧ (l.style_cache.map (styleGuidAt m)).Nodup

instance (m : Memory) (l : DmLoader) : Decidable (StyleCacheDistinct m l) := by
  unfold StyleCacheDistinct
  infer_instance

/-- A call returned a style that carries the GUID of the reference it was requested
under. -/
def StyleGuidAsRequested (ref : DmReference) (r : LoaderCall) : Prop :=
  r.rv = DmResult.SUCCESS → ∀ p, r.out = some (some p) → styleGuidAt r.mem p = some ref.guid

/-- No condition on a call. -/
def Unconstrained (_ : DmReference) (_ : LoaderCall) : Prop := True

/-- Sequences of loader operations: `Steps env P Q m0 l0 m l` holds when memory `m` and
loader `l` result from memory `m0` and loader `l0` by registering resolvers and calling
`DmLoader_getDownloadableSound` and `DmLoader_getStyle`, in any number and order, where
every call for a sound bank satisfies `P` and every call for a style satisfies `Q`. -/
inductive Steps (env : Env) (P Q : DmReference → LoaderCall → Prop) :
    Memory → DmLoader → Memory → DmLoader → Prop
  | refl (m : Memory) (l : DmLoader) : Steps env P Q m l m l
  | resolver (m0 : Memory) (l0 : DmLoader) (m : Memory) (l : DmLoader)
      (f : Nat → List Nat → Option (List Nat)) (ctx : Nat)
      (rv : DmResult) (l1 : DmLoader) (m1 : Memory) (hr : Steps env P Q m0 l0 m l)
      (h : DmLoader_addResolver m (some l) (some f) ctx = (rv, some l1, m1)) :
      Steps env P Q m0 l0 m1 l1
  | dls (m0 : Memory) (l0 : DmLoader) (m : Memory) (l : DmLoader) (ref : DmReference)
      (out : Option Nat) (r : LoaderCall) (l1 : DmLoader) (hr : Steps env P Q m0 l0 m l)
      (h : DmLoader_getDownloadableSound env m (some l) (some ref) (some out) = some r)
      (hl : r.loader = some l1) (hP : P ref r) :
      Steps env P Q m0 l0 r.mem l1
  | style (m0 : Memory) (l0 : DmLoader) (m : Memory) (l : DmLoader) (ref : DmReference)
      (out : Option Nat) (r : LoaderCall) (l1 : DmLoader) (hr : Steps env P Q m0 l0 m l)
      (h : DmLoader_getStyle env m (some l) (some ref) (some out) = some r)
      (hl : r.loader = some l1) (hQ : Q ref r) :
      Steps env P Q m0 l0 r.mem l1

/-- The loader states reachable from `DmLoader_create` by a sequence of loader operations. -/
def Reachable (env : Env) (P Q : DmReference → LoaderCall → Prop) (m : Memory)
    (l : DmLoader) : Prop :=
  ∃ (m0 : Memory) (slot : Option DmLoader) (opt : Nat) (l0 : DmLoader) (m1 : Memory),
    DmLoader_create env m0 (some slot) opt = (DmResult.SUCCESS, some (some l0), m1) ∧
      Steps env P Q m1 l0 m l

/-- Whether an event is a release of a sound bank. -/
def isDlsRelease : Event → Bool
  | Event.dls_release _ => true
  | _ => false

/-! ## Sample data -/

/-- An environment with one bit per flag (the drum-kit flag is bit 31), a `c16rtomb` that
stores one byte per code unit, and parsers that read an object with GUID 1 from every file;
the sound bank read has one entry, bank 0 patch 0. -/
def sampleEnv : Env where
  DmDls_DRUM_KIT := 2 ^ 31
  DmInstrument_PATCH := 1
  DmInstrument_GS := 2 ^ 9
  DmInstrument_GM := 2 ^ 8
  DmLoader_DOWNLOAD := 1
  c16rtomb := fun state c => (1, [c % 128], state)
  DmDls_parse := fun _ => (DmResult.SUCCESS, ⟨1⟩, [⟨0, 0⟩])
  DmStyle_parse := fun _ => (DmResult.SUCCESS, ⟨1⟩, [])
  DmSegment_parse := fun _ => (DmResult.SUCCESS, [])
  DmSegment_download := fun m l _ => (DmResult.SUCCESS, l, m)

/-- The sample environment with files whose objects carry GUID 2. -/
def otherGuidEnv : Env :=
  { sampleEnv with
    DmDls_parse := fun _ => (DmResult.SUCCESS, ⟨2⟩, [⟨0, 0⟩])
    DmStyle_parse := fun _ => (DmResult.SUCCESS, ⟨2⟩, []) }

/-- A reference with GUID 1 and file name `a`. -/
def sampleReference : DmReference := ⟨[], ⟨1⟩, [97, 0]⟩

/-- An instrument with a valid patch, patch code 0x0207, that is not bound. -/
def sampleInstrument : DmInstrument where
  reference := sampleReference
  patch := 0x0207
  flags := 1
  channel := 0
  pan := 0
  volume := 0
  dls := none
  dls_collection := none

/-- A resolver that serves the file `a`. -/
def sampleResolver : DmResolver where
  context := 0
  resolve := fun _ name => if name = [97] then some [1, 2, 3] else none

/-- A loader with the sample resolver and empty caches. -/
def sampleLoader : DmLoader where
  reference_count := 1
  autodownload := false
  resolvers := [sampleResolver]
  style_cache := []
  dls_cache := []

/-- A memory without objects. -/
def emptyMemory : Memory := ⟨[], [], [], [], [], []⟩

/-- A memory that holds one band with the sample instrument, at address 0. -/
def bandMemory : Memory := { emptyMemory with bands := [some ⟨1, [sampleInstrument]⟩] }

/-- A loader as `DmLoader_create` makes it, without the download option. -/
def freshLoader : DmLoader where
  reference_count := 1
  autodownload := false
  resolvers := []
  style_cache := []
  dls_cache := []

/-- The result of the first request for the sample reference in the sample environment. -/
def sampleDlsCall : LoaderCall where
  rv := DmResult.SUCCESS
  out := some (some 0)
  loader := some { sampleLoader with dls_cache := [0] }
  mem :=
    { dls := [some ⟨2, ⟨1⟩, [⟨0, 0⟩]⟩]
      styles := []
      segments := []
      bands := []
      alloc_fate := []
      log := [Event.resolve [97], Event.callback 0 [97], Event.dls_create 0, Event.dls_parse 0,
        Event.dls_retain 0] }

/-- The result of the first request for the sample reference as a style. -/
def sampleStyleCall : LoaderCall where
  rv := DmResult.SUCCESS
  out := some (some 0)
  loader := some { sampleLoader with style_cache := [0] }
  mem :=
    { dls := []
      styles := [some ⟨2, ⟨1⟩, []⟩]
      segments := []
      bands := []
      alloc_fate := []
      log := [Event.resolve [97], Event.callback 0 [97], Event.style_create 0,
        Event.style_parse 0, Event.style_retain 0] }

/-- The result of the first request for the sample reference (GUID 1) when the file holds
an object with GUID 2. -/
def otherGuidCall1 : LoaderCall where
  rv := DmResult.SUCCESS
  out := some (some 0)
  loader := some { sampleLoader with dls_cache := [0] }
  mem :=
    { dls := [some ⟨2, ⟨2⟩, [⟨0, 0⟩]⟩]
      styles := []
      segments := []
      bands := []
      alloc_fate := []
      log := [Event.resolve [97], Event.callback 0 [97], Event.dls_create 0, Event.dls_parse 0,
        Event.dls_retain 0] }

/-- The result of the second request for the same reference after `otherGuidCall1`. -/
def otherGuidCall2 : LoaderCall where
  rv := DmResult.SUCCESS
  out := some (some 1)
  loader := some { sampleLoader with dls_cache := [0, 1] }
  mem :=
    { dls := [some ⟨2, ⟨2⟩, [⟨0, 0⟩]⟩, some ⟨2, ⟨2⟩, [⟨0, 0⟩]⟩]
      styles := []
      segments := []
      bands := []
      alloc_fate := []
      log := [Event.resolve [97], Event.callback 0 [97], Event.dls_create 0, Event.dls_parse 0,
        Event.dls_retain 0, Event.resolve [97], Event.callback 0 [97], Event.dls_create 1,
        Event.dls_parse 1, Event.dls_retain 1] }

/-- A memory with two bands whose instruments are unbound, at addresses 0 and 1. -/
def twoBandsMemory : Memory :=
  { emptyMemory with
    bands := [some ⟨1, [sampleInstrument]⟩, some ⟨1, [{ sampleInstrument with channel := 3 }]⟩] }

/-- The matched entry and the collection handle of every instrument of the band at
address `p`. -/
def bindings (m : Memory) (p : Nat) : Option (List (Option (Nat × Nat) × Option Nat)) :=
  match deref m.bands p with
  | none => none
  | some b => some (b.instruments.map (fun i => (i.dls, i.dls_collection)))

/-! ## Band download: the skip condition -/

/-- The instruments `DmBand_download` passes over without a loader request (Band.c lines
85-105): a matched entry is present, the valid-patch flag is missing, or the GS or GM flag
is set. -/
def DmBand_download_skips (env : Env) (instrument : DmInstrument) : Prop :=
  instrument.dls ≠ none ∨ instrument.flags &&& env.DmInstrument_PATCH = 0 ∨
    instrument.flags &&& (env.DmInstrument_GS ||| env.DmInstrument_GM) ≠ 0

instance (env : Env) (instrument : DmInstrument) :
    Decidable (DmBand_download_skips env instrument) := by
  unfold DmBand_download_skips
  infer_instance

/-! ## Sample bands -/

/-- An instrument like the sample one whose patch code selects bank 0, patch 0. -/
def boundInstrument : DmInstrument := { sampleInstrument with patch := 0 }

/-- An instrument whose reference names the file `b`, which the sample resolver does not
serve. -/
def missingInstrument : DmInstrument :=
  { sampleInstrument with reference := ⟨[], ⟨3⟩, [98, 0]⟩, channel := 1 }

/-- A memory that holds one band at address 0 with three instruments: the first can be
bound, the file of the second is not served, the third is like the first on channel 2. -/
def threeInstrumentsMemory : Memory :=
  { emptyMemory with
    bands := [some ⟨1, [boundInstrument, missingInstrument,
      { boundInstrument with channel := 2 }]⟩] }

/-- The memory after the request for the first instrument of the three. -/
def threeInstrumentsMemory1 : Memory :=
  { threeInstrumentsMemory with
    dls := [some ⟨2, ⟨1⟩, [⟨0, 0⟩]⟩]
    log := [Event.resolve [97], Event.callback 0 [97], Event.dls_create 0, Event.dls_parse 0,
      Event.dls_retain 0] }

/-- The result of the request for the second instrument of the three: the file is not
found, nothing is stored. -/
def missingCall : LoaderCall where
  rv := DmResult.NOT_FOUND
  out := some none
  loader := some { sampleLoader with dls_cache := [0] }
  mem :=
    { threeInstrumentsMemory1 with
      log := threeInstrumentsMemory1.log ++ [Event.resolve [98], Event.callback 0 [98]] }

/-- A memory with a sound bank at address 0 and, at address 0, a band of four instruments:
one bound to entry 0 of that sound bank, one without the valid-patch flag, one with the GM
flag, and the sample instrument. -/
def skipBandMemory : Memory :=
  { emptyMemory with
    dls := [some ⟨1, ⟨9⟩, [⟨0, 0⟩]⟩]
    bands := [some ⟨1, [{ sampleInstrument with dls := some (0, 0), dls_collection := some 0 },
      { sampleInstrument with flags := 0 }, { sampleInstrument with flags := 257 },
      sampleInstrument]⟩] }

/-- The result of the request for the sample instrument in `skipBandMemory`: the sound bank
read is stored at address 1. -/
def skipBandCall : LoaderCall where
  rv := DmResult.SUCCESS
  out := some (some 1)
  loader := some { sampleLoader with dls_cache := [1] }
  mem :=
    { skipBandMemory with
      dls := [some ⟨1, ⟨9⟩, [⟨0, 0⟩]⟩, some ⟨2, ⟨1⟩, [⟨0, 0⟩]⟩]
      log := [Event.resolve [97], Event.callback 0 [97], Event.dls_create 1, Event.dls_parse 1,
        Event.dls_retain 1] }

/-- A memory that holds one band at address 0 whose only instrument can be bound. -/
def boundBandMemory : Memory := { emptyMemory with bands := [some ⟨1, [boundInstrument]⟩] }

/-- The memory after the download of the band of `boundBandMemory`. -/
def boundBandMemory1 : Memory :=
  { dls := [some ⟨2, ⟨1⟩, [⟨0, 0⟩]⟩]
    styles := []
    segments := []
    bands := [some ⟨1, [{ boundInstrument with dls := some (0, 0), dls_collection := some 0 }]⟩]
    alloc_fate := []
    log := [Event.resolve [97], Event.callback 0 [97], Event.dls_create 0, Event.dls_parse 0,
      Event.dls_retain 0] }

/-- The sample environment with parsers that report a corrupt file. -/
def corruptEnv : Env :=
  { sampleEnv with
    DmDls_parse := fun _ => (DmResult.FILE_CORRUPT, ⟨0⟩, [])
    DmStyle_parse := fun _ => (DmResult.FILE_CORRUPT, ⟨0⟩, [])
    DmSegment_parse := fun _ => (DmResult.FILE_CORRUPT, []) }

/-! ## The conversion of file names -/

/-- The UTF-8 encoding of the code point `cp`. -/
def utf8Bytes (cp : Nat) : List Nat :=
  if cp < 0x80 then [cp]
  else if cp < 0x800 then [0xC0 ||| (cp >>> 6), 0x80 ||| (cp &&& 0x3F)]
  else if cp < 0x10000 then
    [0xE0 ||| (cp >>> 12), 0x80 ||| ((cp >>> 6) &&& 0x3F), 0x80 ||| (cp &&& 0x3F)]
  else
    [0xF0 ||| (cp >>> 18), 0x80 ||| ((cp >>> 12) &&& 0x3F), 0x80 ||| ((cp >>> 6) &&& 0x3F),
      0x80 ||| (cp &&& 0x3F)]

/-- The C library function `c16rtomb` in a UTF-8 locale, after ISO C11 7.28.1.2: the
conversion state is 0 or the high surrogate seen last. A high surrogate is kept in the
state and nothing is stored (the value returned is 0); a low surrogate after it completes
the pair; a low surrogate without a high one before it, or a high surrogate followed by
anything else, is an encoding error, for which the value returned is `(size_t) -1` and
nothing is stored. -/
def c16rtomb_utf8 (state c16 : Nat) : Nat × List Nat × Nat :=
  if state = 0 then
    if 0xD800 ≤ c16 ∧ c16 < 0xDC00 then (0, [], c16)
    else if 0xDC00 ≤ c16 ∧ c16 < 0xE000 then (SIZE_MOD - 1, [], 0)
    else ((utf8Bytes c16).length, utf8Bytes c16, 0)
  else if 0xDC00 ≤ c16 ∧ c16 < 0xE000 then
    (4, utf8Bytes (0x10000 + (state - 0xD800) * 0x400 + (c16 - 0xDC00)), 0)
  else (SIZE_MOD - 1, [], 0)

/-- The sample environment with the UTF-8 `c16rtomb`. -/
def utf8Env : Env := { sampleEnv with c16rtomb := c16rtomb_utf8 }

/-! ## Synth -/

/-- The output modes of the synthesis library used by `DmSynth_render`. -/
inductive TsfOutputMode
  | TSF_STEREO_INTERLEAVED
  | TSF_MONO
  deriving DecidableEq, Repr

/-- A call of the synthesis library as `Synth.c` makes it. The context is the pointer
passed, `none` for `NULL`. A pan or volume is `some n` for `(float) n / 127.F` and `none`
for the default constant; a velocity `n` stands for `(float) n / 127.f`. -/
inductive TsfCall
  | create (ctx : Nat)
  | close (ctx : Option Nat)
  | set_max_voices (ctx : Option Nat) (voices : Nat)
  | channel_set_bank_preset (ctx : Option Nat) (channel bank preset : Nat)
  | channel_set_pan (ctx : Option Nat) (channel : Nat) (pan : Option Nat)
  | channel_set_volume (ctx : Option Nat) (channel : Nat) (volume : Option Nat)
  | channel_midi_control (ctx : Option Nat) (channel control : Nat) (value : Int)
  | channel_note_on (ctx : Option Nat) (channel key velocity : Nat)
  | channel_note_off (ctx : Option Nat) (channel key : Nat)
  | channel_note_off_all (ctx : Option Nat) (channel : Nat)
  | set_output (ctx : Option Nat) (mode : TsfOutputMode) (samplerate : Nat) (gain : Nat)
  | render_float (ctx : Option Nat) (samples : Int) (mixing : Bool)
  | render_short (ctx : Option Nat) (samples : Int) (mixing : Bool)
  deriving DecidableEq, Repr

/-- The synthesis contexts seen from `Synth.c`: the number of contexts constructed so far
(a new context gets this number as its address) and the record of the library calls. -/
structure TsfWorld where
  created : Nat
  calls : List TsfCall
  deriving DecidableEq, Repr

/-- What `Synth.c` takes from outside the three source files: flag constants of
`_Internal.h`, the context construction and the rendering of the synthesis library. -/
structure SynthEnv where
  /-- the flag `DmInstrument_PAN` -/
  DmInstrument_PAN : Nat
  /-- the flag `DmInstrument_VOLUME` -/
  DmInstrument_VOLUME : Nat
  /-- the render option `DmRender_STEREO` -/
  DmRender_STEREO : Nat
  /-- the render option `DmRender_FLOAT` -/
  DmRender_FLOAT : Nat
  /-- the status of `DmSynth_createTsfForInstrument` for an instrument -/
  DmSynth_createTsfForInstrument : Memory → DmInstrument → DmResult
  /-- the library function `tsf_render_float`: context, buffer, sample count and mixing flag
  to the buffer afterwards -/
  tsf_render_float : Nat → List Int → Int → Bool → List Int
  /-- the library function `tsf_render_short`, likewise -/
  tsf_render_short : Nat → List Int → Int → Bool → List Int

/-- The struct `DmSynth`: the band pointer, the channel table (`none` for `NULL`, a slot
`none` for a `NULL` context) and `channel_count`. -/
structure DmSynth where
  band : Option Nat
  channels : Option (List (Option Nat))
  channel_count : Nat
  deriving DecidableEq, Repr

/-- The static function `max` of Synth.c (lines 7-9). -/
def DmSynth_max (a b : Nat) : Nat := if a ≥ b then a else b

/-- The function `DmSynth_init` (Synth.c lines 11-17): the struct is zeroed. -/
def DmSynth_init (slf : Option DmSynth) : Option DmSynth :=
  match slf with
  | none => none
  | some _ => some ⟨none, none, 0⟩

/-- The function `DmSynth_freeChannels` (Synth.c lines 19-28): every slot below
`channel_count` is passed to `tsf_close`, then the table is freed and the count reset.
Reading a slot the table does not have is undefined. -/
def DmSynth_freeChannels (w : TsfWorld) (slf : DmSynth) : Option (DmSynth × TsfWorld) :=
  match slf.channels with
  | none =>
    if slf.channel_count = 0 then some ({ slf with channels := none, channel_count := 0 }, w)
    else none
  | some table =>
    if slf.channel_count ≤ table.length then
      some ({ slf with channels := none, channel_count := 0 },
        { w with calls := w.calls ++ (table.take slf.channel_count).map TsfCall.close })
    else none

/-- The function `DmSynth_free` (Synth.c lines 30-36). -/
def DmSynth_free (w : TsfWorld) (slf : Option DmSynth) : Option (Option DmSynth × TsfWorld) :=
  match slf with
  | none => some (none, w)
  | some s =>
    match DmSynth_freeChannels w s with
    | none => none
    | some (s1, w1) => some (some s1, w1)

/-- The first loop of `DmSynth_sendBandUpdate` (Synth.c lines 50-52). -/
def DmSynth_sendBandUpdate_count : List DmInstrument → Nat → Nat
  | [], count => count
  | ins :: rest, count => DmSynth_sendBandUpdate_count rest (DmSynth_max ins.channel count)

/-- The second loop of `DmSynth_sendBandUpdate` (Synth.c lines 58-92) over the instruments
still to visit. A store into a table that is `NULL` or has no slot for the channel is
undefined. -/
def DmSynth_sendBandUpdate_loop (env : SynthEnv) (m : Memory) :
    List DmInstrument → Option (List (Option Nat)) → TsfWorld →
      Option (Option (List (Option Nat)) × TsfWorld)
  | [], table, w => some (table, w)
  | ins :: rest, table, w =>
    if env.DmSynth_createTsfForInstrument m ins ≠ DmResult.SUCCESS then
      DmSynth_sendBandUpdate_loop env m rest table w
    else
      match table with
      | none => none
      | some t =>
        if ins.channel < t.length then
          DmSynth_sendBandUpdate_loop env m rest (some (t.set ins.channel (some w.created)))
            { created := w.created + 1
              calls := w.calls ++
                [TsfCall.create w.created, TsfCall.set_max_voices (some w.created) 1,
                  TsfCall.channel_set_bank_preset (some w.created) 0 0 0,
                  TsfCall.channel_set_pan (some w.created) 0
                    (if ins.flags &&& env.DmInstrument_PAN ≠ 0 then some ins.pan else none),
                  TsfCall.channel_set_volume (some w.created) 0
                    (if ins.flags &&& env.DmInstrument_VOLUME ≠ 0 then some ins.volume
                      else none)] }
        else none

/-- The function `DmSynth_sendBandUpdate` (Synth.c lines 38-93). The table allocated has
`sizeof(tsf*) * channel_count` bytes, with pointers of 8 bytes, and is zeroed by
`Dm_alloc`; when the allocation fails it is `NULL`. -/
def DmSynth_sendBandUpdate (env : SynthEnv) (m : Memory) (w : TsfWorld)
    (slf : Option DmSynth) (band : Option Nat) : Option (Option DmSynth × Memory × TsfWorld) :=
  match slf with
  | none => some (none, m, w)
  | some s =>
    match DmSynth_freeChannels w { s with band := band } with
    | none => none
    | some (s1, w1) =>
      match band with
      | none => some (some s1, m, w1)
      | some b =>
        match deref m.bands b with
        | none => none
        | some bd =>
          let count := (DmSynth_sendBandUpdate_count bd.instruments s1.channel_count + 1) % SIZE_MOD
          match Dm_alloc m with
          | (ok, m1) =>
            match DmSynth_sendBandUpdate_loop env m1 bd.instruments
                (if ok then some (List.replicate (8 * count % SIZE_MOD / 8) none) else none)
                w1 with
            | none => none
            | some (table, w2) =>
              some (some { s1 with channels := table, channel_count := count }, m1, w2)

/-- The slot read by the four event functions (Synth.c lines 95-131) after their range
check: `none` when the functions return early, else the library call made with the slot's
content. Reading a slot the table does not have is undefined. -/
def DmSynth_sendEvent (w : TsfWorld) (slf : Option DmSynth) (channel : Nat)
    (call : Option Nat → TsfCall) : Option TsfWorld :=
  match slf with
  | none => some w
  | some s =>
    if channel ≥ s.channel_count then some w
    else
      match s.channels with
      | none => none
      | some table =>
        match table[channel]? with
        | none => none
        | some ctx => some { w with calls := w.calls ++ [call ctx] }

/-- The function `DmSynth_sendControl` (Synth.c lines 95-104). -/
def DmSynth_sendControl (w : TsfWorld) (slf : Option DmSynth) (channel control : Nat)
    (value : Int) : Option TsfWorld :=
  DmSynth_sendEvent w slf channel (fun ctx => TsfCall.channel_midi_control ctx 0 control value)

/-- The function `DmSynth_sendNoteOn` (Synth.c lines 106-115). -/
def DmSynth_sendNoteOn (w : TsfWorld) (slf : Option DmSynth) (channel note velocity : Nat) :
    Option TsfWorld :=
  DmSynth_sendEvent w slf channel (fun ctx => TsfCall.channel_note_on ctx 0 note velocity)

/-- The function `DmSynth_sendNoteOff` (Synth.c lines 117-123). -/
def DmSynth_sendNoteOff (w : TsfWorld) (slf : Option DmSynth) (channel note : Nat) :
    Option TsfWorld :=
  DmSynth_sendEvent w slf channel (fun ctx => TsfCall.channel_note_off ctx 0 note)

/-- The function `DmSynth_sendNoteOffAll` (Synth.c lines 125-131). -/
def DmSynth_sendNoteOffAll (w : TsfWorld) (slf : Option DmSynth) (channel : Nat) :
    Option TsfWorld :=
  DmSynth_sendEvent w slf channel (fun ctx => TsfCall.channel_note_off_all ctx 0)

/-- A synth whose table has as many slots as `channel_count` says, or is `NULL` with a
count of 0: the states `DmSynth_init` and a `DmSynth_sendBandUpdate` with a successful
allocation leave. -/
def DmSynth_consistent (s : DmSynth) : Prop :=
  match s.channels with
  | none => s.channel_count = 0
  | some table => table.length = s.channel_count

instance (s : DmSynth) : Decidable (DmSynth_consistent s) := by
  unfold DmSynth_consistent
  cases s.channels <;> infer_instance

/-- The contexts a record of library calls closes. -/
def closedContexts (calls : List TsfCall) : List Nat :=
  calls.filterMap (fun c => match c with
    | TsfCall.close ctx => ctx
    | _ => none)

/-- A rendering in place as a sample of the library's: the first `k` entries of the
buffer are written, the others and the length of the buffer are kept; with mixing 1 is
added to what an entry held, without mixing the entry becomes 1. -/
def renderInPlace (k : Nat) (buf : List Int) (mixing : Bool) : List Int :=
  (buf.take k).map (fun x => if mixing then x + 1 else 1) ++ buf.drop k

/-- A synth environment with the flag values of the library; a context can be constructed
for an instrument that is bound; the rendering is in place and writes one entry per sample
(mono output). -/
def sampleSynthEnv : SynthEnv where
  DmInstrument_PAN := 2 ^ 5
  DmInstrument_VOLUME := 2 ^ 6
  DmRender_STEREO := 4
  DmRender_FLOAT := 2
  DmSynth_createTsfForInstrument := fun _ ins =>
    if ins.dls = none then DmResult.INVALID_ARGUMENT else DmResult.SUCCESS
  tsf_render_float := fun _ buf samples mixing => renderInPlace samples.toNat buf mixing
  tsf_render_short := fun _ buf samples mixing => renderInPlace samples.toNat buf mixing

/-- An instrument bound to entry 0 of the sound bank at address 0, on channel `channel`. -/
def synthInstrument (channel : Nat) : DmInstrument :=
  { sampleInstrument with
    patch := 0
    channel := channel
    dls := some (0, 0)
    dls_collection := some 0 }

/-- A memory with one sound bank and three bands of bound instruments: on channels 0 and 3
(address 0), twice on channel 0 (address 1), on channel 1 only (address 2). -/
def synthMemory : Memory :=
  { emptyMemory with
    dls := [some ⟨6, ⟨1⟩, [⟨0, 0⟩]⟩]
    bands := [some ⟨1, [synthInstrument 0, synthInstrument 3]⟩,
      some ⟨1, [synthInstrument 0, synthInstrument 0]⟩,
      some ⟨1, [synthInstrument 1]⟩] }

/-- The synth as `DmSynth_init` leaves it. -/
def freshSynth : DmSynth := ⟨none, none, 0⟩

/-- No context constructed, no library call made. -/
def freshWorld : TsfWorld := ⟨0, []⟩

/-! ## Theorems -/

theorem findDlsInstrument_scan_cons (d b q : Nat) (x : DmDlsInstrument)
    (rest : List DmDlsInstrument) (k : Nat) :
    DmBand_findDlsInstrument_scan d b q (x :: rest) k =
      if x.bank &&& d = 0 ∧ x.bank = b ∧ x.patch = q then some k
      else DmBand_findDlsInstrument_scan d b q rest (k + 1) := by
  rw [DmBand_findDlsInstrument_scan]
  by_cases hd : x.bank &&& d = 0
  · by_cases hm : x.bank = b ∧ x.patch = q
    · rw [if_neg (by simpa using hd), if_pos hm, if_pos ⟨hd, hm⟩]
    · rw [if_neg (by simpa using hd), if_neg hm, if_neg (fun h => hm h.2)]
  · rw [if_pos hd, if_neg (fun h => hd h.1)]

theorem findDlsInstrument_scan_some (d b q : Nat) (l : List DmDlsInstrument) (k i : Nat) :
    DmBand_findDlsInstrument_scan d b q l k = some i ↔
      k ≤ i ∧ (∃ e, l[i - k]? = some e ∧ e.bank &&& d = 0 ∧ e.bank = b ∧ e.patch = q) ∧
        ∀ j, j < i - k → ∀ e, l[j]? = some e → ¬ (e.bank &&& d = 0 ∧ e.bank = b ∧ e.patch = q) := by
  induction l generalizing k with
  | nil => simp [DmBand_findDlsInstrument_scan]
  | cons x rest ih =>
    rw [findDlsInstrument_scan_cons]
    by_cases hx : x.bank &&& d = 0 ∧ x.bank = b ∧ x.patch = q
    · rw [if_pos hx]
      constructor
      · intro h
        have hki : k = i := Option.some.inj h
        subst hki
        refine ⟨le_refl _, ⟨x, ?_, hx⟩, ?_⟩
        · simp
        · intro j hj
          omega
      · rintro ⟨hk, -, hall⟩
        by_contra hne
        have hki : k ≠ i := fun h => hne (by rw [h])
        exact hall 0 (by omega) x (by simp) hx
    · rw [if_neg hx, ih]
      constructor
      · rintro ⟨hk, ⟨e, he, hp⟩, hall⟩
        refine ⟨by omega, ⟨e, ?_, hp⟩, ?_⟩
        · have : i - k = (i - (k + 1)) + 1 := by omega
          rw [this]
          simpa using he
        · intro j hj e' he'
          cases j with
          | zero =>
            have : x = e' := by simpa using he'
            subst this
            exact hx
          | succ j =>
            have he2 : rest[j]? = some e' := by simpa using he'
            exact hall j (by omega) e' he2
      · rintro ⟨hk, ⟨e, he, hp⟩, hall⟩
        have hne : i ≠ k := by
          intro h
          subst h
          have : x = e := by simpa using he
          subst this
          exact hx hp
        refine ⟨by omega, ⟨e, ?_, hp⟩, ?_⟩
        · have : i - k = (i - (k + 1)) + 1 := by omega
          rw [this] at he
          simpa using he
        · intro j hj e' he'
          exact hall (j + 1) (by omega) e' (by simpa using he')

theorem findDlsInstrument_scan_none (d b q : Nat) (l : List DmDlsInstrument) (k : Nat) :
    DmBand_findDlsInstrument_scan d b q l k = none ↔
      ∀ e ∈ l, ¬ (e.bank &&& d = 0 ∧ e.bank = b ∧ e.patch = q) := by
  induction l generalizing k with
  | nil => simp [DmBand_findDlsInstrument_scan]
  | cons x rest ih =>
    rw [findDlsInstrument_scan_cons]
    by_cases hx : x.bank &&& d = 0 ∧ x.bank = b ∧ x.patch = q
    · rw [if_pos hx]
      constructor
      · intro h
        cases h
      · intro h
        exact absurd hx (h x (List.mem_cons_self _ _))
    · rw [if_neg hx, ih]
      constructor
      · intro h e he
        rcases List.mem_cons.mp he with rfl | he
        · exact hx
        · exact h e he
      · intro h e he
        exact h e (List.mem_cons_of_mem _ he)

/-- C2: for every patch code and every collection, `DmBand_findDlsInstrument` returns the
first entry in stored order that is not flagged as a drum kit and whose bank is the high
byte and whose patch is the low byte of the patch code; it returns no match exactly when
the collection has no such entry. -/
theorem findDlsInstrument_first_match (env : Env) (slf : DmInstrument) (dls : DmDls) :
    (∀ i, DmBand_findDlsInstrument env slf dls = some i ↔
      (∃ e, dls.instruments[i]? = some e ∧ MatchesPatch env slf.patch e) ∧
        ∀ j, j < i → ∀ e, dls.instruments[j]? = some e → ¬ MatchesPatch env slf.patch e) ∧
    (DmBand_findDlsInstrument env slf dls = none ↔
      ∀ e ∈ dls.instruments, ¬ MatchesPatch env slf.patch e) := by
  constructor
  · intro i
    unfold DmBand_findDlsInstrument MatchesPatch
    rw [findDlsInstrument_scan_some]
    simp
  · unfold DmBand_findDlsInstrument MatchesPatch
    rw [findDlsInstrument_scan_none]

/-- C3: with patch code 0x0207 and a collection that holds a non-drum entry with bank 2 and
patch 7 the matching algorithm succeeds and returns a non-drum entry with bank 2 and patch
7, which is that very entry when it is the only one; a collection whose entries are all
flagged as drum kits yields no match for any patch code; an entry returned is never a
drum-kit entry. -/
theorem findDlsInstrument_bank2_patch7 (env : Env) :
    (∀ (slf : DmInstrument) (dls : DmDls), slf.patch = 0x0207 →
      (∃ e ∈ dls.instruments, e.bank &&& env.DmDls_DRUM_KIT = 0 ∧ e.bank = 2 ∧ e.patch = 7) →
      ∃ i e, DmBand_findDlsInstrument env slf dls = some i ∧ dls.instruments[i]? = some e ∧
        e.bank &&& env.DmDls_DRUM_KIT = 0 ∧ e.bank = 2 ∧ e.patch = 7 ∧
        ∀ k, (∀ j e', dls.instruments[j]? = some e' →
          e'.bank &&& env.DmDls_DRUM_KIT = 0 → e'.bank = 2 → e'.patch = 7 → j = k) → i = k) ∧
    (∀ (slf : DmInstrument) (dls : DmDls),
      (∀ e ∈ dls.instruments, e.bank &&& env.DmDls_DRUM_KIT ≠ 0) →
      DmBand_findDlsInstrument env slf dls = none) ∧
    (∀ (slf : DmInstrument) (dls : DmDls) (i : Nat) (e : DmDlsInstrument),
      DmBand_findDlsInstrument env slf dls = some i → dls.instruments[i]? = some e →
      e.bank &&& env.DmDls_DRUM_KIT = 0) := by
  refine ⟨?_, ?_, ?_⟩
  · intro slf dls hp hex
    have hb : (slf.patch &&& 0xFF00) >>> 8 = 2 := by rw [hp]; decide
    have hq : slf.patch &&& 0xFF = 7 := by rw [hp]; decide
    cases hfind : DmBand_findDlsInstrument env slf dls with
    | none =>
      exfalso
      unfold DmBand_findDlsInstrument at hfind
      rw [findDlsInstrument_scan_none] at hfind
      obtain ⟨e, hmem, h1, h2, h3⟩ := hex
      exact hfind e hmem ⟨h1, by rw [h2, hb], by rw [h3, hq]⟩
    | some i =>
      unfold DmBand_findDlsInstrument at hfind
      rw [findDlsInstrument_scan_some] at hfind
      obtain ⟨-, ⟨e, he, h1, h2, h3⟩, -⟩ := hfind
      rw [Nat.sub_zero] at he
      refine ⟨i, e, rfl, he, h1, by rw [h2, hb], by rw [h3, hq], ?_⟩
      intro k hk
      exact hk i e he h1 (by rw [h2, hb]) (by rw [h3, hq])
  · intro slf dls hall
    unfold DmBand_findDlsInstrument
    rw [findDlsInstrument_scan_none]
    intro e he h
    exact hall e he h.1
  · intro slf dls i e hfind he
    unfold DmBand_findDlsInstrument at hfind
    rw [findDlsInstrument_scan_some] at hfind
    obtain ⟨-, ⟨e', he', h1, -⟩, -⟩ := hfind
    rw [Nat.sub_zero, he] at he'
    cases he'
    exact h1

theorem findDlsInstrument_bank2_patch7_witness :
    ∃ i e, DmBand_findDlsInstrument sampleEnv sampleInstrument
        ⟨1, ⟨1⟩, [⟨2 ^ 31 + 2, 7⟩, ⟨2, 7⟩, ⟨2, 8⟩]⟩ = some i ∧
      (([⟨2 ^ 31 + 2, 7⟩, ⟨2, 7⟩, ⟨2, 8⟩] : List DmDlsInstrument)[i]?) = some e ∧
      e.bank &&& sampleEnv.DmDls_DRUM_KIT = 0 ∧ e.bank = 2 ∧ e.patch = 7 ∧
      ∀ k, (∀ j e', (([⟨2 ^ 31 + 2, 7⟩, ⟨2, 7⟩, ⟨2, 8⟩] : List DmDlsInstrument)[j]?) = some e' →
        e'.bank &&& sampleEnv.DmDls_DRUM_KIT = 0 → e'.bank = 2 → e'.patch = 7 → j = k) → i = k :=
  (findDlsInstrument_bank2_patch7 sampleEnv).1 sampleInstrument
    ⟨1, ⟨1⟩, [⟨2 ^ 31 + 2, 7⟩, ⟨2, 7⟩, ⟨2, 8⟩]⟩ rfl ⟨⟨2, 7⟩, by decide, by decide, rfl, rfl⟩

theorem isSortOfSameAs_loop_spec (a b : List DmInstrument) (h : a.length = b.length) :
    ∃ r, DmBand_isSortOfSameAs_loop a b = some r ∧
      (r = true ↔ ∀ (i : Nat) (x y : DmInstrument),
        a[i]? = some x → b[i]? = some y → x.dls = y.dls) := by
  induction a generalizing b with
  | nil =>
    cases b with
    | nil => exact ⟨true, rfl, by simp⟩
    | cons y b => simp at h
  | cons x a ih =>
    cases b with
    | nil => simp at h
    | cons y b =>
      have hlen : a.length = b.length := by simpa using h
      obtain ⟨r, hr, hiff⟩ := ih b hlen
      by_cases hxy : x.dls = y.dls
      · refine ⟨r, ?_, ?_⟩
        · rw [DmBand_isSortOfSameAs_loop, if_neg (by simpa using hxy)]
          exact hr
        · rw [hiff]
          constructor
          · intro hall i u v hu hv
            cases i with
            | zero =>
              have h1 : x = u := by simpa using hu
              have h2 : y = v := by simpa using hv
              rw [← h1, ← h2]
              exact hxy
            | succ i => exact hall i u v (by simpa using hu) (by simpa using hv)
          · intro hall i u v hu hv
            exact hall (i + 1) u v (by simpa using hu) (by simpa using hv)
      · refine ⟨false, ?_, ?_⟩
        · rw [DmBand_isSortOfSameAs_loop, if_pos hxy]
        · constructor
          · intro hf
            cases hf
          · intro hall
            exact absurd (hall 0 x y (by simp) (by simp)) hxy

theorem isSortOfSameAs_loop_symm (a b : List DmInstrument) (h : a.length = b.length) :
    DmBand_isSortOfSameAs_loop a b = DmBand_isSortOfSameAs_loop b a := by
  induction a generalizing b with
  | nil =>
    cases b with
    | nil => rfl
    | cons y b => simp at h
  | cons x a ih =>
    cases b with
    | nil => simp at h
    | cons y b =>
      have hlen : a.length = b.length := by simpa using h
      by_cases hxy : x.dls = y.dls
      · rw [DmBand_isSortOfSameAs_loop, DmBand_isSortOfSameAs_loop,
          if_neg (by simpa using hxy), if_neg (by simpa using hxy.symm)]
        exact ih b hlen
      · rw [DmBand_isSortOfSameAs_loop, DmBand_isSortOfSameAs_loop,
          if_pos hxy, if_pos (fun h => hxy h.symm)]

/-- C4: for two band pointers, each possibly absent and each pointing to a live band when
present, `DmBand_isSortOfSameAs` returns a result; it is true exactly when the two are the
same object (both absent included) or both are present with equal instrument counts and
identical matched entries at every position; it is false when exactly one is absent. -/
theorem isSortOfSameAs_iff (m : Memory) (slf oth : Option Nat)
    (hslf : ∀ p, slf = some p → ∃ a, deref m.bands p = some a)
    (hoth : ∀ q, oth = some q → ∃ b, deref m.bands q = some b) :
    ∃ r, DmBand_isSortOfSameAs m slf oth = some r ∧
      (r = true ↔ slf = oth ∨ ∃ p q a b, slf = some p ∧ oth = some q ∧
        deref m.bands p = some a ∧ deref m.bands q = some b ∧
        a.instruments.length = b.instruments.length ∧
        ∀ (i : Nat) (x y : DmInstrument),
          a.instruments[i]? = some x → b.instruments[i]? = some y → x.dls = y.dls) ∧
      ((slf = none ∧ oth ≠ none) ∨ (slf ≠ none ∧ oth = none) → r = false) := by
  by_cases heq : slf = oth
  · refine ⟨true, by unfold DmBand_isSortOfSameAs; rw [if_pos heq], by simp [heq], ?_⟩
    subst heq
    rintro (⟨h1, h2⟩ | ⟨h1, h2⟩) <;> exact absurd ‹slf = none› ‹slf ≠ none›
  · cases slf with
    | none =>
      cases oth with
      | none => exact absurd rfl heq
      | some q =>
        refine ⟨false, by simp [DmBand_isSortOfSameAs], ?_, fun _ => rfl⟩
        simp
    | some p =>
      cases oth with
      | none =>
        refine ⟨false, by simp [DmBand_isSortOfSameAs], ?_, fun _ => rfl⟩
        simp
      | some q =>
        obtain ⟨a, ha⟩ := hslf p rfl
        obtain ⟨b, hb⟩ := hoth q rfl
        by_cases hlen : a.instruments.length = b.instruments.length
        · obtain ⟨r, hr, hiff⟩ := isSortOfSameAs_loop_spec a.instruments b.instruments hlen
          refine ⟨r, ?_, ?_, ?_⟩
          · unfold DmBand_isSortOfSameAs
            rw [if_neg heq]
            simp only [ha, hb]
            rw [if_neg (by simpa using hlen)]
            exact hr
          · rw [hiff]
            constructor
            · intro hall
              exact Or.inr ⟨p, q, a, b, rfl, rfl, ha, hb, hlen, hall⟩
            · rintro (h | ⟨p', q', a', b', hp, hq, ha', hb', -, hall⟩)
              · exact absurd h heq
              · cases hp
                cases hq
                rw [ha] at ha'
                rw [hb] at hb'
                cases ha'
                cases hb'
                exact hall
          · rintro (⟨h1, -⟩ | ⟨-, h2⟩)
            · cases h1
            · cases h2
        · refine ⟨false, ?_, ?_, ?_⟩
          · unfold DmBand_isSortOfSameAs
            rw [if_neg heq]
            simp only [ha, hb]
            rw [if_pos hlen]
          · constructor
            · intro hf
              cases hf
            · rintro (h | ⟨p', q', a', b', hp, hq, ha', hb', hl, -⟩)
              · exact absurd h heq
              · cases hp
                cases hq
                rw [ha] at ha'
                rw [hb] at hb'
                cases ha'
                cases hb'
                exact absurd hl hlen
          · intro _
            rfl

/-- C5: `DmBand_isSortOfSameAs` is reflexive and symmetric. -/
theorem isSortOfSameAs_refl_symm (m : Memory) :
    (∀ b : Option Nat, DmBand_isSortOfSameAs m b b = some true) ∧
    (∀ a b : Option Nat, DmBand_isSortOfSameAs m a b = DmBand_isSortOfSameAs m b a) := by
  constructor
  · intro b
    unfold DmBand_isSortOfSameAs
    rw [if_pos rfl]
  · intro a b
    by_cases heq : a = b
    · rw [heq]
    · have hne : ¬ b = a := fun h => heq h.symm
      unfold DmBand_isSortOfSameAs
      rw [if_neg heq, if_neg hne]
      cases a with
      | none => cases b <;> rfl
      | some p =>
        cases b with
        | none => rfl
        | some q =>
          cases ha : deref m.bands p with
          | none => cases hb : deref m.bands q <;> simp only [ha, hb]
          | some x =>
            cases hb : deref m.bands q with
            | none => simp only [ha, hb]
            | some y =>
              simp only [ha, hb]
              by_cases hlen : x.instruments.length = y.instruments.length
              · rw [if_neg (by simpa using hlen), if_neg (by simpa using hlen.symm)]
                exact isSortOfSameAs_loop_symm _ _ hlen
              · rw [if_pos hlen, if_pos (fun h => hlen h.symm)]

theorem resolveName_scan_spec (name : List Nat) (regs : List DmResolver) (i : Nat)
    (log : List Event) :
    ∃ n, n ≤ regs.length ∧
      (DmLoader_resolveName_scan name regs i log).2 =
        log ++ (List.range n).map (fun j => Event.callback (i + j) name) ∧
      (∀ (j : Nat) (r : DmResolver), j + 1 < n → regs[j]? = some r →
        r.resolve r.context name = none) ∧
      (((DmLoader_resolveName_scan name regs i log).1 = none ∧ n = regs.length ∧
          ∀ r ∈ regs, r.resolve r.context name = none) ∨
        (∃ bytes r, (DmLoader_resolveName_scan name regs i log).1 = some bytes ∧ 0 < n ∧
          regs[n - 1]? = some r ∧ r.resolve r.context name = some bytes)) := by
  induction regs generalizing i log with
  | nil =>
    refine ⟨0, le_refl _, by simp [DmLoader_resolveName_scan], ?_, Or.inl ⟨rfl, rfl, ?_⟩⟩
    · intro j r hj
      omega
    · intro r hr
      cases hr
  | cons x rest ih =>
    cases hx : x.resolve x.context name with
    | some bytes =>
      refine ⟨1, by simp, ?_, ?_, Or.inr ⟨bytes, x, ?_, by omega, by simp, hx⟩⟩
      · simp [DmLoader_resolveName_scan, hx, List.range_succ]
      · intro j r hj
        omega
      · simp [DmLoader_resolveName_scan, hx]
    | none =>
      obtain ⟨n, hn, hlog, hbefore, hres⟩ := ih (i + 1) (log ++ [Event.callback i name])
      have hstep : DmLoader_resolveName_scan name (x :: rest) i log =
          DmLoader_resolveName_scan name rest (i + 1) (log ++ [Event.callback i name]) := by
        simp [DmLoader_resolveName_scan, hx]
      refine ⟨n + 1, by simpa using hn, ?_, ?_, ?_⟩
      · rw [hstep, hlog, List.range_succ_eq_map, List.map_cons, List.map_map,
          List.append_assoc]
        congr 1
        rw [List.singleton_append, Nat.add_zero]
        congr 1
        apply List.map_congr_left
        intro j _
        simp only [Function.comp, Nat.succ_eq_add_one]
        congr 1
        omega
      · intro j r hj hr
        cases j with
        | zero =>
          have : x = r := by simpa using hr
          rw [← this]
          exact hx
        | succ j => exact hbefore j r (by omega) (by simpa using hr)
      · rw [hstep]
        rcases hres with ⟨h1, h2, h3⟩ | ⟨bytes, r, h1, h2, h3, h4⟩
        · refine Or.inl ⟨h1, by simp [h2], ?_⟩
          intro r hr
          rcases List.mem_cons.mp hr with rfl | hr
          · exact hx
          · exact h3 r hr
        · refine Or.inr ⟨bytes, r, h1, by omega, ?_, h4⟩
          have : n + 1 - 1 = (n - 1) + 1 := by omega
          rw [this]
          simpa using h3

theorem addResolvers_spec (rs : List DmResolver) (m : Memory) (l : DmLoader) :
    ∃ l1, (DmLoader_addResolvers m (some l) rs).2.1 = some l1 ∧
      l1.resolvers = l.resolvers ++ registered rs (DmLoader_addResolvers m (some l) rs).1 ∧
      (DmLoader_addResolvers m (some l) rs).1.length = rs.length := by
  induction rs generalizing m l with
  | nil => exact ⟨l, rfl, by simp [DmLoader_addResolvers, registered], rfl⟩
  | cons r rest ih =>
    cases hfate : Dm_alloc m with
    | mk ok m1 =>
      cases ok with
      | false =>
        obtain ⟨l1, h1, h2, h3⟩ := ih m1 l
        refine ⟨l1, ?_, ?_, ?_⟩
        · simp [DmLoader_addResolvers, DmLoader_addResolver, DmArray_add, hfate, h1]
        · simp [DmLoader_addResolvers, DmLoader_addResolver, DmArray_add, hfate, registered, h2]
        · simp [DmLoader_addResolvers, DmLoader_addResolver, DmArray_add, hfate, h3]
      | true =>
        obtain ⟨l1, h1, h2, h3⟩ := ih m1 { l with resolvers := l.resolvers ++ [r] }
        refine ⟨l1, ?_, ?_, ?_⟩
        · simp [DmLoader_addResolvers, DmLoader_addResolver, DmArray_add, hfate, h1]
        · simp [DmLoader_addResolvers, DmLoader_addResolver, DmArray_add, hfate, registered, h2]
        · simp [DmLoader_addResolvers, DmLoader_addResolver, DmArray_add, hfate, h3]

/-- C6: for a loader made by `DmLoader_create` whose resolvers were registered by a sequence
of `DmLoader_addResolver` calls, the resolver list is the sequence of the successfully
registered resolvers in registration order, and for every name `DmLoader_resolveName`
invokes the resolvers `0 .. n-1` in that order and no other, every one before the last
returns nothing, and the result is the buffer of resolver `n-1`, or not-found with all
resolvers invoked; it is not-found exactly when every registered resolver returns nothing. -/
theorem resolveName_first_resolver (env : Env) (m0 m1 : Memory) (slot : Option DmLoader)
    (opt : Nat) (l0 : DmLoader) (rs : List DmResolver)
    (hcreate : DmLoader_create env m0 (some slot) opt = (DmResult.SUCCESS, some (some l0), m1)) :
    ∃ l, (DmLoader_addResolvers m1 (some l0) rs).2.1 = some l ∧
      l.resolvers = registered rs (DmLoader_addResolvers m1 (some l0) rs).1 ∧
      ∀ (m : Memory) (name : List Nat),
        (∃ n, n ≤ l.resolvers.length ∧
          (DmLoader_resolveName m l name).2.log =
            m.log ++ [Event.resolve name] ++
              (List.range n).map (fun j => Event.callback j name) ∧
          (∀ (j : Nat) (r : DmResolver), j + 1 < n → l.resolvers[j]? = some r →
            r.resolve r.context name = none) ∧
          (((DmLoader_resolveName m l name).1 = none ∧ n = l.resolvers.length) ∨
            (∃ bytes r, (DmLoader_resolveName m l name).1 = some bytes ∧ 0 < n ∧
              l.resolvers[n - 1]? = some r ∧ r.resolve r.context name = some bytes))) ∧
        ((DmLoader_resolveName m l name).1 = none ↔
          ∀ r ∈ l.resolvers, r.resolve r.context name = none) := by
  have hl0 : l0.resolvers = [] := by
    unfold DmLoader_create at hcreate
    cases hfate : Dm_alloc m0 with
    | mk ok m2 =>
      cases ok with
      | false => simp [hfate] at hcreate
      | true =>
        simp only [hfate, Prod.mk.injEq, Option.some.injEq, true_and] at hcreate
        rw [← hcreate.1]
  obtain ⟨l, h1, h2, -⟩ := addResolvers_spec rs m1 l0
  rw [hl0, List.nil_append] at h2
  refine ⟨l, h1, h2, ?_⟩
  intro m name
  obtain ⟨n, hn, hlog, hbefore, hres⟩ :=
    resolveName_scan_spec name l.resolvers 0 (m.log ++ [Event.resolve name])
  have hfst : (DmLoader_resolveName m l name).1 =
      (DmLoader_resolveName_scan name l.resolvers 0 (m.log ++ [Event.resolve name])).1 := rfl
  have hsnd : (DmLoader_resolveName m l name).2.log =
      (DmLoader_resolveName_scan name l.resolvers 0 (m.log ++ [Event.resolve name])).2 := rfl
  refine ⟨⟨n, hn, ?_, hbefore, ?_⟩, ?_⟩
  · rw [hsnd, hlog]
    simp
  · rw [hfst]
    rcases hres with ⟨h1, h2, -⟩ | h
    · exact Or.inl ⟨h1, h2⟩
    · exact Or.inr h
  · rw [hfst]
    constructor
    · intro hnone
      rcases hres with ⟨-, -, h3⟩ | ⟨bytes, r, h1, -, -, -⟩
      · exact h3
      · rw [hnone] at h1
        cases h1
    · intro hall
      rcases hres with ⟨h1, -, -⟩ | ⟨bytes, r, -, h0, h3, h4⟩
      · exact h1
      · have hmem : r ∈ l.resolvers := List.getElem?_mem h3
        rw [hall r hmem] at h4
        cases h4

/-! ### Heap and allocator lemmas -/

theorem deref_lt {α : Type} {h : List (Option α)} {p : Nat} {a : α}
    (hd : deref h p = some a) : p < h.length := by
  unfold deref at hd
  by_contra hlt
  rw [List.getElem?_eq_none (by omega)] at hd
  cases hd

theorem deref_eq_some {α : Type} {h : List (Option α)} {p : Nat} {a : α} :
    deref h p = some a ↔ h[p]? = some (some a) := by
  unfold deref
  constructor
  · intro hd
    split at hd
    · rename_i b hb
      rw [hb]
      cases hd
      rfl
    · cases hd
  · intro hd
    rw [hd]

theorem deref_set_self {α : Type} (h : List (Option α)) (p : Nat) (v : α)
    (hp : p < h.length) : deref (h.set p (some v)) p = some v := by
  rw [deref_eq_some, List.getElem?_set, if_pos rfl, if_pos hp]

theorem deref_set_ne {α : Type} (h : List (Option α)) (p q : Nat) (v : Option α)
    (hpq : p ≠ q) : deref (h.set p v) q = deref h q := by
  unfold deref
  rw [List.getElem?_set_ne hpq]

theorem deref_append_left {α : Type} (h t : List (Option α)) (p : Nat)
    (hp : p < h.length) : deref (h ++ t) p = deref h p := by
  unfold deref
  rw [List.getElem?_append_left hp]

theorem deref_append_length {α : Type} (h : List (Option α)) (v : Option α) :
    deref (h ++ [v]) h.length = v := by
  unfold deref
  rw [List.getElem?_append_right (le_refl _)]
  cases v <;> simp

theorem set_append_length {α : Type} (h : List α) (a b : α) :
    (h ++ [a]).set h.length b = h ++ [b] := by
  induction h with
  | nil => rfl
  | cons x h ih => simp [ih]

theorem size_mod_one_add_one : (1 + 1) % SIZE_MOD = 2 := by decide

theorem size_mod_release_one : (1 + SIZE_MOD - 1) % SIZE_MOD = 0 := by decide

theorem Dm_alloc_frame {m m1 : Memory} {ok : Bool} (h : Dm_alloc m = (ok, m1)) :
    m1.dls = m.dls ∧ m1.styles = m.styles ∧ m1.segments = m.segments ∧ m1.bands = m.bands ∧
      m1.log = m.log := by
  unfold Dm_alloc at h
  split at h
  · cases h
    exact ⟨rfl, rfl, rfl, rfl, rfl⟩
  · cases h
    exact ⟨rfl, rfl, rfl, rfl, rfl⟩

theorem Dm_alloc_dls {m m1 : Memory} {ok : Bool} (h : Dm_alloc m = (ok, m1)) :
    m1.dls = m.dls := (Dm_alloc_frame h).1

theorem Dm_alloc_styles {m m1 : Memory} {ok : Bool} (h : Dm_alloc m = (ok, m1)) :
    m1.styles = m.styles := (Dm_alloc_frame h).2.1

theorem Dm_alloc_segments {m m1 : Memory} {ok : Bool} (h : Dm_alloc m = (ok, m1)) :
    m1.segments = m.segments := (Dm_alloc_frame h).2.2.1

theorem Dm_alloc_bands {m m1 : Memory} {ok : Bool} (h : Dm_alloc m = (ok, m1)) :
    m1.bands = m.bands := (Dm_alloc_frame h).2.2.2.1

theorem Dm_alloc_log {m m1 : Memory} {ok : Bool} (h : Dm_alloc m = (ok, m1)) :
    m1.log = m.log := (Dm_alloc_frame h).2.2.2.2

theorem utf16ToUtf8_frame {env : Env} {m m1 : Memory} {u16 name : List Nat}
    (h : Dm_utf16ToUtf8 env m u16 = some (name, m1)) :
    m1.dls = m.dls ∧ m1.styles = m.styles ∧ m1.segments = m.segments ∧ m1.bands = m.bands ∧
      m1.log = m.log := by
  unfold Dm_utf16ToUtf8 at h
  split at h
  · cases h
  · split at h
    · cases h
    · rename_i m2 halloc
      split at h
      · cases h
      · split at h
        · cases h
          exact Dm_alloc_frame halloc
        · cases h

/-! ### The resolver chain -/

theorem resolveName_scan_count (f : Event → Bool) (name : List Nat)
    (hf : ∀ i, f (Event.callback i name) = false) (regs : List DmResolver) (i : Nat)
    (log : List Event) :
    List.countP f (DmLoader_resolveName_scan name regs i log).2 = List.countP f log := by
  induction regs generalizing i log with
  | nil => rfl
  | cons x rest ih =>
    unfold DmLoader_resolveName_scan
    cases hx : x.resolve x.context name with
    | some bytes => simp [List.countP_append, hf]
    | none =>
      simp only []
      rw [ih]
      simp [List.countP_append, hf]

theorem resolveName_frame (m : Memory) (l : DmLoader) (name : List Nat) :
    (DmLoader_resolveName m l name).2.dls = m.dls ∧
      (DmLoader_resolveName m l name).2.styles = m.styles ∧
      (DmLoader_resolveName m l name).2.segments = m.segments ∧
      (DmLoader_resolveName m l name).2.bands = m.bands ∧
      (DmLoader_resolveName m l name).2.alloc_fate = m.alloc_fate :=
  ⟨rfl, rfl, rfl, rfl, rfl⟩

theorem resolveName_count_resolve (m : Memory) (l : DmLoader) (name : List Nat) :
    List.countP isResolve (DmLoader_resolveName m l name).2.log =
      List.countP isResolve m.log + 1 := by
  show List.countP isResolve (DmLoader_resolveName_scan name l.resolvers 0
    (m.log ++ [Event.resolve name])).2 = _
  rw [resolveName_scan_count isResolve name (fun _ => rfl)]
  simp [List.countP_append, isResolve]

theorem resolveName_count_other (f : Event → Bool) (m : Memory) (l : DmLoader)
    (name : List Nat) (hf : ∀ i, f (Event.callback i name) = false)
    (hr : f (Event.resolve name) = false) :
    List.countP f (DmLoader_resolveName m l name).2.log = List.countP f m.log := by
  show List.countP f (DmLoader_resolveName_scan name l.resolvers 0
    (m.log ++ [Event.resolve name])).2 = _
  rw [resolveName_scan_count f name hf]
  simp [List.countP_append, hr]

theorem resolveName_none_of_all (m : Memory) (l : DmLoader) (name : List Nat)
    (hall : ∀ r ∈ l.resolvers, r.resolve r.context name = none) :
    (DmLoader_resolveName m l name).1 = none := by
  obtain ⟨n, -, -, -, hres⟩ :=
    resolveName_scan_spec name l.resolvers 0 (m.log ++ [Event.resolve name])
  rcases hres with ⟨h1, -, -⟩ | ⟨bytes, r, -, -, h3, h4⟩
  · exact h1
  · rw [hall r (List.getElem?_mem h3)] at h4
    cases h4

/-- The memory in which a cache miss creates its object differs from the memory at the call
only in the allocator's future and in the record of events. -/
theorem missPath_frame {env : Env} {m m1 m3 : Memory} {l : DmLoader} {u16 name : List Nat}
    {ok : Bool} (hname : Dm_utf16ToUtf8 env m u16 = some (name, m1))
    (halloc : Dm_alloc (DmLoader_resolveName m1 l name).2 = (ok, m3)) :
    m3.dls = m.dls ∧ m3.styles = m.styles ∧ m3.segments = m.segments ∧ m3.bands = m.bands ∧
      m3.log = (DmLoader_resolveName m1 l name).2.log := by
  obtain ⟨a1, a2, a3, a4, a5⟩ := Dm_alloc_frame halloc
  obtain ⟨b1, b2, b3, b4, -⟩ := utf16ToUtf8_frame hname
  exact ⟨a1.trans b1, a2.trans b2, a3.trans b3, a4.trans b4, a5⟩

theorem missPath_dls {env : Env} {m m1 m3 : Memory} {l : DmLoader} {u16 name : List Nat}
    {ok : Bool} (hname : Dm_utf16ToUtf8 env m u16 = some (name, m1))
    (halloc : Dm_alloc (DmLoader_resolveName m1 l name).2 = (ok, m3)) :
    m3.dls = m.dls := (missPath_frame hname halloc).1

theorem missPath_styles {env : Env} {m m1 m3 : Memory} {l : DmLoader} {u16 name : List Nat}
    {ok : Bool} (hname : Dm_utf16ToUtf8 env m u16 = some (name, m1))
    (halloc : Dm_alloc (DmLoader_resolveName m1 l name).2 = (ok, m3)) :
    m3.styles = m.styles := (missPath_frame hname halloc).2.1

theorem missPath_count (f : Event → Bool) {env : Env} {m m1 m3 : Memory} {l : DmLoader}
    {u16 name : List Nat} {ok : Bool} (hname : Dm_utf16ToUtf8 env m u16 = some (name, m1))
    (halloc : Dm_alloc (DmLoader_resolveName m1 l name).2 = (ok, m3))
    (hf : ∀ i, f (Event.callback i name) = false) (hr : f (Event.resolve name) = false) :
    List.countP f m3.log = List.countP f m.log := by
  rw [(missPath_frame hname halloc).2.2.2.2, resolveName_count_other f _ _ _ hf hr,
    (utf16ToUtf8_frame hname).2.2.2.2]

theorem missPath_count_resolve {env : Env} {m m1 m3 : Memory} {l : DmLoader}
    {u16 name : List Nat} {ok : Bool} (hname : Dm_utf16ToUtf8 env m u16 = some (name, m1))
    (halloc : Dm_alloc (DmLoader_resolveName m1 l name).2 = (ok, m3)) :
    List.countP isResolve m3.log = List.countP isResolve m.log + 1 := by
  rw [(missPath_frame hname halloc).2.2.2.2, resolveName_count_resolve,
    (utf16ToUtf8_frame hname).2.2.2.2]

/-! ### The cache scan -/

theorem cacheScan_mono (g g' : Nat → Option DmGuid) (guid : DmGuid) (cache : List Nat)
    (x : Option Nat) (hmono : ∀ q v, g q = some v → g' q = some v)
    (h : Dm_cacheScan g guid cache = some x) : Dm_cacheScan g' guid cache = some x := by
  induction cache with
  | nil => exact h
  | cons p rest ih =>
    unfold Dm_cacheScan at h ⊢
    cases hp : g p with
    | none => simp [hp] at h
    | some v =>
      rw [hmono p v hp]
      simp only [hp] at h
      simp only []
      by_cases heq : DmGuid_equals guid v = true
      · rw [if_pos heq] at h ⊢
        exact h
      · rw [if_neg heq] at h ⊢
        exact ih h

theorem cacheScan_append_miss (g : Nat → Option DmGuid) (guid : DmGuid) (cache : List Nat)
    (p : Nat) (h : Dm_cacheScan g guid cache = some none) :
    Dm_cacheScan g guid (cache ++ [p]) =
      match g p with
      | none => none
      | some v => if DmGuid_equals guid v then some (some p) else some none := by
  induction cache with
  | nil =>
    simp only [List.nil_append]
    unfold Dm_cacheScan
    cases g p with
    | none => rfl
    | some v => rfl
  | cons q rest ih =>
    rw [List.cons_append]
    unfold Dm_cacheScan at h ⊢
    cases hq : g q with
    | none => simp [hq] at h
    | some v =>
      simp only [hq] at h
      simp only []
      by_cases heq : DmGuid_equals guid v = true
      · rw [if_pos heq] at h
        cases h
      · rw [if_neg heq] at h ⊢
        exact ih h

theorem cacheScan_hit (g : Nat → Option DmGuid) (guid : DmGuid) (cache : List Nat) (p : Nat)
    (h : Dm_cacheScan g guid cache = some (some p)) : g p = some guid ∧ p ∈ cache := by
  induction cache with
  | nil => cases h
  | cons q rest ih =>
    unfold Dm_cacheScan at h
    cases hq : g q with
    | none => simp [hq] at h
    | some v =>
      simp only [hq] at h
      by_cases heq : DmGuid_equals guid v = true
      · rw [if_pos heq] at h
        cases h
        have : guid = v := by simpa [DmGuid_equals] using heq
        exact ⟨by rw [hq, this], List.mem_cons_self _ _⟩
      · rw [if_neg heq] at h
        exact ⟨(ih h).1, List.mem_cons_of_mem _ (ih h).2⟩

theorem cacheScan_miss (g : Nat → Option DmGuid) (guid : DmGuid) (cache : List Nat)
    (h : Dm_cacheScan g guid cache = some none) :
    ∀ q ∈ cache, ∃ v, g q = some v ∧ v ≠ guid := by
  induction cache with
  | nil =>
    intro q hq
    cases hq
  | cons p rest ih =>
    unfold Dm_cacheScan at h
    cases hp : g p with
    | none => simp [hp] at h
    | some v =>
      simp only [hp] at h
      by_cases heq : DmGuid_equals guid v = true
      · rw [if_pos heq] at h
        cases h
      · rw [if_neg heq] at h
        intro q hq
        rcases List.mem_cons.mp hq with rfl | hq
        · refine ⟨v, hp, ?_⟩
          intro hv
          apply heq
          simp [DmGuid_equals, hv]
        · exact ih h q hq

theorem cacheScan_append_hit (g : Nat → Option DmGuid) (guid : DmGuid) (cache : List Nat)
    (p q : Nat) (h : Dm_cacheScan g guid cache = some (some p)) :
    Dm_cacheScan g guid (cache ++ [q]) = some (some p) := by
  induction cache with
  | nil => cases h
  | cons x rest ih =>
    rw [List.cons_append]
    unfold Dm_cacheScan at h ⊢
    cases hx : g x with
    | none => simp [hx] at h
    | some v =>
      simp only [hx] at h
      simp only []
      by_cases heq : DmGuid_equals guid v = true
      · rw [if_pos heq] at h ⊢
        exact h
      · rw [if_neg heq] at h ⊢
        exact ih h

theorem addResolver_frame {m m1 : Memory} {l l1 : DmLoader}
    {f : Nat → List Nat → Option (List Nat)} {ctx : Nat} {rv : DmResult}
    (h : DmLoader_addResolver m (some l) (some f) ctx = (rv, some l1, m1)) :
    l1.dls_cache = l.dls_cache ∧ l1.style_cache = l.style_cache ∧ m1.dls = m.dls ∧
      m1.styles = m.styles := by
  unfold DmLoader_addResolver DmArray_add at h
  simp only [] at h
  cases halloc : Dm_alloc m with
  | mk ok m2 =>
    obtain ⟨a1, a2, -, -, -⟩ := Dm_alloc_frame halloc
    cases ok with
    | false =>
      simp only [halloc, Prod.mk.injEq, Option.some.injEq] at h
      obtain ⟨-, hl, hm⟩ := h
      subst hl
      subst hm
      exact ⟨rfl, rfl, a1, a2⟩
    | true =>
      simp only [halloc, Prod.mk.injEq, Option.some.injEq] at h
      obtain ⟨-, hl, hm⟩ := h
      subst hl
      subst hm
      exact ⟨rfl, rfl, a1, a2⟩

/-! ### `DmLoader_getDownloadableSound`: the outcomes of a call -/

theorem getDownloadableSound_outcome (env : Env) (m : Memory) (l : DmLoader)
    (ref : DmReference) (out : Option Nat) (r : LoaderCall)
    (h : DmLoader_getDownloadableSound env m (some l) (some ref) (some out) = some r) :
    DlsOutcome env m l ref out r := by
  unfold DmLoader_getDownloadableSound at h
  simp only at h
  cases hscan : Dm_cacheScan (dlsGuidAt m) ref.guid l.dls_cache with
  | none => simp [hscan] at h
  | some found =>
    cases found with
    | some p =>
      simp only [hscan, DmDls_retain] at h
      cases ho : deref m.dls p with
      | none => simp [ho] at h
      | some o =>
        simp only [ho, Option.some.injEq] at h
        rw [← h]
        exact DlsOutcome.hit p o hscan ho
    | none =>
      simp only [hscan] at h
      cases hname : Dm_utf16ToUtf8 env m ref.file with
      | none => simp [hname] at h
      | some nm =>
        obtain ⟨name, m1⟩ := nm
        simp only [hname] at h
        cases hres : DmLoader_resolveName m1 l name with
        | mk bytes m2 =>
          have hm2 : m2 = (DmLoader_resolveName m1 l name).2 := by rw [hres]
          cases bytes with
          | none =>
            simp only [hres, Option.some.injEq] at h
            rw [← h, hm2]
            exact DlsOutcome.not_found name m1 hscan hname (by rw [hres])
          | some bytes =>
            simp only [hres] at h
            cases halloc : Dm_alloc m2 with
            | mk ok m3 =>
              cases ok with
              | false =>
                simp [DmDls_create, halloc] at h
                rw [← h]
                exact DlsOutcome.create_failed name m1 bytes m3 hscan hname (by rw [hres])
                  (by rw [← hm2]; exact halloc)
              | true =>
                simp only [DmDls_create, halloc, ne_eq, not_true_eq_false, if_false,
                  DmDls_parse, deref_append_length, set_append_length] at h
                by_cases hparse : (env.DmDls_parse bytes).1 = DmResult.SUCCESS
                · simp only [hparse, ne_eq, not_true_eq_false, if_false, DmDls_retain,
                    deref_append_length, set_append_length, DmArray_add, List.append_assoc,
                    List.cons_append, List.nil_append] at h
                  rw [size_mod_one_add_one] at h
                  cases hadd : Dm_alloc { m3 with
                      dls := m3.dls ++ [some ⟨2, (env.DmDls_parse bytes).2.1,
                        (env.DmDls_parse bytes).2.2⟩]
                      log := m3.log ++ [Event.dls_create m3.dls.length,
                        Event.dls_parse m3.dls.length, Event.dls_retain m3.dls.length] } with
                  | mk ok2 m6 =>
                    cases ok2 with
                    | false =>
                      simp only [hadd, Option.some.injEq] at h
                      rw [← h]
                      exact DlsOutcome.add_failed name m1 bytes m3 m6 hscan hname
                        (by rw [hres]) (by rw [← hm2]; exact halloc) hparse hadd
                    | true =>
                      simp only [hadd, Option.some.injEq] at h
                      rw [← h]
                      exact DlsOutcome.added name m1 bytes m3 m6 hscan hname
                        (by rw [hres]) (by rw [← hm2]; exact halloc) hparse hadd
                · simp only [hparse, ne_eq, not_false_eq_true, if_true, DmDls_release,
                    deref_append_length, set_append_length, List.append_assoc,
                    List.cons_append, List.nil_append] at h
                  rw [size_mod_release_one] at h
                  simp only [ne_eq, not_true_eq_false, if_false, Option.some.injEq,
                    set_append_length] at h
                  rw [← h]
                  exact DlsOutcome.parse_failed name m1 bytes m3 hscan hname
                    (by rw [hres]) (by rw [← hm2]; exact halloc) hparse

theorem dlsGuidAt_set_rc (m : Memory) (p : Nat) (o : DmDls) (n : Nat) (lg : List Event)
    (ho : deref m.dls p = some o) (q : Nat) :
    dlsGuidAt { m with dls := m.dls.set p (some { o with reference_count := n }), log := lg } q =
      dlsGuidAt m q := by
  unfold dlsGuidAt
  by_cases hpq : p = q
  · subst hpq
    simp only []
    rw [deref_set_self _ _ _ (deref_lt ho), ho]
  · simp only []
    rw [deref_set_ne _ _ _ _ hpq]

theorem dlsGuidAt_append (m m3 : Memory) (hd : m3.dls = m.dls) (cell : Option DmDls)
    (lg : List Event) (q : Nat) (v : DmGuid) (h : dlsGuidAt m q = some v) :
    dlsGuidAt { m3 with dls := m3.dls ++ [cell], log := lg } q = some v := by
  unfold dlsGuidAt at h ⊢
  cases hq : deref m.dls q with
  | none => simp [hq] at h
  | some o =>
    simp only []
    rw [hd, deref_append_left _ _ _ (deref_lt hq), hq]
    simpa [hq] using h

theorem dlsGuidAt_congr (m m1 : Memory) (hd : m1.dls = m.dls) (q : Nat) :
    dlsGuidAt m1 q = dlsGuidAt m q := by
  unfold dlsGuidAt
  rw [hd]

theorem dlsOutcome_guid_kept {env : Env} {m : Memory} {l : DmLoader} {ref : DmReference}
    {out : Option Nat} {r : LoaderCall} (hout : DlsOutcome env m l ref out r) :
    ∀ q v, dlsGuidAt m q = some v → dlsGuidAt r.mem q = some v := by
  intro q v hq
  cases hout with
  | hit p o hscan ho =>
    simp only []
    rw [dlsGuidAt_set_rc m p o _ _ ho]
    exact hq
  | not_found name m1 hscan hname hres =>
    simp only []
    rw [dlsGuidAt_congr m _
      ((resolveName_frame m1 l name).1.trans (utf16ToUtf8_frame hname).1)]
    exact hq
  | create_failed name m1 bytes m3 hscan hname hres halloc =>
    simp only []
    rw [dlsGuidAt_congr m _ (missPath_dls hname halloc)]
    exact hq
  | parse_failed name m1 bytes m3 hscan hname hres halloc hparse =>
    exact dlsGuidAt_append m m3 (missPath_dls hname halloc) _ _ q v hq
  | add_failed name m1 bytes m3 m6 hscan hname hres halloc hparse hadd =>
    simp only []
    rw [dlsGuidAt_congr _ m6 (Dm_alloc_dls hadd)]
    exact dlsGuidAt_append m m3 (missPath_dls hname halloc) _ _ q v hq
  | added name m1 bytes m3 m6 hscan hname hres halloc hparse hadd =>
    simp only []
    rw [dlsGuidAt_congr _ m6 (Dm_alloc_dls hadd)]
    exact dlsGuidAt_append m m3 (missPath_dls hname halloc) _ _ q v hq

theorem dlsOutcome_others_kept {env : Env} {m : Memory} {l : DmLoader} {ref : DmReference}
    {out : Option Nat} {r : LoaderCall} (hout : DlsOutcome env m l ref out r) :
    r.mem.styles = m.styles ∧ r.mem.segments = m.segments ∧ r.mem.bands = m.bands := by
  cases hout with
  | hit p o hscan ho => exact ⟨rfl, rfl, rfl⟩
  | not_found name m1 hscan hname hres =>
    obtain ⟨h1, h2, h3, h4, -⟩ := utf16ToUtf8_frame hname
    exact ⟨h2, h3, h4⟩
  | create_failed name m1 bytes m3 hscan hname hres halloc =>
    obtain ⟨h1, h2, h3, h4, -⟩ := missPath_frame hname halloc
    exact ⟨h2, h3, h4⟩
  | parse_failed name m1 bytes m3 hscan hname hres halloc hparse =>
    obtain ⟨h1, h2, h3, h4, -⟩ := missPath_frame hname halloc
    exact ⟨h2, h3, h4⟩
  | add_failed name m1 bytes m3 m6 hscan hname hres halloc hparse hadd =>
    obtain ⟨h1, h2, h3, h4, -⟩ := missPath_frame hname halloc
    obtain ⟨b1, b2, b3, b4, -⟩ := Dm_alloc_frame hadd
    exact ⟨b2.trans h2, b3.trans h3, b4.trans h4⟩
  | added name m1 bytes m3 m6 hscan hname hres halloc hparse hadd =>
    obtain ⟨h1, h2, h3, h4, -⟩ := missPath_frame hname halloc
    obtain ⟨b1, b2, b3, b4, -⟩ := Dm_alloc_frame hadd
    exact ⟨b2.trans h2, b3.trans h3, b4.trans h4⟩

theorem dlsOutcome_counts {env : Env} {m : Memory} {l : DmLoader} {ref : DmReference}
    {out : Option Nat} {r : LoaderCall} (hout : DlsOutcome env m l ref out r) :
    List.countP isResolve r.mem.log ≤ List.countP isResolve m.log + 1 ∧
      List.countP isDlsParse r.mem.log ≤ List.countP isDlsParse m.log + 1 := by
  cases hout with
  | hit p o hscan ho => simp [List.countP_append, isResolve, isDlsParse]
  | not_found name m1 hscan hname hres =>
    simp only []
    rw [resolveName_count_resolve, resolveName_count_other isDlsParse _ _ _ (fun _ => rfl) rfl,
      (utf16ToUtf8_frame hname).2.2.2.2]
    omega
  | create_failed name m1 bytes m3 hscan hname hres halloc =>
    simp only []
    rw [missPath_count_resolve hname halloc,
      missPath_count isDlsParse hname halloc (fun _ => rfl) rfl]
    omega
  | parse_failed name m1 bytes m3 hscan hname hres halloc hparse =>
    simp only [List.countP_append]
    rw [missPath_count_resolve hname halloc,
      missPath_count isDlsParse hname halloc (fun _ => rfl) rfl]
    simp [isResolve, isDlsParse]
  | add_failed name m1 bytes m3 m6 hscan hname hres halloc hparse hadd =>
    simp only []
    rw [Dm_alloc_log hadd]
    simp only [List.countP_append]
    rw [missPath_count_resolve hname halloc,
      missPath_count isDlsParse hname halloc (fun _ => rfl) rfl]
    simp [isResolve, isDlsParse]
  | added name m1 bytes m3 m6 hscan hname hres halloc hparse hadd =>
    simp only []
    rw [Dm_alloc_log hadd]
    simp only [List.countP_append]
    rw [missPath_count_resolve hname halloc,
      missPath_count isDlsParse hname halloc (fun _ => rfl) rfl]
    simp [isResolve, isDlsParse]

theorem dlsOutcome_loader_cases {env : Env} {m : Memory} {l : DmLoader} {ref : DmReference}
    {out : Option Nat} {r : LoaderCall} (hout : DlsOutcome env m l ref out r) :
    r.loader = some l ∨
      (r.rv = DmResult.SUCCESS ∧
        Dm_cacheScan (dlsGuidAt m) ref.guid l.dls_cache = some none ∧
        ∃ p, r.out = some (some p) ∧
          r.loader = some { l with dls_cache := l.dls_cache ++ [p] }) := by
  cases hout with
  | hit p o hscan ho => exact Or.inl rfl
  | not_found name m1 hscan hname hres => exact Or.inl rfl
  | create_failed name m1 bytes m3 hscan hname hres halloc => exact Or.inl rfl
  | parse_failed name m1 bytes m3 hscan hname hres halloc hparse => exact Or.inl rfl
  | add_failed name m1 bytes m3 m6 hscan hname hres halloc hparse hadd => exact Or.inl rfl
  | added name m1 bytes m3 m6 hscan hname hres halloc hparse hadd =>
    exact Or.inr ⟨rfl, hscan, _, rfl, rfl⟩

theorem getDownloadableSound_hit (env : Env) (m : Memory) (l : DmLoader) (ref : DmReference)
    (out : Option Nat) (p : Nat)
    (hscan : Dm_cacheScan (dlsGuidAt m) ref.guid l.dls_cache = some (some p)) :
    ∃ o, deref m.dls p = some o ∧
      DmLoader_getDownloadableSound env m (some l) (some ref) (some out) =
        some ⟨DmResult.SUCCESS, some (some p), some l,
          { m with
            dls := m.dls.set p
              (some { o with reference_count := (o.reference_count + 1) % SIZE_MOD })
            log := m.log ++ [Event.dls_retain p] }⟩ := by
  have hg := (cacheScan_hit _ _ _ _ hscan).1
  unfold dlsGuidAt at hg
  cases ho : deref m.dls p with
  | none => simp [ho] at hg
  | some o =>
    refine ⟨o, rfl, ?_⟩
    unfold DmLoader_getDownloadableSound
    simp only [hscan, DmDls_retain, ho]

theorem getDownloadableSound_first (env : Env) (m : Memory) (l : DmLoader)
    (ref : DmReference) (out1 : Option Nat) (r1 : LoaderCall)
    (h1 : DmLoader_getDownloadableSound env m (some l) (some ref) (some out1) = some r1)
    (hs1 : r1.rv = DmResult.SUCCESS)
    (hguid : ∀ p, r1.out = some (some p) → dlsGuidAt r1.mem p = some ref.guid) :
    ∃ p l1, r1.out = some (some p) ∧ r1.loader = some l1 ∧
      Dm_cacheScan (dlsGuidAt r1.mem) ref.guid l1.dls_cache = some (some p) ∧
      List.countP isResolve r1.mem.log ≤ List.countP isResolve m.log + 1 ∧
      List.countP isDlsParse r1.mem.log ≤ List.countP isDlsParse m.log + 1 := by
  have hout := getDownloadableSound_outcome env m l ref out1 r1 h1
  have hcounts := (dlsOutcome_counts hout)
  have hkept := (dlsOutcome_guid_kept hout)
  cases hout with
  | hit p o hscan ho =>
    exact ⟨p, l, rfl, rfl, cacheScan_mono _ _ _ _ _ hkept hscan, hcounts⟩
  | not_found name m1 hscan hname hres => cases hs1
  | create_failed name m1 bytes m3 hscan hname hres halloc => cases hs1
  | parse_failed name m1 bytes m3 hscan hname hres halloc hparse =>
    exact absurd hs1 hparse
  | add_failed name m1 bytes m3 m6 hscan hname hres halloc hparse hadd => cases hs1
  | added name m1 bytes m3 m6 hscan hname hres halloc hparse hadd =>
    refine ⟨m3.dls.length, _, rfl, rfl, ?_, hcounts⟩
    have hmiss := cacheScan_mono _ _ _ _ _ hkept hscan
    simp only [] at hmiss ⊢
    rw [cacheScan_append_miss _ _ _ _ hmiss, hguid _ rfl]
    simp [DmGuid_equals]

theorem getDownloadableSound_not_found (env : Env) (m : Memory) (l : DmLoader)
    (ref : DmReference) (out : Option Nat) (name : List Nat) (m1 : Memory)
    (hscan : Dm_cacheScan (dlsGuidAt m) ref.guid l.dls_cache = some none)
    (hname : Dm_utf16ToUtf8 env m ref.file = some (name, m1))
    (hall : ∀ r ∈ l.resolvers, r.resolve r.context name = none) :
    ∃ r, DmLoader_getDownloadableSound env m (some l) (some ref) (some out) = some r ∧
      r.rv = DmResult.NOT_FOUND ∧ r.out = some out ∧ r.loader = some l ∧
      r.mem.dls = m.dls ∧ r.mem.styles = m.styles ∧ r.mem.segments = m.segments ∧
      r.mem.bands = m.bands := by
  have hnone := resolveName_none_of_all m1 l name hall
  obtain ⟨h1, h2, h3, h4, -⟩ := utf16ToUtf8_frame hname
  refine ⟨⟨DmResult.NOT_FOUND, some out, some l, (DmLoader_resolveName m1 l name).2⟩, ?_,
    rfl, rfl, rfl, h1, h2, h3, h4⟩
  unfold DmLoader_getDownloadableSound
  simp only [hscan, hname]
  cases hres : DmLoader_resolveName m1 l name with
  | mk bytes m2 =>
    rw [hres] at hnone
    simp only [] at hnone
    subst hnone
    rfl

theorem dlsOutcome_preserves_own {env : Env} {m : Memory} {l l1 : DmLoader}
    {ref : DmReference} {out : Option Nat} {r : LoaderCall}
    (hout : DlsOutcome env m l ref out r) (hinv : DlsCacheDistinct m l)
    (hl : r.loader = some l1)
    (hP : r.rv = DmResult.SUCCESS → ∀ p, r.out = some (some p) →
      dlsGuidAt r.mem p = some ref.guid) :
    DlsCacheDistinct r.mem l1 := by
  have hkept := (dlsOutcome_guid_kept hout)
  have hold : ∀ p ∈ l.dls_cache, dlsGuidAt r.mem p = dlsGuidAt m p := by
    intro p hp
    obtain ⟨g, hg⟩ := Option.isSome_iff_exists.mp (hinv.1 p hp)
    rw [hg, hkept p g hg]
  rcases (dlsOutcome_loader_cases hout) with hsame | ⟨hrv, hscan, p, hp, hadd⟩
  · rw [hsame] at hl
    cases hl
    refine ⟨?_, ?_⟩
    · intro p hp
      rw [hold p hp]
      exact hinv.1 p hp
    · rw [List.map_congr_left hold]
      exact hinv.2
  · rw [hadd] at hl
    cases hl
    have hnew := hP hrv p hp
    have hmiss := cacheScan_miss _ _ _ hscan
    refine ⟨?_, ?_⟩
    · intro q hq
      simp only [List.mem_append, List.mem_singleton] at hq
      rcases hq with hq | rfl
      · rw [hold q hq]
        exact hinv.1 q hq
      · rw [hnew]
        rfl
    · simp only [List.map_append, List.map_cons, List.map_nil]
      rw [List.map_congr_left hold, hnew]
      refine List.Nodup.append hinv.2 (List.nodup_singleton _) ?_
      intro x hx hx'
      simp only [List.mem_singleton] at hx'
      subst hx'
      obtain ⟨q, hq, hqx⟩ := List.mem_map.mp hx
      obtain ⟨v, hv, hne⟩ := hmiss q hq
      rw [hv] at hqx
      cases hqx
      exact hne rfl

theorem dlsOutcome_preserves_other {env : Env} {m : Memory} {l l1 : DmLoader}
    {ref : DmReference} {out : Option Nat} {r : LoaderCall}
    (hout : DlsOutcome env m l ref out r) (hinv : StyleCacheDistinct m l)
    (hl : r.loader = some l1) : StyleCacheDistinct r.mem l1 := by
  have hheap := (dlsOutcome_others_kept hout).1
  have hg : ∀ q, styleGuidAt r.mem q = styleGuidAt m q := by
    intro q
    unfold styleGuidAt
    rw [hheap]
  have hcache : l1.style_cache = l.style_cache := by
    rcases (dlsOutcome_loader_cases hout) with hsame | ⟨-, -, p, -, hadd⟩
    · rw [hsame] at hl
      cases hl
      rfl
    · rw [hadd] at hl
      cases hl
      rfl
  refine ⟨?_, ?_⟩
  · intro p hp
    rw [hcache] at hp
    rw [hg]
    exact hinv.1 p hp
  · rw [hcache, List.map_congr_left (fun q _ => hg q)]
    exact hinv.2

theorem dlsOutcome_scan_stable {env : Env} {m : Memory} {l l1 : DmLoader}
    {ref : DmReference} {out : Option Nat} {r : LoaderCall}
    (hout : DlsOutcome env m l ref out r) (hl : r.loader = some l1) (guid : DmGuid) (p : Nat)
    (h : Dm_cacheScan (dlsGuidAt m) guid l.dls_cache = some (some p)) :
    Dm_cacheScan (dlsGuidAt r.mem) guid l1.dls_cache = some (some p) := by
  have h1 := cacheScan_mono _ _ _ _ _ (dlsOutcome_guid_kept hout) h
  rcases (dlsOutcome_loader_cases hout) with hsame | ⟨-, -, q, -, hadd⟩
  · rw [hsame] at hl
    cases hl
    exact h1
  · rw [hadd] at hl
    cases hl
    exact cacheScan_append_hit _ _ _ _ _ h1

theorem dlsOutcome_other_scan_stable {env : Env} {m : Memory} {l l1 : DmLoader}
    {ref : DmReference} {out : Option Nat} {r : LoaderCall}
    (hout : DlsOutcome env m l ref out r) (hl : r.loader = some l1) (guid : DmGuid) :
    Dm_cacheScan (styleGuidAt r.mem) guid l1.style_cache =
      Dm_cacheScan (styleGuidAt m) guid l.style_cache := by
  have hheap := (dlsOutcome_others_kept hout).1
  have hg : styleGuidAt r.mem = styleGuidAt m := by
    funext q
    unfold styleGuidAt
    rw [hheap]
  have hcache : l1.style_cache = l.style_cache := by
    rcases (dlsOutcome_loader_cases hout) with hsame | ⟨-, -, p, -, hadd⟩
    · rw [hsame] at hl
      cases hl
      rfl
    · rw [hadd] at hl
      cases hl
      rfl
  rw [hg, hcache]

/-! ### `DmLoader_getStyle`: the outcomes of a call -/

theorem getStyle_outcome (env : Env) (m : Memory) (l : DmLoader)
    (ref : DmReference) (out : Option Nat) (r : LoaderCall)
    (h : DmLoader_getStyle env m (some l) (some ref) (some out) = some r) :
    StyleOutcome env m l ref out r := by
  unfold DmLoader_getStyle at h
  simp only at h
  cases hscan : Dm_cacheScan (styleGuidAt m) ref.guid l.style_cache with
  | none => simp [hscan] at h
  | some found =>
    cases found with
    | some p =>
      simp only [hscan, DmStyle_retain] at h
      cases ho : deref m.styles p with
      | none => simp [ho] at h
      | some o =>
        simp only [ho, Option.some.injEq] at h
        rw [← h]
        exact StyleOutcome.hit p o hscan ho
    | none =>
      simp only [hscan] at h
      cases hname : Dm_utf16ToUtf8 env m ref.file with
      | none => simp [hname] at h
      | some nm =>
        obtain ⟨name, m1⟩ := nm
        simp only [hname] at h
        cases hres : DmLoader_resolveName m1 l name with
        | mk bytes m2 =>
          have hm2 : m2 = (DmLoader_resolveName m1 l name).2 := by rw [hres]
          cases bytes with
          | none =>
            simp only [hres, Option.some.injEq] at h
            rw [← h, hm2]
            exact StyleOutcome.not_found name m1 hscan hname (by rw [hres])
          | some bytes =>
            simp only [hres] at h
            cases halloc : Dm_alloc m2 with
            | mk ok m3 =>
              cases ok with
              | false =>
                simp [DmStyle_create, halloc] at h
                rw [← h]
                exact StyleOutcome.create_failed name m1 bytes m3 hscan hname (by rw [hres])
                  (by rw [← hm2]; exact halloc)
              | true =>
                simp only [DmStyle_create, halloc, ne_eq, not_true_eq_false, if_false,
                  DmStyle_parse, deref_append_length, set_append_length] at h
                by_cases hparse : (env.DmStyle_parse bytes).1 = DmResult.SUCCESS
                · simp only [hparse, ne_eq, not_true_eq_false, if_false, DmStyle_retain,
                    deref_append_length, set_append_length, DmArray_add, List.append_assoc,
                    List.cons_append, List.nil_append] at h
                  rw [size_mod_one_add_one] at h
                  cases hadd : Dm_alloc { m3 with
                      styles := m3.styles ++ [some ⟨2, (env.DmStyle_parse bytes).2.1,
                        (env.DmStyle_parse bytes).2.2⟩]
                      log := m3.log ++ [Event.style_create m3.styles.length,
                        Event.style_parse m3.styles.length, Event.style_retain m3.styles.length] } with
                  | mk ok2 m6 =>
                    cases ok2 with
                    | false =>
                      simp only [hadd, Option.some.injEq] at h
                      rw [← h]
                      exact StyleOutcome.add_failed name m1 bytes m3 m6 hscan hname
                        (by rw [hres]) (by rw [← hm2]; exact halloc) hparse hadd
                    | true =>
                      simp only [hadd, Option.some.injEq] at h
                      rw [← h]
                      exact StyleOutcome.added name m1 bytes m3 m6 hscan hname
                        (by rw [hres]) (by rw [← hm2]; exact halloc) hparse hadd
                · simp only [hparse, ne_eq, not_false_eq_true, if_true, DmStyle_release,
                    deref_append_length, set_append_length, List.append_assoc,
                    List.cons_append, List.nil_append] at h
                  rw [size_mod_release_one] at h
                  simp only [ne_eq, not_true_eq_false, if_false, Option.some.injEq,
                    set_append_length] at h
                  rw [← h]
                  exact StyleOutcome.parse_failed name m1 bytes m3 hscan hname
                    (by rw [hres]) (by rw [← hm2]; exact halloc) hparse

theorem styleGuidAt_set_rc (m : Memory) (p : Nat) (o : DmStyle) (n : Nat) (lg : List Event)
    (ho : deref m.styles p = some o) (q : Nat) :
    styleGuidAt { m with styles := m.styles.set p (some { o with reference_count := n }), log := lg } q =
      styleGuidAt m q := by
  unfold styleGuidAt
  by_cases hpq : p = q
  · subst hpq
    simp only []
    rw [deref_set_self _ _ _ (deref_lt ho), ho]
  · simp only []
    rw [deref_set_ne _ _ _ _ hpq]

theorem styleGuidAt_append (m m3 : Memory) (hd : m3.styles = m.styles) (cell : Option DmStyle)
    (lg : List Event) (q : Nat) (v : DmGuid) (h : styleGuidAt m q = some v) :
    styleGuidAt { m3 with styles := m3.styles ++ [cell], log := lg } q = some v := by
  unfold styleGuidAt at h ⊢
  cases hq : deref m.styles q with
  | none => simp [hq] at h
  | some o =>
    simp only []
    rw [hd, deref_append_left _ _ _ (deref_lt hq), hq]
    simpa [hq] using h

theorem styleGuidAt_congr (m m1 : Memory) (hd : m1.styles = m.styles) (q : Nat) :
    styleGuidAt m1 q = styleGuidAt m q := by
  unfold styleGuidAt
  rw [hd]

theorem styleOutcome_guid_kept {env : Env} {m : Memory} {l : DmLoader} {ref : DmReference}
    {out : Option Nat} {r : LoaderCall} (hout : StyleOutcome env m l ref out r) :
    ∀ q v, styleGuidAt m q = some v → styleGuidAt r.mem q = some v := by
  intro q v hq
  cases hout with
  | hit p o hscan ho =>
    simp only []
    rw [styleGuidAt_set_rc m p o _ _ ho]
    exact hq
  | not_found name m1 hscan hname hres =>
    simp only []
    rw [styleGuidAt_congr m _
      ((resolveName_frame m1 l name).2.1.trans (utf16ToUtf8_frame hname).2.1)]
    exact hq
  | create_failed name m1 bytes m3 hscan hname hres halloc =>
    simp only []
    rw [styleGuidAt_congr m _ (missPath_styles hname halloc)]
    exact hq
  | parse_failed name m1 bytes m3 hscan hname hres halloc hparse =>
    exact styleGuidAt_append m m3 (missPath_styles hname halloc) _ _ q v hq
  | add_failed name m1 bytes m3 m6 hscan hname hres halloc hparse hadd =>
    simp only []
    rw [styleGuidAt_congr _ m6 (Dm_alloc_styles hadd)]
    exact styleGuidAt_append m m3 (missPath_styles hname halloc) _ _ q v hq
  | added name m1 bytes m3 m6 hscan hname hres halloc hparse hadd =>
    simp only []
    rw [styleGuidAt_congr _ m6 (Dm_alloc_styles hadd)]
    exact styleGuidAt_append m m3 (missPath_styles hname halloc) _ _ q v hq

theorem styleOutcome_others_kept {env : Env} {m : Memory} {l : DmLoader} {ref : DmReference}
    {out : Option Nat} {r : LoaderCall} (hout : StyleOutcome env m l ref out r) :
    r.mem.dls = m.dls ∧ r.mem.segments = m.segments ∧ r.mem.bands = m.bands := by
  cases hout with
  | hit p o hscan ho => exact ⟨rfl, rfl, rfl⟩
  | not_found name m1 hscan hname hres =>
    obtain ⟨h1, h2, h3, h4, -⟩ := utf16ToUtf8_frame hname
    exact ⟨h1, h3, h4⟩
  | create_failed name m1 bytes m3 hscan hname hres halloc =>
    obtain ⟨h1, h2, h3, h4, -⟩ := missPath_frame hname halloc
    exact ⟨h1, h3, h4⟩
  | parse_failed name m1 bytes m3 hscan hname hres halloc hparse =>
    obtain ⟨h1, h2, h3, h4, -⟩ := missPath_frame hname halloc
    exact ⟨h1, h3, h4⟩
  | add_failed name m1 bytes m3 m6 hscan hname hres halloc hparse hadd =>
    obtain ⟨h1, h2, h3, h4, -⟩ := missPath_frame hname halloc
    obtain ⟨b1, b2, b3, b4, -⟩ := Dm_alloc_frame hadd
    exact ⟨b1.trans h1, b3.trans h3, b4.trans h4⟩
  | added name m1 bytes m3 m6 hscan hname hres halloc hparse hadd =>
    obtain ⟨h1, h2, h3, h4, -⟩ := missPath_frame hname halloc
    obtain ⟨b1, b2, b3, b4, -⟩ := Dm_alloc_frame hadd
    exact ⟨b1.trans h1, b3.trans h3, b4.trans h4⟩

theorem styleOutcome_counts {env : Env} {m : Memory} {l : DmLoader} {ref : DmReference}
    {out : Option Nat} {r : LoaderCall} (hout : StyleOutcome env m l ref out r) :
    List.countP isResolve r.mem.log ≤ List.countP isResolve m.log + 1 ∧
      List.countP isStyleParse r.mem.log ≤ List.countP isStyleParse m.log + 1 := by
  cases hout with
  | hit p o hscan ho => simp [List.countP_append, isResolve, isStyleParse]
  | not_found name m1 hscan hname hres =>
    simp only []
    rw [resolveName_count_resolve, resolveName_count_other isStyleParse _ _ _ (fun _ => rfl) rfl,
      (utf16ToUtf8_frame hname).2.2.2.2]
    omega
  | create_failed name m1 bytes m3 hscan hname hres halloc =>
    simp only []
    rw [missPath_count_resolve hname halloc,
      missPath_count isStyleParse hname halloc (fun _ => rfl) rfl]
    omega
  | parse_failed name m1 bytes m3 hscan hname hres halloc hparse =>
    simp only [List.countP_append]
    rw [missPath_count_resolve hname halloc,
      missPath_count isStyleParse hname halloc (fun _ => rfl) rfl]
    simp [isResolve, isStyleParse]
  | add_failed name m1 bytes m3 m6 hscan hname hres halloc hparse hadd =>
    simp only []
    rw [Dm_alloc_log hadd]
    simp only [List.countP_append]
    rw [missPath_count_resolve hname halloc,
      missPath_count isStyleParse hname halloc (fun _ => rfl) rfl]
    simp [isResolve, isStyleParse]
  | added name m1 bytes m3 m6 hscan hname hres halloc hparse hadd =>
    simp only []
    rw [Dm_alloc_log hadd]
    simp only [List.countP_append]
    rw [missPath_count_resolve hname halloc,
      missPath_count isStyleParse hname halloc (fun _ => rfl) rfl]
    simp [isResolve, isStyleParse]

theorem styleOutcome_loader_cases {env : Env} {m : Memory} {l : DmLoader} {ref : DmReference}
    {out : Option Nat} {r : LoaderCall} (hout : StyleOutcome env m l ref out r) :
    r.loader = some l ∨
      (r.rv = DmResult.SUCCESS ∧
        Dm_cacheScan (styleGuidAt m) ref.guid l.style_cache = some none ∧
        ∃ p, r.out = some (some p) ∧
          r.loader = some { l with style_cache := l.style_cache ++ [p] }) := by
  cases hout with
  | hit p o hscan ho => exact Or.inl rfl
  | not_found name m1 hscan hname hres => exact Or.inl rfl
  | create_failed name m1 bytes m3 hscan hname hres halloc => exact Or.inl rfl
  | parse_failed name m1 bytes m3 hscan hname hres halloc hparse => exact Or.inl rfl
  | add_failed name m1 bytes m3 m6 hscan hname hres halloc hparse hadd => exact Or.inl rfl
  | added name m1 bytes m3 m6 hscan hname hres halloc hparse hadd =>
    exact Or.inr ⟨rfl, hscan, _, rfl, rfl⟩

theorem getStyle_hit (env : Env) (m : Memory) (l : DmLoader) (ref : DmReference)
    (out : Option Nat) (p : Nat)
    (hscan : Dm_cacheScan (styleGuidAt m) ref.guid l.style_cache = some (some p)) :
    ∃ o, deref m.styles p = some o ∧
      DmLoader_getStyle env m (some l) (some ref) (some out) =
        some ⟨DmResult.SUCCESS, some (some p), some l,
          { m with
            styles := m.styles.set p
              (some { o with reference_count := (o.reference_count + 1) % SIZE_MOD })
            log := m.log ++ [Event.style_retain p] }⟩ := by
  have hg := (cacheScan_hit _ _ _ _ hscan).1
  unfold styleGuidAt at hg
  cases ho : deref m.styles p with
  | none => simp [ho] at hg
  | some o =>
    refine ⟨o, rfl, ?_⟩
    unfold DmLoader_getStyle
    simp only [hscan, DmStyle_retain, ho]

theorem getStyle_first (env : Env) (m : Memory) (l : DmLoader)
    (ref : DmReference) (out1 : Option Nat) (r1 : LoaderCall)
    (h1 : DmLoader_getStyle env m (some l) (some ref) (some out1) = some r1)
    (hs1 : r1.rv = DmResult.SUCCESS)
    (hguid : ∀ p, r1.out = some (some p) → styleGuidAt r1.mem p = some ref.guid) :
    ∃ p l1, r1.out = some (some p) ∧ r1.loader = some l1 ∧
      Dm_cacheScan (styleGuidAt r1.mem) ref.guid l1.style_cache = some (some p) ∧
      List.countP isResolve r1.mem.log ≤ List.countP isResolve m.log + 1 ∧
      List.countP isStyleParse r1.mem.log ≤ List.countP isStyleParse m.log + 1 := by
  have hout := getStyle_outcome env m l ref out1 r1 h1
  have hcounts := (styleOutcome_counts hout)
  have hkept := (styleOutcome_guid_kept hout)
  cases hout with
  | hit p o hscan ho =>
    exact ⟨p, l, rfl, rfl, cacheScan_mono _ _ _ _ _ hkept hscan, hcounts⟩
  | not_found name m1 hscan hname hres => cases hs1
  | create_failed name m1 bytes m3 hscan hname hres halloc => cases hs1
  | parse_failed name m1 bytes m3 hscan hname hres halloc hparse =>
    exact absurd hs1 hparse
  | add_failed name m1 bytes m3 m6 hscan hname hres halloc hparse hadd => cases hs1
  | added name m1 bytes m3 m6 hscan hname hres halloc hparse hadd =>
    refine ⟨m3.styles.length, _, rfl, rfl, ?_, hcounts⟩
    have hmiss := cacheScan_mono _ _ _ _ _ hkept hscan
    simp only [] at hmiss ⊢
    rw [cacheScan_append_miss _ _ _ _ hmiss, hguid _ rfl]
    simp [DmGuid_equals]

theorem getStyle_not_found (env : Env) (m : Memory) (l : DmLoader)
    (ref : DmReference) (out : Option Nat) (name : List Nat) (m1 : Memory)
    (hscan : Dm_cacheScan (styleGuidAt m) ref.guid l.style_cache = some none)
    (hname : Dm_utf16ToUtf8 env m ref.file = some (name, m1))
    (hall : ∀ r ∈ l.resolvers, r.resolve r.context name = none) :
    ∃ r, DmLoader_getStyle env m (some l) (some ref) (some out) = some r ∧
      r.rv = DmResult.NOT_FOUND ∧ r.out = some out ∧ r.loader = some l ∧
      r.mem.dls = m.dls ∧ r.mem.styles = m.styles ∧ r.mem.segments = m.segments ∧
      r.mem.bands = m.bands := by
  have hnone := resolveName_none_of_all m1 l name hall
  obtain ⟨h1, h2, h3, h4, -⟩ := utf16ToUtf8_frame hname
  refine ⟨⟨DmResult.NOT_FOUND, some out, some l, (DmLoader_resolveName m1 l name).2⟩, ?_,
    rfl, rfl, rfl, h1, h2, h3, h4⟩
  unfold DmLoader_getStyle
  simp only [hscan, hname]
  cases hres : DmLoader_resolveName m1 l name with
  | mk bytes m2 =>
    rw [hres] at hnone
    simp only [] at hnone
    subst hnone
    rfl

theorem styleOutcome_preserves_own {env : Env} {m : Memory} {l l1 : DmLoader}
    {ref : DmReference} {out : Option Nat} {r : LoaderCall}
    (hout : StyleOutcome env m l ref out r) (hinv : StyleCacheDistinct m l)
    (hl : r.loader = some l1)
    (hP : r.rv = DmResult.SUCCESS → ∀ p, r.out = some (some p) →
      styleGuidAt r.mem p = some ref.guid) :
    StyleCacheDistinct r.mem l1 := by
  have hkept := (styleOutcome_guid_kept hout)
  have hold : ∀ p ∈ l.style_cache, styleGuidAt r.mem p = styleGuidAt m p := by
    intro p hp
    obtain ⟨g, hg⟩ := Option.isSome_iff_exists.mp (hinv.1 p hp)
    rw [hg, hkept p g hg]
  rcases (styleOutcome_loader_cases hout) with hsame | ⟨hrv, hscan, p, hp, hadd⟩
  · rw [hsame] at hl
    cases hl
    refine ⟨?_, ?_⟩
    · intro p hp
      rw [hold p hp]
      exact hinv.1 p hp
    · rw [List.map_congr_left hold]
      exact hinv.2
  · rw [hadd] at hl
    cases hl
    have hnew := hP hrv p hp
    have hmiss := cacheScan_miss _ _ _ hscan
    refine ⟨?_, ?_⟩
    · intro q hq
      simp only [List.mem_append, List.mem_singleton] at hq
      rcases hq with hq | rfl
      · rw [hold q hq]
        exact hinv.1 q hq
      · rw [hnew]
        rfl
    · simp only [List.map_append, List.map_cons, List.map_nil]
      rw [List.map_congr_left hold, hnew]
      refine List.Nodup.append hinv.2 (List.nodup_singleton _) ?_
      intro x hx hx'
      simp only [List.mem_singleton] at hx'
      subst hx'
      obtain ⟨q, hq, hqx⟩ := List.mem_map.mp hx
      obtain ⟨v, hv, hne⟩ := hmiss q hq
      rw [hv] at hqx
      cases hqx
      exact hne rfl

theorem styleOutcome_preserves_other {env : Env} {m : Memory} {l l1 : DmLoader}
    {ref : DmReference} {out : Option Nat} {r : LoaderCall}
    (hout : StyleOutcome env m l ref out r) (hinv : DlsCacheDistinct m l)
    (hl : r.loader = some l1) : DlsCacheDistinct r.mem l1 := by
  have hheap := (styleOutcome_others_kept hout).1
  have hg : ∀ q, dlsGuidAt r.mem q = dlsGuidAt m q := by
    intro q
    unfold dlsGuidAt
    rw [hheap]
  have hcache : l1.dls_cache = l.dls_cache := by
    rcases (styleOutcome_loader_cases hout) with hsame | ⟨-, -, p, -, hadd⟩
    · rw [hsame] at hl
      cases hl
      rfl
    · rw [hadd] at hl
      cases hl
      rfl
  refine ⟨?_, ?_⟩
  · intro p hp
    rw [hcache] at hp
    rw [hg]
    exact hinv.1 p hp
  · rw [hcache, List.map_congr_left (fun q _ => hg q)]
    exact hinv.2

theorem styleOutcome_scan_stable {env : Env} {m : Memory} {l l1 : DmLoader}
    {ref : DmReference} {out : Option Nat} {r : LoaderCall}
    (hout : StyleOutcome env m l ref out r) (hl : r.loader = some l1) (guid : DmGuid) (p : Nat)
    (h : Dm_cacheScan (styleGuidAt m) guid l.style_cache = some (some p)) :
    Dm_cacheScan (styleGuidAt r.mem) guid l1.style_cache = some (some p) := by
  have h1 := cacheScan_mono _ _ _ _ _ (styleOutcome_guid_kept hout) h
  rcases (styleOutcome_loader_cases hout) with hsame | ⟨-, -, q, -, hadd⟩
  · rw [hsame] at hl
    cases hl
    exact h1
  · rw [hadd] at hl
    cases hl
    exact cacheScan_append_hit _ _ _ _ _ h1

theorem styleOutcome_other_scan_stable {env : Env} {m : Memory} {l l1 : DmLoader}
    {ref : DmReference} {out : Option Nat} {r : LoaderCall}
    (hout : StyleOutcome env m l ref out r) (hl : r.loader = some l1) (guid : DmGuid) :
    Dm_cacheScan (dlsGuidAt r.mem) guid l1.dls_cache =
      Dm_cacheScan (dlsGuidAt m) guid l.dls_cache := by
  have hheap := (styleOutcome_others_kept hout).1
  have hg : dlsGuidAt r.mem = dlsGuidAt m := by
    funext q
    unfold dlsGuidAt
    rw [hheap]
  have hcache : l1.dls_cache = l.dls_cache := by
    rcases (styleOutcome_loader_cases hout) with hsame | ⟨-, -, p, -, hadd⟩
    · rw [hsame] at hl
      cases hl
      rfl
    · rw [hadd] at hl
      cases hl
      rfl
  rw [hg, hcache]

/-! ### Loader claims -/

theorem getSegment_not_found (env : Env) (m : Memory) (l : DmLoader) (name : List Nat)
    (out : Option Nat) (hall : ∀ r ∈ l.resolvers, r.resolve r.context name = none) :
    ∃ r, DmLoader_getSegment env m (some l) (some name) (some out) = some r ∧
      r.rv = DmResult.NOT_FOUND ∧ r.out = some out ∧ r.loader = some l ∧
      r.mem.dls = m.dls ∧ r.mem.styles = m.styles ∧ r.mem.segments = m.segments ∧
      r.mem.bands = m.bands := by
  have hnone := resolveName_none_of_all m l name hall
  refine ⟨⟨DmResult.NOT_FOUND, some out, some l, (DmLoader_resolveName m l name).2⟩, ?_,
    rfl, rfl, rfl, rfl, rfl, rfl, rfl⟩
  unfold DmLoader_getSegment
  simp only []
  cases hres : DmLoader_resolveName m l name with
  | mk bytes m2 =>
    rw [hres] at hnone
    simp only [] at hnone
    subst hnone
    rfl

theorem steps_dls_scan_stable {env : Env} {P Q : DmReference → LoaderCall → Prop}
    {m0 m : Memory} {l0 l : DmLoader} (h : Steps env P Q m0 l0 m l) (guid : DmGuid) (p : Nat)
    (hs : Dm_cacheScan (dlsGuidAt m0) guid l0.dls_cache = some (some p)) :
    Dm_cacheScan (dlsGuidAt m) guid l.dls_cache = some (some p) := by
  induction h with
  | refl => exact hs
  | resolver m l f ctx rv l1 m1 _ h ih =>
    obtain ⟨h1, -, h3, -⟩ := addResolver_frame h
    have hg : dlsGuidAt m1 = dlsGuidAt m := funext (fun q => dlsGuidAt_congr m m1 h3 q)
    rw [hg, h1]
    exact ih
  | dls m l ref out r l1 _ h hl _ ih =>
    exact dlsOutcome_scan_stable (getDownloadableSound_outcome env m l ref out r h) hl guid p ih
  | style m l ref out r l1 _ h hl _ ih =>
    rw [styleOutcome_other_scan_stable (getStyle_outcome env m l ref out r h) hl guid]
    exact ih

theorem steps_style_scan_stable {env : Env} {P Q : DmReference → LoaderCall → Prop}
    {m0 m : Memory} {l0 l : DmLoader} (h : Steps env P Q m0 l0 m l) (guid : DmGuid) (p : Nat)
    (hs : Dm_cacheScan (styleGuidAt m0) guid l0.style_cache = some (some p)) :
    Dm_cacheScan (styleGuidAt m) guid l.style_cache = some (some p) := by
  induction h with
  | refl => exact hs
  | resolver m l f ctx rv l1 m1 _ h ih =>
    obtain ⟨-, h2, -, h4⟩ := addResolver_frame h
    have hg : styleGuidAt m1 = styleGuidAt m := funext (fun q => styleGuidAt_congr m m1 h4 q)
    rw [hg, h2]
    exact ih
  | dls m l ref out r l1 _ h hl _ ih =>
    rw [dlsOutcome_other_scan_stable (getDownloadableSound_outcome env m l ref out r h) hl guid]
    exact ih
  | style m l ref out r l1 _ h hl _ ih =>
    exact styleOutcome_scan_stable (getStyle_outcome env m l ref out r h) hl guid p ih

theorem steps_distinct {env : Env} {m0 m : Memory} {l0 l : DmLoader}
    (h : Steps env DlsGuidAsRequested StyleGuidAsRequested m0 l0 m l)
    (h0 : DlsCacheDistinct m0 l0 ∧ StyleCacheDistinct m0 l0) :
    DlsCacheDistinct m l ∧ StyleCacheDistinct m l := by
  induction h with
  | refl => exact h0
  | resolver m l f ctx rv l1 m1 _ h ih =>
    obtain ⟨h1, h2, h3, h4⟩ := addResolver_frame h
    have hd : ∀ q, dlsGuidAt m1 q = dlsGuidAt m q := fun q => dlsGuidAt_congr m m1 h3 q
    have hs : ∀ q, styleGuidAt m1 q = styleGuidAt m q := fun q => styleGuidAt_congr m m1 h4 q
    refine ⟨⟨?_, ?_⟩, ⟨?_, ?_⟩⟩
    · intro p hp
      rw [h1] at hp
      rw [hd]
      exact ih.1.1 p hp
    · rw [h1, List.map_congr_left (fun q _ => hd q)]
      exact ih.1.2
    · intro p hp
      rw [h2] at hp
      rw [hs]
      exact ih.2.1 p hp
    · rw [h2, List.map_congr_left (fun q _ => hs q)]
      exact ih.2.2
  | dls m l ref out r l1 _ h hl hP ih =>
    have hout := getDownloadableSound_outcome env m l ref out r h
    exact ⟨dlsOutcome_preserves_own hout ih.1 hl hP, dlsOutcome_preserves_other hout ih.2 hl⟩
  | style m l ref out r l1 _ h hl hQ ih =>
    have hout := getStyle_outcome env m l ref out r h
    exact ⟨styleOutcome_preserves_other hout ih.1 hl, styleOutcome_preserves_own hout ih.2 hl hQ⟩

/-- C1 (as stated) fails: the file served for a reference with GUID 1 holds a sound bank
with GUID 2; both requests succeed, the first returns the object at address 0, the second
the object at address 1, and the resolver chain is invoked twice. -/
theorem getDownloadableSound_twice_other_guid :
    DmLoader_getDownloadableSound otherGuidEnv emptyMemory (some sampleLoader)
        (some sampleReference) (some none) = some otherGuidCall1 ∧
      DmLoader_getDownloadableSound otherGuidEnv otherGuidCall1.mem otherGuidCall1.loader
        (some sampleReference) (some none) = some otherGuidCall2 ∧
      otherGuidCall1.rv = DmResult.SUCCESS ∧ otherGuidCall2.rv = DmResult.SUCCESS ∧
      otherGuidCall1.out = some (some 0) ∧ otherGuidCall2.out = some (some 1) ∧
      List.countP isResolve otherGuidCall2.mem.log = 2 :=
  ⟨rfl, rfl, rfl, rfl, rfl, rfl, rfl⟩

/-- C1 (amended): when a request for a reference succeeds and the object it returns carries
the GUID of the reference, then after any further sequence of loader operations a request
for the same reference on the same loader succeeds, returns the same object and adds
nothing but one retain to the record of events: no resolve and no parse. The first request
invokes the resolver chain at most once and parses at most once. The same holds for
styles. -/
theorem get_twice_same_object (env : Env) (m : Memory) (l : DmLoader) (ref : DmReference)
    (out1 out2 : Option Nat) :
    (∀ (r1 : LoaderCall) (l1 : DmLoader) (m' : Memory) (l' : DmLoader),
      DmLoader_getDownloadableSound env m (some l) (some ref) (some out1) = some r1 →
      r1.rv = DmResult.SUCCESS → DlsGuidAsRequested ref r1 → r1.loader = some l1 →
      Steps env Unconstrained Unconstrained r1.mem l1 m' l' →
      ∃ p r2,
        DmLoader_getDownloadableSound env m' (some l') (some ref) (some out2) = some r2 ∧
        r1.out = some (some p) ∧ r2.out = some (some p) ∧ r2.rv = DmResult.SUCCESS ∧
        r2.loader = some l' ∧ r2.mem.log = m'.log ++ [Event.dls_retain p] ∧
        List.countP isResolve r1.mem.log ≤ List.countP isResolve m.log + 1 ∧
        List.countP isDlsParse r1.mem.log ≤ List.countP isDlsParse m.log + 1) ∧
    (∀ (r1 : LoaderCall) (l1 : DmLoader) (m' : Memory) (l' : DmLoader),
      DmLoader_getStyle env m (some l) (some ref) (some out1) = some r1 →
      r1.rv = DmResult.SUCCESS → StyleGuidAsRequested ref r1 → r1.loader = some l1 →
      Steps env Unconstrained Unconstrained r1.mem l1 m' l' →
      ∃ p r2,
        DmLoader_getStyle env m' (some l') (some ref) (some out2) = some r2 ∧
        r1.out = some (some p) ∧ r2.out = some (some p) ∧ r2.rv = DmResult.SUCCESS ∧
        r2.loader = some l' ∧ r2.mem.log = m'.log ++ [Event.style_retain p] ∧
        List.countP isResolve r1.mem.log ≤ List.countP isResolve m.log + 1 ∧
        List.countP isStyleParse r1.mem.log ≤ List.countP isStyleParse m.log + 1) := by
  constructor
  · intro r1 l1 m' l' h1 hs1 hg hl1 hsteps
    obtain ⟨p, l1', hp, hl1', hscan, hc1, hc2⟩ :=
      getDownloadableSound_first env m l ref out1 r1 h1 hs1 (hg hs1)
    rw [hl1] at hl1'
    cases hl1'
    have hscan2 := steps_dls_scan_stable hsteps ref.guid p hscan
    obtain ⟨o, -, h2⟩ := getDownloadableSound_hit env m' l' ref out2 p hscan2
    exact ⟨p, _, h2, hp, rfl, rfl, rfl, rfl, hc1, hc2⟩
  · intro r1 l1 m' l' h1 hs1 hg hl1 hsteps
    obtain ⟨p, l1', hp, hl1', hscan, hc1, hc2⟩ :=
      getStyle_first env m l ref out1 r1 h1 hs1 (hg hs1)
    rw [hl1] at hl1'
    cases hl1'
    have hscan2 := steps_style_scan_stable hsteps ref.guid p hscan
    obtain ⟨o, -, h2⟩ := getStyle_hit env m' l' ref out2 p hscan2
    exact ⟨p, _, h2, hp, rfl, rfl, rfl, rfl, hc1, hc2⟩

theorem get_twice_same_object_witness :
    (∃ p r2,
      DmLoader_getDownloadableSound sampleEnv sampleDlsCall.mem
        (some { sampleLoader with dls_cache := [0] }) (some sampleReference) (some none) =
          some r2 ∧
      sampleDlsCall.out = some (some p) ∧ r2.out = some (some p) ∧
      r2.rv = DmResult.SUCCESS ∧ r2.loader = some { sampleLoader with dls_cache := [0] } ∧
      r2.mem.log = sampleDlsCall.mem.log ++ [Event.dls_retain p] ∧
      List.countP isResolve sampleDlsCall.mem.log ≤ List.countP isResolve emptyMemory.log + 1 ∧
      List.countP isDlsParse sampleDlsCall.mem.log ≤
        List.countP isDlsParse emptyMemory.log + 1) ∧
    (∃ p r2,
      DmLoader_getStyle sampleEnv sampleStyleCall.mem
        (some { sampleLoader with style_cache := [0] }) (some sampleReference) (some none) =
          some r2 ∧
      sampleStyleCall.out = some (some p) ∧ r2.out = some (some p) ∧
      r2.rv = DmResult.SUCCESS ∧ r2.loader = some { sampleLoader with style_cache := [0] } ∧
      r2.mem.log = sampleStyleCall.mem.log ++ [Event.style_retain p] ∧
      List.countP isResolve sampleStyleCall.mem.log ≤
        List.countP isResolve emptyMemory.log + 1 ∧
      List.countP isStyleParse sampleStyleCall.mem.log ≤
        List.countP isStyleParse emptyMemory.log + 1) :=
  ⟨(get_twice_same_object sampleEnv emptyMemory sampleLoader sampleReference none none).1
      sampleDlsCall _ _ _ rfl rfl (fun _ p hp => by cases hp; rfl) rfl (Steps.refl _ _),
    (get_twice_same_object sampleEnv emptyMemory sampleLoader sampleReference none none).2
      sampleStyleCall _ _ _ rfl rfl (fun _ p hp => by cases hp; rfl) rfl (Steps.refl _ _)⟩

/-- C7: when no resolver of the chain produces bytes for the requested name,
`DmLoader_getSegment`, and `DmLoader_getDownloadableSound` and `DmLoader_getStyle` on a
cache miss, return `NOT_FOUND`, leave the caller's slot and the loader with both caches as
they were, and leave every heap as it was, so that no object is created. -/
theorem not_found_creates_nothing (env : Env) (m : Memory) (l : DmLoader) :
    (∀ (name : List Nat) (out : Option Nat),
      (∀ r ∈ l.resolvers, r.resolve r.context name = none) →
      ∃ r, DmLoader_getSegment env m (some l) (some name) (some out) = some r ∧
        r.rv = DmResult.NOT_FOUND ∧ r.out = some out ∧ r.loader = some l ∧
        r.mem.dls = m.dls ∧ r.mem.styles = m.styles ∧ r.mem.segments = m.segments ∧
        r.mem.bands = m.bands) ∧
    (∀ (ref : DmReference) (out : Option Nat) (name : List Nat) (m1 : Memory),
      Dm_cacheScan (dlsGuidAt m) ref.guid l.dls_cache = some none →
      Dm_utf16ToUtf8 env m ref.file = some (name, m1) →
      (∀ r ∈ l.resolvers, r.resolve r.context name = none) →
      ∃ r, DmLoader_getDownloadableSound env m (some l) (some ref) (some out) = some r ∧
        r.rv = DmResult.NOT_FOUND ∧ r.out = some out ∧ r.loader = some l ∧
        r.mem.dls = m.dls ∧ r.mem.styles = m.styles ∧ r.mem.segments = m.segments ∧
        r.mem.bands = m.bands) ∧
    (∀ (ref : DmReference) (out : Option Nat) (name : List Nat) (m1 : Memory),
      Dm_cacheScan (styleGuidAt m) ref.guid l.style_cache = some none →
      Dm_utf16ToUtf8 env m ref.file = some (name, m1) →
      (∀ r ∈ l.resolvers, r.resolve r.context name = none) →
      ∃ r, DmLoader_getStyle env m (some l) (some ref) (some out) = some r ∧
        r.rv = DmResult.NOT_FOUND ∧ r.out = some out ∧ r.loader = some l ∧
        r.mem.dls = m.dls ∧ r.mem.styles = m.styles ∧ r.mem.segments = m.segments ∧
        r.mem.bands = m.bands) :=
  ⟨fun name out hall => getSegment_not_found env m l name out hall,
    fun ref out name m1 hscan hname hall =>
      getDownloadableSound_not_found env m l ref out name m1 hscan hname hall,
    fun ref out name m1 hscan hname hall =>
      getStyle_not_found env m l ref out name m1 hscan hname hall⟩

theorem not_found_creates_nothing_witness :
    (∃ r, DmLoader_getSegment sampleEnv sampleDlsCall.mem (some sampleLoader) (some [98])
        (some (some 7)) = some r ∧
      r.rv = DmResult.NOT_FOUND ∧ r.out = some (some 7) ∧ r.loader = some sampleLoader ∧
      r.mem.dls = sampleDlsCall.mem.dls ∧ r.mem.styles = sampleDlsCall.mem.styles ∧
      r.mem.segments = sampleDlsCall.mem.segments ∧ r.mem.bands = sampleDlsCall.mem.bands) ∧
    (∃ r, DmLoader_getDownloadableSound sampleEnv sampleDlsCall.mem (some sampleLoader)
        (some ⟨[], ⟨5⟩, [98, 0]⟩) (some (some 7)) = some r ∧
      r.rv = DmResult.NOT_FOUND ∧ r.out = some (some 7) ∧ r.loader = some sampleLoader ∧
      r.mem.dls = sampleDlsCall.mem.dls ∧ r.mem.styles = sampleDlsCall.mem.styles ∧
      r.mem.segments = sampleDlsCall.mem.segments ∧ r.mem.bands = sampleDlsCall.mem.bands) ∧
    (∃ r, DmLoader_getStyle sampleEnv sampleDlsCall.mem (some sampleLoader)
        (some ⟨[], ⟨5⟩, [98, 0]⟩) (some (some 7)) = some r ∧
      r.rv = DmResult.NOT_FOUND ∧ r.out = some (some 7) ∧ r.loader = some sampleLoader ∧
      r.mem.dls = sampleDlsCall.mem.dls ∧ r.mem.styles = sampleDlsCall.mem.styles ∧
      r.mem.segments = sampleDlsCall.mem.segments ∧ r.mem.bands = sampleDlsCall.mem.bands) :=
  ⟨(not_found_creates_nothing sampleEnv sampleDlsCall.mem sampleLoader).1 [98] (some 7)
      (by decide),
    (not_found_creates_nothing sampleEnv sampleDlsCall.mem sampleLoader).2.1
      ⟨[], ⟨5⟩, [98, 0]⟩ (some 7) [98] sampleDlsCall.mem rfl rfl (by decide),
    (not_found_creates_nothing sampleEnv sampleDlsCall.mem sampleLoader).2.2
      ⟨[], ⟨5⟩, [98, 0]⟩ (some 7) [98] sampleDlsCall.mem rfl rfl (by decide)⟩

/-- C8 (as stated) fails: with a file whose sound bank carries GUID 2 served for a reference
with GUID 1, two requests for that reference lead to a reachable loader state whose sound
bank cache holds two entries with the same GUID. -/
theorem reachable_cache_duplicate_guid :
    Reachable otherGuidEnv Unconstrained Unconstrained otherGuidCall2.mem
        { sampleLoader with dls_cache := [0, 1] } ∧
      List.map (dlsGuidAt otherGuidCall2.mem) [0, 1] = [some ⟨2⟩, some ⟨2⟩] ∧
      ¬ DlsCacheDistinct otherGuidCall2.mem { sampleLoader with dls_cache := [0, 1] } :=
  ⟨⟨emptyMemory, none, 0, freshLoader, emptyMemory, rfl,
      Steps.dls emptyMemory freshLoader otherGuidCall1.mem
        { sampleLoader with dls_cache := [0] } sampleReference none otherGuidCall2 _
        (Steps.dls emptyMemory freshLoader emptyMemory sampleLoader sampleReference none
          otherGuidCall1 _
          (Steps.resolver emptyMemory freshLoader emptyMemory freshLoader
            sampleResolver.resolve 0 DmResult.SUCCESS sampleLoader emptyMemory
            (Steps.refl emptyMemory freshLoader) rfl)
          rfl rfl trivial)
        rfl rfl trivial⟩,
    rfl, by decide⟩

/-- C8 (amended): in every loader state reachable from `DmLoader_create` by registering
resolvers and calling `DmLoader_getDownloadableSound` and `DmLoader_getStyle`, where every
object a call returns carries the GUID of the reference it was requested under, the entries
of the sound bank cache are live objects with pairwise distinct GUIDs, and so are those of
the style cache. -/
theorem reachable_cache_guids_distinct (env : Env) (m : Memory) (l : DmLoader)
    (h : Reachable env DlsGuidAsRequested StyleGuidAsRequested m l) :
    DlsCacheDistinct m l ∧ StyleCacheDistinct m l := by
  obtain ⟨m0, slot, opt, l0, m1, hcreate, hsteps⟩ := h
  have hl : l0.dls_cache = [] ∧ l0.style_cache = [] := by
    unfold DmLoader_create at hcreate
    cases hfate : Dm_alloc m0 with
    | mk ok m2 =>
      cases ok with
      | false => simp [hfate] at hcreate
      | true =>
        simp only [hfate, Prod.mk.injEq, Option.some.injEq, true_and] at hcreate
        rw [← hcreate.1]
        exact ⟨rfl, rfl⟩
  apply steps_distinct hsteps
  unfold DlsCacheDistinct StyleCacheDistinct
  rw [hl.1, hl.2]
  simp

theorem reachable_cache_guids_distinct_witness :
    DlsCacheDistinct sampleDlsCall.mem { sampleLoader with dls_cache := [0] } ∧
      StyleCacheDistinct sampleDlsCall.mem { sampleLoader with dls_cache := [0] } :=
  reachable_cache_guids_distinct sampleEnv sampleDlsCall.mem
    { sampleLoader with dls_cache := [0] }
    ⟨emptyMemory, none, 0, freshLoader, emptyMemory, rfl,
      Steps.dls emptyMemory freshLoader emptyMemory sampleLoader sampleReference none
        sampleDlsCall _
        (Steps.resolver emptyMemory freshLoader emptyMemory freshLoader
          sampleResolver.resolve 0 DmResult.SUCCESS sampleLoader emptyMemory
          (Steps.refl emptyMemory freshLoader) rfl)
        rfl rfl (fun _ p hp => by cases hp; rfl)⟩

/-! ### Band claims -/

theorem instrument_free_keeps_binding (m m1 : Memory) (ins ins1 : DmInstrument)
    (h : DmInstrument_free m (some ins) = some (some ins1, m1))
    (hinv : ins.dls_collection.isSome = ins.dls.isSome) :
    ins1.dls_collection.isSome = ins1.dls.isSome := by
  unfold DmInstrument_free at h
  simp only [] at h
  by_cases hd : ins.dls = none
  · rw [if_pos hd] at h
    cases h
    exact hinv
  · rw [if_neg hd] at h
    cases hrel : DmDls_release m ins.dls_collection with
    | none => simp [hrel] at h
    | some m2 =>
      simp only [hrel, Option.some.injEq, Prod.mk.injEq] at h
      rw [← h.1]
      rfl

theorem dls_release_log (m m1 : Memory) (p : Option Nat) (h : DmDls_release m p = some m1) :
    m1.log = m.log ++ (p.map Event.dls_release).toList ∧ m1.bands = m.bands := by
  unfold DmDls_release at h
  cases p with
  | none =>
    cases h
    simp
  | some a =>
    simp only [] at h
    cases ho : deref m.dls a with
    | none => simp [ho] at h
    | some o =>
      simp only [ho] at h
      split at h <;> cases h <;> simp

theorem band_release_loop_log (instruments : List DmInstrument) (m m1 : Memory)
    (h : DmBand_release_loop m instruments = some m1) :
    m1.log = m.log ++ instruments.filterMap
        (fun i => if i.dls = none then none else i.dls_collection.map Event.dls_release) ∧
      m1.bands = m.bands := by
  induction instruments generalizing m with
  | nil =>
    cases h
    simp
  | cons ins rest ih =>
    unfold DmBand_release_loop DmInstrument_free at h
    simp only [] at h
    by_cases hd : ins.dls = none
    · simp only [hd, if_true] at h
      obtain ⟨h1, h2⟩ := ih m h
      rw [h1, h2]
      simp [List.filterMap_cons, hd]
    · simp only [hd, if_false] at h
      cases hrel : DmDls_release m ins.dls_collection with
      | none => simp [hrel] at h
      | some m2 =>
        simp only [hrel] at h
        obtain ⟨h1, h2⟩ := ih m2 h
        obtain ⟨r1, r2⟩ := dls_release_log m m2 _ hrel
        rw [h1, h2, r1, r2]
        cases hc : ins.dls_collection <;> simp [List.filterMap_cons, hd, hc]

theorem band_release_decrements (m : Memory) (p : Nat) (b : DmBand)
    (hb : deref m.bands p = some b) (hn : 1 < b.reference_count)
    (hlt : b.reference_count < SIZE_MOD) :
    DmBand_release m (some p) =
      some { m with
        bands := m.bands.set p (some { b with reference_count := b.reference_count - 1 }) } := by
  have hcount : (b.reference_count + SIZE_MOD - 1) % SIZE_MOD = b.reference_count - 1 := by
    have : b.reference_count + SIZE_MOD - 1 = (b.reference_count - 1) + SIZE_MOD := by omega
    rw [this, Nat.add_mod_right, Nat.mod_eq_of_lt (by omega)]
  unfold DmBand_release
  simp only [hb, hcount]
  rw [if_pos (by omega)]

/-- C9 (the code as it is): the band at address 0 has one unbound instrument with a valid
patch, so the invariant holds before the call; the collection loads and has no entry for
the patch; `DmBand_download` returns `SUCCESS` and leaves the instrument with a collection
handle and without a matched entry. -/
theorem download_no_match_keeps_collection :
    bindings bandMemory 0 = some [(none, none)] ∧
      (DmBand_download sampleEnv bandMemory (some 0) (some sampleLoader)).map
        (fun x => x.1) = some DmResult.SUCCESS ∧
      (DmBand_download sampleEnv bandMemory (some 0) (some sampleLoader)).bind
        (fun x => bindings x.2.2 0) = some [(none, some 0)] := by
  decide

/-- C10 (the code as it is): after a download that loads the collection and finds no
matching entry the instrument holds a reference to the collection at address 0, whose count is 2 (cache and
instrument); the band's count is 1, and its release frees the band but releases no
collection: the collection's count is still 2 and no release is recorded. -/
theorem release_after_no_match_leaks :
    (DmBand_download sampleEnv bandMemory (some 0) (some sampleLoader)).bind
        (fun x => (deref x.2.2.dls 0).map (fun o => o.reference_count)) = some 2 ∧
      (DmBand_download sampleEnv bandMemory (some 0) (some sampleLoader)).bind
        (fun x => (deref x.2.2.bands 0).map (fun b => b.reference_count)) = some 1 ∧
      ((DmBand_download sampleEnv bandMemory (some 0) (some sampleLoader)).bind
        (fun x => DmBand_release x.2.2 (some 0))).map
        (fun m => (deref m.bands 0, (deref m.dls 0).map (fun o => o.reference_count),
          List.countP isDlsRelease m.log)) = some (none, some 2, 0) := by
  decide

/-! ### Witnesses of the band and resolver claims -/

theorem isSortOfSameAs_iff_witness :
    ∃ r, DmBand_isSortOfSameAs twoBandsMemory (some 0) (some 1) = some r ∧
      (r = true ↔ (some 0 : Option Nat) = some 1 ∨ ∃ p q a b, (some 0 : Option Nat) = some p ∧
        (some 1 : Option Nat) = some q ∧
        deref twoBandsMemory.bands p = some a ∧ deref twoBandsMemory.bands q = some b ∧
        a.instruments.length = b.instruments.length ∧
        ∀ (i : Nat) (x y : DmInstrument),
          a.instruments[i]? = some x → b.instruments[i]? = some y → x.dls = y.dls) ∧
      (((some 0 : Option Nat) = none ∧ (some 1 : Option Nat) ≠ none) ∨
        ((some 0 : Option Nat) ≠ none ∧ (some 1 : Option Nat) = none) → r = false) :=
  isSortOfSameAs_iff twoBandsMemory (some 0) (some 1)
    (fun p hp => by cases hp; exact ⟨_, rfl⟩) (fun q hq => by cases hq; exact ⟨_, rfl⟩)

theorem resolveName_first_resolver_witness :
    ∃ l, (DmLoader_addResolvers emptyMemory (some freshLoader) [sampleResolver]).2.1 = some l ∧
      l.resolvers = registered [sampleResolver]
        (DmLoader_addResolvers emptyMemory (some freshLoader) [sampleResolver]).1 ∧
      ∀ (m : Memory) (name : List Nat),
        (∃ n, n ≤ l.resolvers.length ∧
          (DmLoader_resolveName m l name).2.log =
            m.log ++ [Event.resolve name] ++
              (List.range n).map (fun j => Event.callback j name) ∧
          (∀ (j : Nat) (r : DmResolver), j + 1 < n → l.resolvers[j]? = some r →
            r.resolve r.context name = none) ∧
          (((DmLoader_resolveName m l name).1 = none ∧ n = l.resolvers.length) ∨
            (∃ bytes r, (DmLoader_resolveName m l name).1 = some bytes ∧ 0 < n ∧
              l.resolvers[n - 1]? = some r ∧ r.resolve r.context name = some bytes))) ∧
        ((DmLoader_resolveName m l name).1 = none ↔
          ∀ r ∈ l.resolvers, r.resolve r.context name = none) :=
  resolveName_first_resolver sampleEnv emptyMemory emptyMemory none 0 freshLoader
    [sampleResolver] rfl

/-! ### Band download: stopping, skipping, repeating -/

theorem getDownloadableSound_shape (env : Env) (m : Memory) (l : DmLoader) (ref : DmReference)
    (out : Option Nat) (r : LoaderCall)
    (h : DmLoader_getDownloadableSound env m (some l) (some ref) (some out) = some r) :
    ∃ rv c l1 m1, r = ⟨rv, some c, some l1, m1⟩ := by
  have hout := getDownloadableSound_outcome env m l ref out r h
  cases hout <;> exact ⟨_, _, _, _, rfl⟩

theorem download_loop_skip (env : Env) (m : Memory) (l : DmLoader) (x : DmInstrument)
    (rest : List DmInstrument) (hskip : DmBand_download_skips env x) :
    DmBand_download_loop env m l (x :: rest) =
      (DmBand_download_loop env m l rest).map
        (fun res => (res.1, x :: res.2.1, res.2.2.1, res.2.2.2)) := by
  have h : x.dls ≠ none ∨ x.flags &&& env.DmInstrument_PATCH = 0 ∨
      x.flags &&& (env.DmInstrument_GS ||| env.DmInstrument_GM) ≠ 0 := hskip
  rw [DmBand_download_loop, if_pos h]
  cases DmBand_download_loop env m l rest <;> rfl

theorem download_loop_request_fail (env : Env) (m : Memory) (l : DmLoader) (x : DmInstrument)
    (rest : List DmInstrument) (hreq : ¬ DmBand_download_skips env x) (r : LoaderCall)
    (hget : DmLoader_getDownloadableSound env m (some l) (some x.reference)
      (some x.dls_collection) = some r)
    (hfail : r.rv ≠ DmResult.SUCCESS)
    (c : Option Nat) (l1 : DmLoader) (hout : r.out = some c) (hl : r.loader = some l1) :
    DmBand_download_loop env m l (x :: rest) =
      some (r.rv, { x with dls_collection := c } :: rest, l1, r.mem) := by
  obtain ⟨rv, c', l1', m1, hr⟩ :=
    getDownloadableSound_shape env m l x.reference x.dls_collection r hget
  subst hr
  cases hout
  cases hl
  have h : ¬ (x.dls ≠ none ∨ x.flags &&& env.DmInstrument_PATCH = 0 ∨
      x.flags &&& (env.DmInstrument_GS ||| env.DmInstrument_GM) ≠ 0) := hreq
  rw [DmBand_download_loop, if_neg h, hget]
  simp only []
  rw [if_pos hfail]

theorem download_loop_request_ok (env : Env) (m : Memory) (l : DmLoader) (x : DmInstrument)
    (rest : List DmInstrument) (hreq : ¬ DmBand_download_skips env x) (r : LoaderCall)
    (hget : DmLoader_getDownloadableSound env m (some l) (some x.reference)
      (some x.dls_collection) = some r)
    (hok : r.rv = DmResult.SUCCESS)
    (p : Nat) (l1 : DmLoader) (d : DmDls) (hout : r.out = some (some p))
    (hl : r.loader = some l1) (hd : deref r.mem.dls p = some d) :
    DmBand_download_loop env m l (x :: rest) =
      (DmBand_download_loop env r.mem l1 rest).map
        (fun res =>
          (res.1,
            { x with
              dls_collection := some p
              dls := (DmBand_findDlsInstrument env x d).map (fun i => (p, i)) } :: res.2.1,
            res.2.2.1, res.2.2.2)) := by
  obtain ⟨rv, c', l1', m1, hr⟩ :=
    getDownloadableSound_shape env m l x.reference x.dls_collection r hget
  subst hr
  cases hout
  cases hl
  have h : ¬ (x.dls ≠ none ∨ x.flags &&& env.DmInstrument_PATCH = 0 ∨
      x.flags &&& (env.DmInstrument_GS ||| env.DmInstrument_GM) ≠ 0) := hreq
  simp only [] at hok hd
  rw [DmBand_download_loop, if_neg h, hget]
  simp only []
  rw [if_neg (by simpa using hok)]
  simp only [hd]
  cases DmBand_download_loop env m1 l1 rest <;>
    cases DmBand_findDlsInstrument env x d <;> rfl

theorem download_loop_request_defined (env : Env) (m : Memory) (l : DmLoader)
    (x : DmInstrument) (rest : List DmInstrument) (hreq : ¬ DmBand_download_skips env x)
    (r : LoaderCall)
    (hget : DmLoader_getDownloadableSound env m (some l) (some x.reference)
      (some x.dls_collection) = some r)
    (hok : r.rv = DmResult.SUCCESS)
    (res : DmResult × List DmInstrument × DmLoader × Memory)
    (h : DmBand_download_loop env m l (x :: rest) = some res) :
    ∃ p d, r.out = some (some p) ∧ deref r.mem.dls p = some d := by
  obtain ⟨rv, c', l1', m1, hr⟩ :=
    getDownloadableSound_shape env m l x.reference x.dls_collection r hget
  subst hr
  have h2 : ¬ (x.dls ≠ none ∨ x.flags &&& env.DmInstrument_PATCH = 0 ∨
      x.flags &&& (env.DmInstrument_GS ||| env.DmInstrument_GM) ≠ 0) := hreq
  simp only [] at hok
  rw [DmBand_download_loop, if_neg h2, hget] at h
  simp only [] at h
  rw [if_neg (by simpa using hok)] at h
  cases c' with
  | none => cases h
  | some p =>
    simp only [] at h
    cases hd : deref m1.dls p with
    | none => simp [hd] at h
    | some d => exact ⟨p, d, rfl, hd⟩

theorem download_loop_undefined (env : Env) (m : Memory) (l : DmLoader) (x : DmInstrument)
    (rest : List DmInstrument) (hreq : ¬ DmBand_download_skips env x)
    (hget : DmLoader_getDownloadableSound env m (some l) (some x.reference)
      (some x.dls_collection) = none) :
    DmBand_download_loop env m l (x :: rest) = none := by
  have h : ¬ (x.dls ≠ none ∨ x.flags &&& env.DmInstrument_PATCH = 0 ∨
      x.flags &&& (env.DmInstrument_GS ||| env.DmInstrument_GM) ≠ 0) := hreq
  rw [DmBand_download_loop, if_neg h, hget]

theorem download_loop_length (env : Env) (ins : List DmInstrument) (m : Memory) (l : DmLoader)
    (rv : DmResult) (ins' : List DmInstrument) (l' : DmLoader) (m' : Memory)
    (h : DmBand_download_loop env m l ins = some (rv, ins', l', m')) :
    ins'.length = ins.length ∧ m'.bands = m.bands ∧
      ∀ (i : Nat) (x : DmInstrument), ins[i]? = some x → DmBand_download_skips env x →
        ins'[i]? = some x := by
  induction ins generalizing m l rv ins' l' m' with
  | nil =>
    rw [DmBand_download_loop] at h
    cases h
    exact ⟨rfl, rfl, fun i x hx => by simp at hx⟩
  | cons x rest ih =>
    by_cases hskip : DmBand_download_skips env x
    · rw [download_loop_skip env m l x rest hskip] at h
      cases hrest : DmBand_download_loop env m l rest with
      | none => simp [hrest] at h
      | some res =>
        obtain ⟨rv1, rest1, l1, m1⟩ := res
        simp only [hrest, Option.map_some', Option.some.injEq, Prod.mk.injEq] at h
        obtain ⟨h1, h2, h3, h4⟩ := h
        subst h1 h2 h3 h4
        obtain ⟨a, b, c⟩ := ih m l _ _ _ _ hrest
        refine ⟨by simp [a], b, ?_⟩
        intro i y hy hs
        cases i with
        | zero => simpa using hy
        | succ i =>
          simp only [List.getElem?_cons_succ] at hy ⊢
          exact c i y hy hs
    · cases hget : DmLoader_getDownloadableSound env m (some l) (some x.reference)
          (some x.dls_collection) with
      | none =>
        rw [download_loop_undefined env m l x rest hskip hget] at h
        cases h
      | some r =>
        obtain ⟨rv0, c, l1, m0, hr⟩ :=
          getDownloadableSound_shape env m l x.reference x.dls_collection r hget
        have hkept := dlsOutcome_others_kept
          (getDownloadableSound_outcome env m l x.reference x.dls_collection r hget)
        have hfirst : ∀ (i : Nat) (y : DmInstrument), (x :: rest)[i]? = some y →
            DmBand_download_skips env y → 0 < i := by
          intro i y hy hs
          cases i with
          | zero =>
            have : x = y := by simpa using hy
            subst this
            exact absurd hs hskip
          | succ i => omega
        by_cases hrv : r.rv = DmResult.SUCCESS
        · obtain ⟨p, d, hp, hd⟩ :=
            download_loop_request_defined env m l x rest hskip r hget hrv _ h
          rw [download_loop_request_ok env m l x rest hskip r hget hrv p l1 d hp
            (by rw [hr]) hd] at h
          cases hrest : DmBand_download_loop env r.mem l1 rest with
          | none => simp [hrest] at h
          | some res =>
            obtain ⟨rv1, rest1, l2, m2⟩ := res
            simp only [hrest, Option.map_some', Option.some.injEq, Prod.mk.injEq] at h
            obtain ⟨h1, h2, h3, h4⟩ := h
            subst h1 h2 h3 h4
            obtain ⟨a, b, c⟩ := ih r.mem l1 _ _ _ _ hrest
            refine ⟨by simp [a], b.trans hkept.2.2, ?_⟩
            intro i y hy hs
            have hpos := hfirst i y hy hs
            obtain ⟨j, rfl⟩ : ∃ j, i = j + 1 := ⟨i - 1, by omega⟩
            simp only [List.getElem?_cons_succ] at hy ⊢
            exact c j y hy hs
        · rw [download_loop_request_fail env m l x rest hskip r hget hrv c l1
            (by rw [hr]) (by rw [hr])] at h
          simp only [Option.some.injEq, Prod.mk.injEq] at h
          obtain ⟨h1, h2, h3, h4⟩ := h
          subst h1 h2 h3 h4
          refine ⟨by simp, hkept.2.2, ?_⟩
          intro i y hy hs
          have hpos := hfirst i y hy hs
          obtain ⟨j, rfl⟩ : ∃ j, i = j + 1 := ⟨i - 1, by omega⟩
          simp only [List.getElem?_cons_succ] at hy ⊢
          exact hy

theorem download_loop_first_failure (env : Env) (pre : List DmInstrument) (m : Memory)
    (l : DmLoader) (pre' : List DmInstrument) (li : DmLoader) (mi : Memory) (x : DmInstrument)
    (post : List DmInstrument) (r : LoaderCall) (c : Option Nat) (l1 : DmLoader)
    (hpre : DmBand_download_loop env m l pre = some (DmResult.SUCCESS, pre', li, mi))
    (hreq : ¬ DmBand_download_skips env x)
    (hget : DmLoader_getDownloadableSound env mi (some li) (some x.reference)
      (some x.dls_collection) = some r)
    (hfail : r.rv ≠ DmResult.SUCCESS) (hout : r.out = some c) (hl : r.loader = some l1) :
    DmBand_download_loop env m l (pre ++ x :: post) =
      some (r.rv, pre' ++ { x with dls_collection := c } :: post, l1, r.mem) := by
  induction pre generalizing m l pre' with
  | nil =>
    rw [DmBand_download_loop] at hpre
    simp only [Option.some.injEq, Prod.mk.injEq, true_and] at hpre
    obtain ⟨h1, h2, h3⟩ := hpre
    subst h1 h2 h3
    rw [List.nil_append, List.nil_append]
    exact download_loop_request_fail env m l x post hreq r hget hfail c l1 hout hl
  | cons y pre0 ih =>
    rw [List.cons_append]
    by_cases hskip : DmBand_download_skips env y
    · rw [download_loop_skip env m l y pre0 hskip] at hpre
      rw [download_loop_skip env m l y _ hskip]
      cases hrest : DmBand_download_loop env m l pre0 with
      | none => simp [hrest] at hpre
      | some res =>
        obtain ⟨rv1, rest1, l2, m2⟩ := res
        simp only [hrest, Option.map_some', Option.some.injEq, Prod.mk.injEq] at hpre
        obtain ⟨h1, h2, h3, h4⟩ := hpre
        subst h1 h2 h3 h4
        simp only [ih m l rest1 hrest, List.cons_append, Option.map_some']
    · cases hgy : DmLoader_getDownloadableSound env m (some l) (some y.reference)
          (some y.dls_collection) with
      | none =>
        rw [download_loop_undefined env m l y pre0 hskip hgy] at hpre
        cases hpre
      | some ry =>
        obtain ⟨rv0, cy, ly, m0, hr⟩ :=
          getDownloadableSound_shape env m l y.reference y.dls_collection ry hgy
        by_cases hrv : ry.rv = DmResult.SUCCESS
        · obtain ⟨p, d, hp, hd⟩ :=
            download_loop_request_defined env m l y pre0 hskip ry hgy hrv _ hpre
          rw [download_loop_request_ok env m l y pre0 hskip ry hgy hrv p ly d hp
            (by rw [hr]) hd] at hpre
          rw [download_loop_request_ok env m l y _ hskip ry hgy hrv p ly d hp
            (by rw [hr]) hd]
          cases hrest : DmBand_download_loop env ry.mem ly pre0 with
          | none => simp [hrest] at hpre
          | some res =>
            obtain ⟨rv1, rest1, l2, m2⟩ := res
            simp only [hrest, Option.map_some', Option.some.injEq, Prod.mk.injEq] at hpre
            obtain ⟨h1, h2, h3, h4⟩ := hpre
            subst h1 h2 h3 h4
            simp only [ih ry.mem ly rest1 hrest, List.cons_append, Option.map_some']
        · rw [download_loop_request_fail env m l y pre0 hskip ry hgy hrv cy ly
            (by rw [hr]) (by rw [hr])] at hpre
          simp only [Option.some.injEq, Prod.mk.injEq] at hpre
          exact absurd hpre.1 hrv

theorem download_loop_failure_source (env : Env) (ins : List DmInstrument) (m : Memory)
    (l : DmLoader) (rv : DmResult) (ins' : List DmInstrument) (l' : DmLoader) (m' : Memory)
    (h : DmBand_download_loop env m l ins = some (rv, ins', l', m'))
    (hrv : rv ≠ DmResult.SUCCESS) :
    ∃ pre x post pre' li mi r, ins = pre ++ x :: post ∧
      DmBand_download_loop env m l pre = some (DmResult.SUCCESS, pre', li, mi) ∧
      ¬ DmBand_download_skips env x ∧
      DmLoader_getDownloadableSound env mi (some li) (some x.reference)
        (some x.dls_collection) = some r ∧ r.rv = rv := by
  induction ins generalizing m l rv ins' l' m' with
  | nil =>
    rw [DmBand_download_loop] at h
    simp only [Option.some.injEq, Prod.mk.injEq] at h
    exact absurd h.1.symm hrv
  | cons y rest ih =>
    by_cases hskip : DmBand_download_skips env y
    · rw [download_loop_skip env m l y rest hskip] at h
      cases hrest : DmBand_download_loop env m l rest with
      | none => simp [hrest] at h
      | some res =>
        obtain ⟨rv1, rest1, l2, m2⟩ := res
        simp only [hrest, Option.map_some', Option.some.injEq, Prod.mk.injEq] at h
        obtain ⟨h1, h2, h3, h4⟩ := h
        subst h1 h2 h3 h4
        obtain ⟨pre, x, post, pre', li, mi, r, e1, e2, e3, e4, e5⟩ := ih m l _ _ _ _ hrest hrv
        refine ⟨y :: pre, x, post, y :: pre', li, mi, r, by rw [e1]; rfl, ?_, e3, e4, e5⟩
        rw [download_loop_skip env m l y pre hskip]
        simp only [e2, Option.map_some']
    · cases hgy : DmLoader_getDownloadableSound env m (some l) (some y.reference)
          (some y.dls_collection) with
      | none =>
        rw [download_loop_undefined env m l y rest hskip hgy] at h
        cases h
      | some ry =>
        obtain ⟨rv0, cy, ly, m0, hr⟩ :=
          getDownloadableSound_shape env m l y.reference y.dls_collection ry hgy
        by_cases hok : ry.rv = DmResult.SUCCESS
        · obtain ⟨p, d, hp, hd⟩ :=
            download_loop_request_defined env m l y rest hskip ry hgy hok _ h
          rw [download_loop_request_ok env m l y rest hskip ry hgy hok p ly d hp
            (by rw [hr]) hd] at h
          cases hrest : DmBand_download_loop env ry.mem ly rest with
          | none => simp [hrest] at h
          | some res =>
            obtain ⟨rv1, rest1, l2, m2⟩ := res
            simp only [hrest, Option.map_some', Option.some.injEq, Prod.mk.injEq] at h
            obtain ⟨h1, h2, h3, h4⟩ := h
            subst h1 h2 h3 h4
            obtain ⟨pre, x, post, pre', li, mi, r, e1, e2, e3, e4, e5⟩ :=
              ih ry.mem ly _ _ _ _ hrest hrv
            refine ⟨y :: pre, x, post,
              { y with
                dls_collection := some p
                dls := (DmBand_findDlsInstrument env y d).map (fun i => (p, i)) } :: pre',
              li, mi, r, by rw [e1]; rfl, ?_, e3, e4, e5⟩
            rw [download_loop_request_ok env m l y pre hskip ry hgy hok p ly d hp
              (by rw [hr]) hd]
            simp only [e2, Option.map_some']
        · rw [download_loop_request_fail env m l y rest hskip ry hgy hok cy ly
            (by rw [hr]) (by rw [hr])] at h
          simp only [Option.some.injEq, Prod.mk.injEq] at h
          refine ⟨[], y, rest, [], l, m, ry, rfl, ?_, hskip, hgy, h.1⟩
          rw [DmBand_download_loop]

theorem download_loop_without_skipped (env : Env) (ins : List DmInstrument) (m : Memory)
    (l : DmLoader) :
    (DmBand_download_loop env m l
        (ins.filter (fun x => decide (¬ DmBand_download_skips env x)))).map
        (fun res => (res.1, res.2.2.1, res.2.2.2)) =
      (DmBand_download_loop env m l ins).map (fun res => (res.1, res.2.2.1, res.2.2.2)) := by
  induction ins generalizing m l with
  | nil => rfl
  | cons y rest ih =>
    by_cases hskip : DmBand_download_skips env y
    · rw [List.filter_cons_of_neg (by simpa using hskip), ih,
        download_loop_skip env m l y rest hskip, Option.map_map]
      rfl
    · rw [List.filter_cons_of_pos (by simpa using hskip)]
      cases hgy : DmLoader_getDownloadableSound env m (some l) (some y.reference)
          (some y.dls_collection) with
      | none =>
        rw [download_loop_undefined env m l y _ hskip hgy,
          download_loop_undefined env m l y _ hskip hgy]
      | some ry =>
        obtain ⟨rv0, cy, ly, m0, hr⟩ :=
          getDownloadableSound_shape env m l y.reference y.dls_collection ry hgy
        by_cases hok : ry.rv = DmResult.SUCCESS
        · by_cases hdef : ∃ p d, ry.out = some (some p) ∧ deref ry.mem.dls p = some d
          · obtain ⟨p, d, hp, hd⟩ := hdef
            rw [download_loop_request_ok env m l y _ hskip ry hgy hok p ly d hp
              (by rw [hr]) hd,
              download_loop_request_ok env m l y _ hskip ry hgy hok p ly d hp
              (by rw [hr]) hd, Option.map_map, Option.map_map]
            exact ih ry.mem ly
          · have hnone : ∀ L, DmBand_download_loop env m l (y :: L) = none := by
              intro L
              cases hall : DmBand_download_loop env m l (y :: L) with
              | none => rfl
              | some res =>
                exact absurd
                  (download_loop_request_defined env m l y L hskip ry hgy hok res hall) hdef
            rw [hnone, hnone]
        · rw [download_loop_request_fail env m l y _ hskip ry hgy hok cy ly
            (by rw [hr]) (by rw [hr]),
            download_loop_request_fail env m l y _ hskip ry hgy hok cy ly
            (by rw [hr]) (by rw [hr])]
          rfl

theorem download_loop_append (env : Env) (pre : List DmInstrument) (m : Memory)
    (l : DmLoader) (pre' : List DmInstrument) (li : DmLoader) (mi : Memory)
    (rest : List DmInstrument)
    (hpre : DmBand_download_loop env m l pre = some (DmResult.SUCCESS, pre', li, mi)) :
    DmBand_download_loop env m l (pre ++ rest) =
      (DmBand_download_loop env mi li rest).map
        (fun res => (res.1, pre' ++ res.2.1, res.2.2.1, res.2.2.2)) := by
  induction pre generalizing m l pre' with
  | nil =>
    rw [DmBand_download_loop] at hpre
    simp only [Option.some.injEq, Prod.mk.injEq, true_and] at hpre
    obtain ⟨h1, h2, h3⟩ := hpre
    subst h1 h2 h3
    rw [List.nil_append]
    cases DmBand_download_loop env m l rest <;> rfl
  | cons y pre0 ih =>
    rw [List.cons_append]
    by_cases hskip : DmBand_download_skips env y
    · rw [download_loop_skip env m l y pre0 hskip] at hpre
      rw [download_loop_skip env m l y _ hskip]
      cases hrest : DmBand_download_loop env m l pre0 with
      | none => simp [hrest] at hpre
      | some res =>
        obtain ⟨rv1, rest1, l2, m2⟩ := res
        simp only [hrest, Option.map_some', Option.some.injEq, Prod.mk.injEq] at hpre
        obtain ⟨h1, h2, h3, h4⟩ := hpre
        subst h1 h2 h3 h4
        rw [ih m l rest1 hrest, Option.map_map]
        rfl
    · cases hgy : DmLoader_getDownloadableSound env m (some l) (some y.reference)
          (some y.dls_collection) with
      | none =>
        rw [download_loop_undefined env m l y pre0 hskip hgy] at hpre
        cases hpre
      | some ry =>
        obtain ⟨rv0, cy, ly, m0, hr⟩ :=
          getDownloadableSound_shape env m l y.reference y.dls_collection ry hgy
        by_cases hrv : ry.rv = DmResult.SUCCESS
        · obtain ⟨p, d, hp, hd⟩ :=
            download_loop_request_defined env m l y pre0 hskip ry hgy hrv _ hpre
          rw [download_loop_request_ok env m l y pre0 hskip ry hgy hrv p ly d hp
            (by rw [hr]) hd] at hpre
          rw [download_loop_request_ok env m l y _ hskip ry hgy hrv p ly d hp
            (by rw [hr]) hd]
          cases hrest : DmBand_download_loop env ry.mem ly pre0 with
          | none => simp [hrest] at hpre
          | some res =>
            obtain ⟨rv1, rest1, l2, m2⟩ := res
            simp only [hrest, Option.map_some', Option.some.injEq, Prod.mk.injEq] at hpre
            obtain ⟨h1, h2, h3, h4⟩ := hpre
            subst h1 h2 h3 h4
            rw [ih ry.mem ly rest1 hrest, Option.map_map]
            rfl
        · rw [download_loop_request_fail env m l y pre0 hskip ry hgy hrv cy ly
            (by rw [hr]) (by rw [hr])] at hpre
          simp only [Option.some.injEq, Prod.mk.injEq] at hpre
          exact absurd hpre.1 hrv

theorem set_deref_self {α : Type} (h : List (Option α)) (p : Nat) (v : α)
    (hd : deref h p = some v) : h.set p (some v) = h := by
  rw [deref_eq_some] at hd
  apply List.ext_getElem?
  intro i
  rw [List.getElem?_set]
  by_cases hi : p = i
  · subst hi
    rw [if_pos rfl, if_pos (deref_lt (deref_eq_some.mpr hd)), hd]
  · rw [if_neg hi]

theorem download_loop_all_skipped (env : Env) (ins : List DmInstrument) (m : Memory)
    (l : DmLoader) (hall : ∀ x ∈ ins, DmBand_download_skips env x) :
    DmBand_download_loop env m l ins = some (DmResult.SUCCESS, ins, l, m) := by
  induction ins with
  | nil => rw [DmBand_download_loop]
  | cons y rest ih =>
    rw [download_loop_skip env m l y rest (hall y (List.mem_cons_self y rest)),
      ih (fun x hx => hall x (List.mem_cons_of_mem y hx))]
    rfl

/-- C11: `DmBand_download` on the band `b` at address `p`. Let the instruments be
`pre ++ x :: post`, let the loop over `pre` end with `SUCCESS` (no request before `x`
failed), leaving the instruments `pre'`, and let the request for `x` return a status other
than `SUCCESS`. Then the download returns that status; the instruments before `x` are
`pre'`, as the loop left them, nothing is rolled back; the instruments after `x` are `post`,
as they were. Conversely, a download that returns a status other than `SUCCESS` has such a
first failing request with that status, so a download in which no request fails returns
`SUCCESS`. -/
theorem download_stops_at_first_failure (env : Env) (m : Memory) (p : Nat) (l : DmLoader)
    (b : DmBand) (hb : deref m.bands p = some b) :
    (∀ (pre : List DmInstrument) (x : DmInstrument) (post pre' : List DmInstrument)
        (li : DmLoader) (mi : Memory) (r : LoaderCall) (c : Option Nat) (l1 : DmLoader),
        b.instruments = pre ++ x :: post →
        DmBand_download_loop env m l pre = some (DmResult.SUCCESS, pre', li, mi) →
        ¬ DmBand_download_skips env x →
        DmLoader_getDownloadableSound env mi (some li) (some x.reference)
          (some x.dls_collection) = some r →
        r.rv ≠ DmResult.SUCCESS → r.out = some c → r.loader = some l1 →
        DmBand_download env m (some p) (some l) =
            some (r.rv, some l1,
              { r.mem with
                bands := r.mem.bands.set p (some { b with
                  instruments := pre' ++ { x with dls_collection := c } :: post }) }) ∧
          pre'.length = pre.length) ∧
      (∀ (rv : DmResult) (l' : Option DmLoader) (m' : Memory),
        DmBand_download env m (some p) (some l) = some (rv, l', m') → rv ≠ DmResult.SUCCESS →
        ∃ pre x post pre' li mi r, b.instruments = pre ++ x :: post ∧
          DmBand_download_loop env m l pre = some (DmResult.SUCCESS, pre', li, mi) ∧
          ¬ DmBand_download_skips env x ∧
          DmLoader_getDownloadableSound env mi (some li) (some x.reference)
            (some x.dls_collection) = some r ∧ r.rv = rv) := by
  constructor
  · intro pre x post pre' li mi r c l1 hins hpre hreq hget hfail hout hl
    constructor
    · unfold DmBand_download
      simp only [hb]
      rw [hins, download_loop_first_failure env pre m l pre' li mi x post r c l1 hpre hreq hget
        hfail hout hl]
    · exact (download_loop_length env pre m l _ _ _ _ hpre).1
  · intro rv l' m' h hrv
    unfold DmBand_download at h
    simp only [hb] at h
    cases hloop : DmBand_download_loop env m l b.instruments with
    | none => simp [hloop] at h
    | some res =>
      obtain ⟨rv1, ins1, l1, m1⟩ := res
      simp only [hloop, Option.some.injEq, Prod.mk.injEq] at h
      obtain ⟨h1, -, -⟩ := h
      subst h1
      exact download_loop_failure_source env b.instruments m l rv1 ins1 l1 m1 hloop hrv

theorem download_stops_at_first_failure_witness :
    deref threeInstrumentsMemory.bands 0 =
        some ⟨1, [boundInstrument, missingInstrument, { boundInstrument with channel := 2 }]⟩ ∧
      DmBand_download_loop sampleEnv threeInstrumentsMemory sampleLoader [boundInstrument] =
        some (DmResult.SUCCESS,
          [{ boundInstrument with dls := some (0, 0), dls_collection := some 0 }],
          { sampleLoader with dls_cache := [0] }, threeInstrumentsMemory1) ∧
      ¬ DmBand_download_skips sampleEnv missingInstrument ∧
      DmLoader_getDownloadableSound sampleEnv threeInstrumentsMemory1
        (some { sampleLoader with dls_cache := [0] }) (some missingInstrument.reference)
        (some missingInstrument.dls_collection) = some missingCall ∧
      (DmBand_download sampleEnv threeInstrumentsMemory (some 0) (some sampleLoader) =
        some (DmResult.NOT_FOUND, some { sampleLoader with dls_cache := [0] },
          { missingCall.mem with
            bands := missingCall.mem.bands.set 0 (some { (⟨1, [boundInstrument,
                missingInstrument, { boundInstrument with channel := 2 }]⟩ : DmBand) with
              instruments :=
                [{ boundInstrument with dls := some (0, 0), dls_collection := some 0 }] ++
                  { missingInstrument with dls_collection := none } ::
                    [{ boundInstrument with channel := 2 }] }) }) ∧
        [{ boundInstrument with dls := some (0, 0), dls_collection := some 0 }].length =
          [boundInstrument].length) :=
  ⟨rfl, rfl, by decide, rfl,
    (download_stops_at_first_failure sampleEnv threeInstrumentsMemory 0 sampleLoader _ rfl).1
      [boundInstrument] missingInstrument [{ boundInstrument with channel := 2 }] _ _ _
      missingCall none _ rfl rfl (by decide) rfl (by decide) rfl rfl⟩

/-- What holds of `DmBand_download` on the band `b` at address `p` for the instruments it
passes over and for one without a match. Every instrument that is bound, lacks the
valid-patch flag, or has the GS or GM flag is the same at its index after the call; the
status, the loader and the memory (with its record of resolver calls, creations, parses
and retains) that the loop produces are those it produces on the band without these
instruments, so no request is made for them. An instrument `x` that is requested, whose
collection loads to address `q` and has no matching entry, ends with no matched entry but
with the handle `q`, and the status of the download is the one the loop over the remaining
instruments gives. -/
theorem download_skips_and_no_match (env : Env) (m : Memory) (p : Nat) (l : DmLoader)
    (b : DmBand) (hb : deref m.bands p = some b) :
    (∀ (rv : DmResult) (l' : Option DmLoader) (m' : Memory),
        DmBand_download env m (some p) (some l) = some (rv, l', m') →
        ∃ b', deref m'.bands p = some b' ∧ b'.instruments.length = b.instruments.length ∧
          ∀ (i : Nat) (x : DmInstrument), b.instruments[i]? = some x →
            DmBand_download_skips env x → b'.instruments[i]? = some x) ∧
      (DmBand_download_loop env m l
          (b.instruments.filter (fun x => decide (¬ DmBand_download_skips env x)))).map
          (fun res => (res.1, res.2.2.1, res.2.2.2)) =
        (DmBand_download_loop env m l b.instruments).map
          (fun res => (res.1, res.2.2.1, res.2.2.2)) ∧
      (∀ (pre : List DmInstrument) (x : DmInstrument) (post pre' : List DmInstrument)
        (li : DmLoader) (mi : Memory) (r : LoaderCall) (q : Nat) (l1 : DmLoader) (d : DmDls),
        b.instruments = pre ++ x :: post →
        DmBand_download_loop env m l pre = some (DmResult.SUCCESS, pre', li, mi) →
        ¬ DmBand_download_skips env x →
        DmLoader_getDownloadableSound env mi (some li) (some x.reference)
          (some x.dls_collection) = some r →
        r.rv = DmResult.SUCCESS → r.out = some (some q) → r.loader = some l1 →
        deref r.mem.dls q = some d → DmBand_findDlsInstrument env x d = none →
        DmBand_download env m (some p) (some l) =
          (DmBand_download_loop env r.mem l1 post).map
            (fun res => (res.1, some res.2.2.1,
              { res.2.2.2 with
                bands := res.2.2.2.bands.set p (some { b with
                  instruments := pre' ++
                    { x with dls_collection := some q, dls := none } :: res.2.1 }) }))) := by
  refine ⟨?_, download_loop_without_skipped env b.instruments m l, ?_⟩
  · intro rv l' m' h
    unfold DmBand_download at h
    simp only [hb] at h
    cases hloop : DmBand_download_loop env m l b.instruments with
    | none => simp [hloop] at h
    | some res =>
      obtain ⟨rv1, ins1, l1, m1⟩ := res
      simp only [hloop, Option.some.injEq, Prod.mk.injEq] at h
      obtain ⟨-, -, h3⟩ := h
      subst h3
      obtain ⟨hlen, hbands, hkeep⟩ := download_loop_length env b.instruments m l _ _ _ _ hloop
      refine ⟨{ b with instruments := ins1 }, ?_, hlen, hkeep⟩
      exact deref_set_self _ _ _ (by rw [hbands]; exact deref_lt hb)
  · intro pre x post pre' li mi r q l1 d hins hpre hreq hget hok hout hl hd hfind
    unfold DmBand_download
    simp only [hb]
    rw [hins, download_loop_append env pre m l pre' li mi (x :: post) hpre,
      download_loop_request_ok env mi li x post hreq r hget hok q l1 d hout hl hd, hfind]
    cases DmBand_download_loop env r.mem l1 post <;> rfl

theorem download_skips_and_no_match_sample :
    deref skipBandMemory.bands 0 =
        some ⟨1, [{ sampleInstrument with dls := some (0, 0), dls_collection := some 0 },
          { sampleInstrument with flags := 0 }, { sampleInstrument with flags := 257 },
          sampleInstrument]⟩ ∧
      DmBand_download_skips sampleEnv
        { sampleInstrument with dls := some (0, 0), dls_collection := some 0 } ∧
      DmBand_download_skips sampleEnv { sampleInstrument with flags := 0 } ∧
      DmBand_download_skips sampleEnv { sampleInstrument with flags := 257 } ∧
      ¬ DmBand_download_skips sampleEnv sampleInstrument ∧
      DmLoader_getDownloadableSound sampleEnv skipBandMemory (some sampleLoader)
        (some sampleInstrument.reference) (some sampleInstrument.dls_collection) =
          some skipBandCall ∧
      DmBand_findDlsInstrument sampleEnv sampleInstrument ⟨2, ⟨1⟩, [⟨0, 0⟩]⟩ = none ∧
      DmBand_download sampleEnv skipBandMemory (some 0) (some sampleLoader) =
        some (DmResult.SUCCESS, some { sampleLoader with dls_cache := [1] },
          { skipBandCall.mem with
            bands := [some ⟨1,
              [{ sampleInstrument with dls := some (0, 0), dls_collection := some 0 },
                { sampleInstrument with flags := 0 }, { sampleInstrument with flags := 257 },
                { sampleInstrument with dls_collection := some 1, dls := none }]⟩] }) :=
  ⟨rfl, by decide, by decide, by decide, by decide, rfl, by decide,
    (download_skips_and_no_match sampleEnv skipBandMemory 0 sampleLoader _ rfl).2.2
      [{ sampleInstrument with dls := some (0, 0), dls_collection := some 0 },
        { sampleInstrument with flags := 0 }, { sampleInstrument with flags := 257 }]
      sampleInstrument [] _ _ _ skipBandCall 1 _ ⟨2, ⟨1⟩, [⟨0, 0⟩]⟩ rfl rfl (by decide) rfl rfl
      rfl rfl rfl (by decide)⟩

/-- C12 (the code as it is): the band at address 0 has a bound instrument, one without the
valid-patch flag, one with the GM flag, and an unbound one whose collection loads and has
no matching entry. `DmBand_download` returns `SUCCESS` and leaves the first three as they
were; the fourth, which had neither a matched entry nor a collection handle, ends without
a matched entry and with the handle of the collection at address 1, whose count is 2: it
is not left unbound. -/
theorem download_no_match_not_unbound :
    bindings skipBandMemory 0 =
        some [(some (0, 0), some 0), (none, none), (none, none), (none, none)] ∧
      (DmBand_download sampleEnv skipBandMemory (some 0) (some sampleLoader)).map
        (fun x => x.1) = some DmResult.SUCCESS ∧
      (DmBand_download sampleEnv skipBandMemory (some 0) (some sampleLoader)).bind
        (fun x => bindings x.2.2 0) =
        some [(some (0, 0), some 0), (none, none), (none, none), (none, some 1)] ∧
      (DmBand_download sampleEnv skipBandMemory (some 0) (some sampleLoader)).bind
        (fun x => (deref x.2.2.dls 1).map (fun o => o.reference_count)) = some 2 := by
  decide

/-- When every instrument of the band at address `p` is bound or passed over for its
flags, as after a download that found a matching entry for every instrument it requested,
`DmBand_download` returns `SUCCESS`, makes no loader request and leaves the band, the
loader and every collection as they were. -/
theorem download_again_when_all_bound (env : Env) (m : Memory) (p : Nat) (l : DmLoader)
    (b : DmBand) (hb : deref m.bands p = some b)
    (hall : ∀ x ∈ b.instruments, DmBand_download_skips env x) :
    DmBand_download env m (some p) (some l) = some (DmResult.SUCCESS, some l, m) := by
  unfold DmBand_download
  simp only [hb]
  rw [download_loop_all_skipped env b.instruments m l hall]
  simp only []
  rw [set_deref_self m.bands p b hb]

theorem download_again_when_all_bound_sample :
    DmBand_download sampleEnv boundBandMemory (some 0) (some sampleLoader) =
        some (DmResult.SUCCESS, some { sampleLoader with dls_cache := [0] }, boundBandMemory1) ∧
      deref boundBandMemory1.bands 0 =
        some ⟨1, [{ boundInstrument with dls := some (0, 0), dls_collection := some 0 }]⟩ ∧
      (∀ x ∈ [{ boundInstrument with dls := some (0, 0), dls_collection := some 0 }],
        DmBand_download_skips sampleEnv x) ∧
      DmBand_download sampleEnv boundBandMemory1 (some 0)
          (some { sampleLoader with dls_cache := [0] }) =
        some (DmResult.SUCCESS, some { sampleLoader with dls_cache := [0] },
          boundBandMemory1) :=
  ⟨rfl, rfl, by decide,
    download_again_when_all_bound sampleEnv boundBandMemory1 0 _ _ rfl (by decide)⟩

/-- C20 (the code as it is): the band at address 0 has one instrument whose collection
loads and has no matching entry. The first download returns `SUCCESS` and leaves the
collection with count 2; the second download on the result returns `SUCCESS`, makes a
loader request (one more retain is recorded) and leaves the collection with count 3. -/
theorem download_twice_requests_again :
    (DmBand_download sampleEnv bandMemory (some 0) (some sampleLoader)).map
        (fun x => x.1) = some DmResult.SUCCESS ∧
      (DmBand_download sampleEnv bandMemory (some 0) (some sampleLoader)).map
        (fun x => ((deref x.2.2.dls 0).map (fun o => o.reference_count), bindings x.2.2 0,
          x.2.2.log)) =
        some (some 2, some [(none, some 0)],
          [Event.resolve [97], Event.callback 0 [97], Event.dls_create 0, Event.dls_parse 0,
            Event.dls_retain 0]) ∧
      ((DmBand_download sampleEnv bandMemory (some 0) (some sampleLoader)).bind
        (fun x => DmBand_download sampleEnv x.2.2 (some 0) x.2.1)).map
        (fun x => x.1) = some DmResult.SUCCESS ∧
      ((DmBand_download sampleEnv bandMemory (some 0) (some sampleLoader)).bind
        (fun x => DmBand_download sampleEnv x.2.2 (some 0) x.2.1)).map
        (fun x => ((deref x.2.2.dls 0).map (fun o => o.reference_count), bindings x.2.2 0,
          x.2.2.log)) =
        some (some 3, some [(none, some 0)],
          [Event.resolve [97], Event.callback 0 [97], Event.dls_create 0, Event.dls_parse 0,
            Event.dls_retain 0, Event.dls_retain 0]) :=
  ⟨rfl, rfl, rfl, rfl⟩

/-! ### Loader: successful and failing requests -/

theorem getDownloadableSound_added (env : Env) (m : Memory) (l : DmLoader)
    (ref : DmReference) (out : Option Nat) (r : LoaderCall)
    (h : DmLoader_getDownloadableSound env m (some l) (some ref) (some out) = some r)
    (hok : r.rv = DmResult.SUCCESS)
    (hscan : Dm_cacheScan (dlsGuidAt m) ref.guid l.dls_cache = some none) :
    ∃ o, r.out = some (some m.dls.length) ∧
      r.loader = some { l with dls_cache := l.dls_cache ++ [m.dls.length] } ∧
      r.mem.dls = m.dls ++ [some o] ∧ o.reference_count = 2 := by
  have ho := getDownloadableSound_outcome env m l ref out r h
  cases ho with
  | hit p o hs ho =>
    rw [hscan] at hs
    cases hs
  | not_found name m1 hs hname hres => cases hok
  | create_failed name m1 bytes m3 hs hname hres halloc => cases hok
  | parse_failed name m1 bytes m3 hs hname hres halloc hparse => exact absurd hok hparse
  | add_failed name m1 bytes m3 m6 hs hname hres halloc hparse hadd => cases hok
  | added name m1 bytes m3 m6 hs hname hres halloc hparse hadd =>
    have hd : m3.dls = m.dls := by
      rw [(Dm_alloc_frame halloc).1, (resolveName_frame m1 l name).1,
        (utf16ToUtf8_frame hname).1]
    refine ⟨⟨2, (env.DmDls_parse bytes).2.1, (env.DmDls_parse bytes).2.2⟩, ?_, ?_, ?_, rfl⟩
    · simp only [hd]
    · simp only [hd]
    · simp only [(Dm_alloc_frame hadd).1, hd]

theorem getDownloadableSound_parse_failed (env : Env) (m : Memory) (l : DmLoader)
    (ref : DmReference) (out : Option Nat) (name : List Nat) (m1 : Memory) (bytes : List Nat)
    (m3 : Memory)
    (hscan : Dm_cacheScan (dlsGuidAt m) ref.guid l.dls_cache = some none)
    (hname : Dm_utf16ToUtf8 env m ref.file = some (name, m1))
    (hres : (DmLoader_resolveName m1 l name).1 = some bytes)
    (halloc : Dm_alloc (DmLoader_resolveName m1 l name).2 = (true, m3))
    (hparse : (env.DmDls_parse bytes).1 ≠ DmResult.SUCCESS) :
    DmLoader_getDownloadableSound env m (some l) (some ref) (some out) =
      some ⟨(env.DmDls_parse bytes).1, some (some m.dls.length), some l,
        { m3 with
          dls := m.dls ++ [none]
          log := m3.log ++ [Event.dls_create m.dls.length, Event.dls_parse m.dls.length,
            Event.dls_release m.dls.length] }⟩ := by
  have hd : m3.dls = m.dls := by
    rw [(Dm_alloc_frame halloc).1, (resolveName_frame m1 l name).1,
      (utf16ToUtf8_frame hname).1]
  unfold DmLoader_getDownloadableSound
  simp only [hscan, hname]
  cases hr : DmLoader_resolveName m1 l name with
  | mk found m2 =>
    rw [hr] at hres halloc
    simp only [] at hres halloc
    subst hres
    simp only [DmDls_create, halloc, ne_eq, not_true_eq_false, if_false,
      DmDls_parse, deref_append_length, set_append_length]
    simp only [hparse, ne_eq, not_false_eq_true, if_true, DmDls_release,
      deref_append_length, set_append_length, List.append_assoc,
      List.cons_append, List.nil_append]
    rw [size_mod_release_one]
    simp only [ne_eq, not_true_eq_false, if_false, set_append_length, hd]

theorem getStyle_added (env : Env) (m : Memory) (l : DmLoader)
    (ref : DmReference) (out : Option Nat) (r : LoaderCall)
    (h : DmLoader_getStyle env m (some l) (some ref) (some out) = some r)
    (hok : r.rv = DmResult.SUCCESS)
    (hscan : Dm_cacheScan (styleGuidAt m) ref.guid l.style_cache = some none) :
    ∃ o, r.out = some (some m.styles.length) ∧
      r.loader = some { l with style_cache := l.style_cache ++ [m.styles.length] } ∧
      r.mem.styles = m.styles ++ [some o] ∧ o.reference_count = 2 := by
  have ho := getStyle_outcome env m l ref out r h
  cases ho with
  | hit p o hs ho =>
    rw [hscan] at hs
    cases hs
  | not_found name m1 hs hname hres => cases hok
  | create_failed name m1 bytes m3 hs hname hres halloc => cases hok
  | parse_failed name m1 bytes m3 hs hname hres halloc hparse => exact absurd hok hparse
  | add_failed name m1 bytes m3 m6 hs hname hres halloc hparse hadd => cases hok
  | added name m1 bytes m3 m6 hs hname hres halloc hparse hadd =>
    have hd : m3.styles = m.styles := by
      rw [(Dm_alloc_frame halloc).2.1, (resolveName_frame m1 l name).2.1,
        (utf16ToUtf8_frame hname).2.1]
    refine ⟨⟨2, (env.DmStyle_parse bytes).2.1, (env.DmStyle_parse bytes).2.2⟩, ?_, ?_, ?_, rfl⟩
    · simp only [hd]
    · simp only [hd]
    · simp only [(Dm_alloc_frame hadd).2.1, hd]

theorem getStyle_parse_failed (env : Env) (m : Memory) (l : DmLoader)
    (ref : DmReference) (out : Option Nat) (name : List Nat) (m1 : Memory) (bytes : List Nat)
    (m3 : Memory)
    (hscan : Dm_cacheScan (styleGuidAt m) ref.guid l.style_cache = some none)
    (hname : Dm_utf16ToUtf8 env m ref.file = some (name, m1))
    (hres : (DmLoader_resolveName m1 l name).1 = some bytes)
    (halloc : Dm_alloc (DmLoader_resolveName m1 l name).2 = (true, m3))
    (hparse : (env.DmStyle_parse bytes).1 ≠ DmResult.SUCCESS) :
    DmLoader_getStyle env m (some l) (some ref) (some out) =
      some ⟨(env.DmStyle_parse bytes).1, some (some m.styles.length), some l,
        { m3 with
          styles := m.styles ++ [none]
          log := m3.log ++ [Event.style_create m.styles.length, Event.style_parse m.styles.length,
            Event.style_release m.styles.length] }⟩ := by
  have hd : m3.styles = m.styles := by
    rw [(Dm_alloc_frame halloc).2.1, (resolveName_frame m1 l name).2.1,
      (utf16ToUtf8_frame hname).2.1]
  unfold DmLoader_getStyle
  simp only [hscan, hname]
  cases hr : DmLoader_resolveName m1 l name with
  | mk found m2 =>
    rw [hr] at hres halloc
    simp only [] at hres halloc
    subst hres
    simp only [DmStyle_create, halloc, ne_eq, not_true_eq_false, if_false,
      DmStyle_parse, deref_append_length, set_append_length]
    simp only [hparse, ne_eq, not_false_eq_true, if_true, DmStyle_release,
      deref_append_length, set_append_length, List.append_assoc,
      List.cons_append, List.nil_append]
    rw [size_mod_release_one]
    simp only [ne_eq, not_true_eq_false, if_false, set_append_length, hd]

theorem getSegment_parse_failed (env : Env) (m : Memory) (l : DmLoader) (name : List Nat)
    (out : Option Nat) (bytes : List Nat) (m2 : Memory)
    (hres : (DmLoader_resolveName m l name).1 = some bytes)
    (halloc : Dm_alloc (DmLoader_resolveName m l name).2 = (true, m2))
    (hparse : (env.DmSegment_parse bytes).1 ≠ DmResult.SUCCESS) :
    DmLoader_getSegment env m (some l) (some name) (some out) =
      some ⟨(env.DmSegment_parse bytes).1, some (some m.segments.length), some l,
        { m2 with
          segments := m.segments ++ [none]
          log := m2.log ++ [Event.segment_create m.segments.length,
            Event.segment_parse m.segments.length,
            Event.segment_release m.segments.length] }⟩ := by
  have hd : m2.segments = m.segments := by
    rw [(Dm_alloc_frame halloc).2.2.1, (resolveName_frame m l name).2.2.1]
  unfold DmLoader_getSegment
  simp only []
  cases hr : DmLoader_resolveName m l name with
  | mk found m1 =>
    rw [hr] at hres halloc
    simp only [] at hres halloc
    subst hres
    simp only [DmSegment_create, halloc, ne_eq, not_true_eq_false, if_false,
      DmSegment_parse, deref_append_length, set_append_length]
    simp only [hparse, ne_eq, not_false_eq_true, if_true, DmSegment_release,
      deref_append_length, set_append_length, List.append_assoc,
      List.cons_append, List.nil_append]
    rw [size_mod_release_one]
    simp only [ne_eq, not_true_eq_false, if_false, set_append_length, hd]

theorem getSegment_download_failed (env : Env) (m : Memory) (l : DmLoader) (name : List Nat)
    (out : Option Nat) (bytes : List Nat) (m2 : Memory) (rv : DmResult) (l1 : DmLoader)
    (m4 m5 : Memory)
    (hres : (DmLoader_resolveName m l name).1 = some bytes)
    (halloc : Dm_alloc (DmLoader_resolveName m l name).2 = (true, m2))
    (hparse : (env.DmSegment_parse bytes).1 = DmResult.SUCCESS)
    (hauto : l.autodownload = true)
    (hdown : env.DmSegment_download
      { m2 with
        segments := m.segments ++ [some ⟨1, (env.DmSegment_parse bytes).2⟩]
        log := m2.log ++ [Event.segment_create m.segments.length,
          Event.segment_parse m.segments.length,
          Event.segment_download m.segments.length] } l m.segments.length = (rv, l1, m4))
    (hrv : rv ≠ DmResult.SUCCESS)
    (hrel : DmSegment_release m4 (some m.segments.length) = some m5) :
    DmLoader_getSegment env m (some l) (some name) (some out) =
      some ⟨rv, some (some m.segments.length), some l1, m5⟩ := by
  have hd : m2.segments = m.segments := by
    rw [(Dm_alloc_frame halloc).2.2.1, (resolveName_frame m l name).2.2.1]
  unfold DmLoader_getSegment
  simp only []
  cases hr : DmLoader_resolveName m l name with
  | mk found m1 =>
    rw [hr] at hres halloc
    simp only [] at hres halloc
    subst hres
    simp only [DmSegment_create, halloc, ne_eq, not_true_eq_false, if_false,
      DmSegment_parse, deref_append_length, set_append_length]
    simp only [hparse, ne_eq, not_true_eq_false, if_false, hauto, Bool.not_true,
      Bool.false_eq_true, List.append_assoc, List.cons_append, List.nil_append, hd]
    simp only [hdown, hrv, not_false_eq_true, if_true, hrel]

/-- C18: a call of `DmLoader_getDownloadableSound` that returns `SUCCESS` after the scan
of the cache found no entry leaves the cache with its former entries in place followed by
one new entry, the address returned, and the heap with its former cells followed by the
new object, whose reference count is 2; a call whose scan finds the entry `p` returns `p`
with `SUCCESS`, leaves the loader as it was and changes the heap only in the count of the
object at `p`, which is one more (in `size_t` arithmetic). The same holds for
`DmLoader_getStyle` and the style cache. -/
theorem successful_get_cache_effect (env : Env) (m : Memory) (l : DmLoader)
    (ref : DmReference) (out : Option Nat) :
    (∀ r, DmLoader_getDownloadableSound env m (some l) (some ref) (some out) = some r →
        r.rv = DmResult.SUCCESS →
        Dm_cacheScan (dlsGuidAt m) ref.guid l.dls_cache = some none →
        ∃ o, r.out = some (some m.dls.length) ∧
          r.loader = some { l with dls_cache := l.dls_cache ++ [m.dls.length] } ∧
          r.mem.dls = m.dls ++ [some o] ∧ o.reference_count = 2) ∧
      (∀ p, Dm_cacheScan (dlsGuidAt m) ref.guid l.dls_cache = some (some p) →
        ∃ o, deref m.dls p = some o ∧
          DmLoader_getDownloadableSound env m (some l) (some ref) (some out) =
            some ⟨DmResult.SUCCESS, some (some p), some l,
              { m with
                dls := m.dls.set p
                  (some { o with reference_count := (o.reference_count + 1) % SIZE_MOD })
                log := m.log ++ [Event.dls_retain p] }⟩) ∧
      (∀ r, DmLoader_getStyle env m (some l) (some ref) (some out) = some r →
        r.rv = DmResult.SUCCESS →
        Dm_cacheScan (styleGuidAt m) ref.guid l.style_cache = some none →
        ∃ o, r.out = some (some m.styles.length) ∧
          r.loader = some { l with style_cache := l.style_cache ++ [m.styles.length] } ∧
          r.mem.styles = m.styles ++ [some o] ∧ o.reference_count = 2) ∧
      (∀ p, Dm_cacheScan (styleGuidAt m) ref.guid l.style_cache = some (some p) →
        ∃ o, deref m.styles p = some o ∧
          DmLoader_getStyle env m (some l) (some ref) (some out) =
            some ⟨DmResult.SUCCESS, some (some p), some l,
              { m with
                styles := m.styles.set p
                  (some { o with reference_count := (o.reference_count + 1) % SIZE_MOD })
                log := m.log ++ [Event.style_retain p] }⟩) :=
  ⟨fun r h hok hscan => getDownloadableSound_added env m l ref out r h hok hscan,
    fun p hscan => getDownloadableSound_hit env m l ref out p hscan,
    fun r h hok hscan => getStyle_added env m l ref out r h hok hscan,
    fun p hscan => getStyle_hit env m l ref out p hscan⟩

theorem successful_get_cache_effect_witness :
    DmLoader_getDownloadableSound sampleEnv emptyMemory (some sampleLoader)
        (some sampleReference) (some none) = some sampleDlsCall ∧
      sampleDlsCall.rv = DmResult.SUCCESS ∧
      Dm_cacheScan (dlsGuidAt emptyMemory) sampleReference.guid sampleLoader.dls_cache =
        some none ∧
      ∃ o, sampleDlsCall.out = some (some emptyMemory.dls.length) ∧
        sampleDlsCall.loader =
          some { sampleLoader with
            dls_cache := sampleLoader.dls_cache ++ [emptyMemory.dls.length] } ∧
        sampleDlsCall.mem.dls = emptyMemory.dls ++ [some o] ∧ o.reference_count = 2 :=
  ⟨rfl, rfl, rfl,
    (successful_get_cache_effect sampleEnv emptyMemory sampleLoader sampleReference none).1
      sampleDlsCall rfl rfl rfl⟩

/-- C15 (amended): when `DmLoader_getDownloadableSound`, `DmLoader_getStyle` or
`DmLoader_getSegment` has created its object and the parse reports a failure, the call
returns the parser's status, the object has been released and freed (its cell is empty and
the release is the last event), the loader with its caches is as before, and the caller's
slot holds the address of the released object. When `DmLoader_getSegment` fails in the
dependency download, it returns that status after one release of the object, and the
caller's slot holds the address of the object. -/
theorem failed_parse_releases_object (env : Env) :
    (∀ (m : Memory) (l : DmLoader) (ref : DmReference) (out : Option Nat) (name : List Nat)
        (m1 : Memory) (bytes : List Nat) (m3 : Memory),
        Dm_cacheScan (dlsGuidAt m) ref.guid l.dls_cache = some none →
        Dm_utf16ToUtf8 env m ref.file = some (name, m1) →
        (DmLoader_resolveName m1 l name).1 = some bytes →
        Dm_alloc (DmLoader_resolveName m1 l name).2 = (true, m3) →
        (env.DmDls_parse bytes).1 ≠ DmResult.SUCCESS →
        DmLoader_getDownloadableSound env m (some l) (some ref) (some out) =
          some ⟨(env.DmDls_parse bytes).1, some (some m.dls.length), some l,
            { m3 with
              dls := m.dls ++ [none]
              log := m3.log ++ [Event.dls_create m.dls.length, Event.dls_parse m.dls.length,
                Event.dls_release m.dls.length] }⟩) ∧
      (∀ (m : Memory) (l : DmLoader) (ref : DmReference) (out : Option Nat) (name : List Nat)
        (m1 : Memory) (bytes : List Nat) (m3 : Memory),
        Dm_cacheScan (styleGuidAt m) ref.guid l.style_cache = some none →
        Dm_utf16ToUtf8 env m ref.file = some (name, m1) →
        (DmLoader_resolveName m1 l name).1 = some bytes →
        Dm_alloc (DmLoader_resolveName m1 l name).2 = (true, m3) →
        (env.DmStyle_parse bytes).1 ≠ DmResult.SUCCESS →
        DmLoader_getStyle env m (some l) (some ref) (some out) =
          some ⟨(env.DmStyle_parse bytes).1, some (some m.styles.length), some l,
            { m3 with
              styles := m.styles ++ [none]
              log := m3.log ++ [Event.style_create m.styles.length,
                Event.style_parse m.styles.length, Event.style_release m.styles.length] }⟩) ∧
      (∀ (m : Memory) (l : DmLoader) (name : List Nat) (out : Option Nat) (bytes : List Nat)
        (m2 : Memory),
        (DmLoader_resolveName m l name).1 = some bytes →
        Dm_alloc (DmLoader_resolveName m l name).2 = (true, m2) →
        (env.DmSegment_parse bytes).1 ≠ DmResult.SUCCESS →
        DmLoader_getSegment env m (some l) (some name) (some out) =
          some ⟨(env.DmSegment_parse bytes).1, some (some m.segments.length), some l,
            { m2 with
              segments := m.segments ++ [none]
              log := m2.log ++ [Event.segment_create m.segments.length,
                Event.segment_parse m.segments.length,
                Event.segment_release m.segments.length] }⟩) ∧
      (∀ (m : Memory) (l : DmLoader) (name : List Nat) (out : Option Nat) (bytes : List Nat)
        (m2 : Memory) (rv : DmResult) (l1 : DmLoader) (m4 m5 : Memory),
        (DmLoader_resolveName m l name).1 = some bytes →
        Dm_alloc (DmLoader_resolveName m l name).2 = (true, m2) →
        (env.DmSegment_parse bytes).1 = DmResult.SUCCESS →
        l.autodownload = true →
        env.DmSegment_download
          { m2 with
            segments := m.segments ++ [some ⟨1, (env.DmSegment_parse bytes).2⟩]
            log := m2.log ++ [Event.segment_create m.segments.length,
              Event.segment_parse m.segments.length,
              Event.segment_download m.segments.length] } l m.segments.length =
          (rv, l1, m4) →
        rv ≠ DmResult.SUCCESS →
        DmSegment_release m4 (some m.segments.length) = some m5 →
        DmLoader_getSegment env m (some l) (some name) (some out) =
          some ⟨rv, some (some m.segments.length), some l1, m5⟩) :=
  ⟨fun m l ref out name m1 bytes m3 h1 h2 h3 h4 h5 =>
      getDownloadableSound_parse_failed env m l ref out name m1 bytes m3 h1 h2 h3 h4 h5,
    fun m l ref out name m1 bytes m3 h1 h2 h3 h4 h5 =>
      getStyle_parse_failed env m l ref out name m1 bytes m3 h1 h2 h3 h4 h5,
    fun m l name out bytes m2 h1 h2 h3 =>
      getSegment_parse_failed env m l name out bytes m2 h1 h2 h3,
    fun m l name out bytes m2 rv l1 m4 m5 h1 h2 h3 h4 h5 h6 h7 =>
      getSegment_download_failed env m l name out bytes m2 rv l1 m4 m5 h1 h2 h3 h4 h5 h6 h7⟩

theorem failed_parse_releases_object_witness :
    Dm_cacheScan (dlsGuidAt emptyMemory) sampleReference.guid sampleLoader.dls_cache =
        some none ∧
      Dm_utf16ToUtf8 corruptEnv emptyMemory sampleReference.file = some ([97], emptyMemory) ∧
      (DmLoader_resolveName emptyMemory sampleLoader [97]).1 = some [1, 2, 3] ∧
      Dm_alloc (DmLoader_resolveName emptyMemory sampleLoader [97]).2 =
        (true, (DmLoader_resolveName emptyMemory sampleLoader [97]).2) ∧
      (corruptEnv.DmDls_parse [1, 2, 3]).1 ≠ DmResult.SUCCESS ∧
      DmLoader_getDownloadableSound corruptEnv emptyMemory (some sampleLoader)
          (some sampleReference) (some none) =
        some ⟨(corruptEnv.DmDls_parse [1, 2, 3]).1, some (some emptyMemory.dls.length),
          some sampleLoader,
          { (DmLoader_resolveName emptyMemory sampleLoader [97]).2 with
            dls := emptyMemory.dls ++ [none]
            log := (DmLoader_resolveName emptyMemory sampleLoader [97]).2.log ++
              [Event.dls_create emptyMemory.dls.length, Event.dls_parse emptyMemory.dls.length,
                Event.dls_release emptyMemory.dls.length] }⟩ :=
  ⟨rfl, rfl, rfl, rfl, by decide,
    (failed_parse_releases_object corruptEnv).1 emptyMemory sampleLoader sampleReference none
      [97] emptyMemory [1, 2, 3] _ rfl rfl rfl rfl (by decide)⟩

/-- C15 (counterexample): the parser reports a corrupt file; the call returns
`FILE_CORRUPT`, the object created at address 0 has been released and freed, and the
caller's slot, empty before the call, holds the address 0 of that object. -/
theorem failed_parse_leaves_handle :
    (DmLoader_getDownloadableSound corruptEnv emptyMemory (some sampleLoader)
        (some sampleReference) (some none)).map (fun r => r.rv) =
        some DmResult.FILE_CORRUPT ∧
      (DmLoader_getDownloadableSound corruptEnv emptyMemory (some sampleLoader)
        (some sampleReference) (some none)).map (fun r => (r.out, r.mem.dls, r.mem.log)) =
        some (some (some 0), [none],
          [Event.resolve [97], Event.callback 0 [97], Event.dls_create 0, Event.dls_parse 0,
            Event.dls_release 0]) :=
  ⟨rfl, rfl⟩

/-! ### The conversion of file names -/

theorem utf16ToUtf8_loop_within (env : Env)
    (hret : ∀ s c, (env.c16rtomb s c).1 = (env.c16rtomb s c).2.1.length ∧
      (env.c16rtomb s c).2.1.length ≤ 4)
    (units : List Nat) (buf : List Nat) (j state : Nat)
    (hj : j + 4 * units.length < buf.length) (hbuf : buf.length ≤ SIZE_MOD) :
    ∃ buf1 j1, Dm_utf16ToUtf8_loop env units buf j state = some (buf1, j1) ∧
      buf1.length = buf.length ∧ j ≤ j1 ∧ j1 ≤ j + 4 * units.length := by
  induction units generalizing buf j state with
  | nil => exact ⟨buf, j, rfl, rfl, le_refl _, by simp⟩
  | cons c rest ih =>
    obtain ⟨h1, h2⟩ := hret state c
    rw [List.length_cons] at hj
    unfold Dm_utf16ToUtf8_loop
    cases hc : env.c16rtomb state c with
    | mk ret rest2 =>
      obtain ⟨bytes, state1⟩ := rest2
      rw [hc] at h1 h2
      simp only [] at h1 h2
      simp only []
      rw [if_pos (by omega)]
      have hlen : (buf.take j ++ bytes ++ buf.drop (j + bytes.length)).length = buf.length := by
        simp only [List.length_append, List.length_take, List.length_drop]
        omega
      have hmod : (j + ret) % SIZE_MOD = j + ret := Nat.mod_eq_of_lt (by omega)
      rw [hmod]
      obtain ⟨buf1, j1, e1, e2, e3, e4⟩ :=
        ih (buf.take j ++ bytes ++ buf.drop (j + bytes.length)) (j + ret) state1
          (by rw [hlen]; omega) (by rw [hlen]; exact hbuf)
      refine ⟨buf1, j1, e1, by rw [e2, hlen], by omega, ?_⟩
      rw [List.length_cons]
      omega

/-- C19 (the code as it is): the file name is one low surrogate and the terminator, so
`n = 1` and the buffer has 5 bytes. `c16rtomb` reports the encoding error with
`(size_t) -1`, the loop adds it to the offset, and the offset after the loop is
18446744073709551615 instead of at most 4; the store of the terminator at that offset is
outside the buffer, so the result is undefined. -/
theorem utf16ToUtf8_lone_surrogate_offset :
    Dm_utf16Length [0xDC00, 0] = some 1 ∧
      Dm_utf16ToUtf8_loop utf8Env [0xDC00] (List.replicate (1 * 4 + 1) 0) 0 0 =
        some (List.replicate (1 * 4 + 1) 0, 18446744073709551615) ∧
      Dm_utf16ToUtf8 utf8Env emptyMemory [0xDC00, 0] = none := by
  decide

/-! ### The synth channel table -/

theorem sendBandUpdate_count_spec (ins : List DmInstrument) (c : Nat) :
    c ≤ DmSynth_sendBandUpdate_count ins c ∧
      (∀ x ∈ ins, x.channel ≤ DmSynth_sendBandUpdate_count ins c) ∧
      (DmSynth_sendBandUpdate_count ins c = c ∨
        ∃ x ∈ ins, x.channel = DmSynth_sendBandUpdate_count ins c) := by
  induction ins generalizing c with
  | nil => exact ⟨le_refl _, fun x hx => (by cases hx), Or.inl rfl⟩
  | cons y rest ih =>
    unfold DmSynth_sendBandUpdate_count
    obtain ⟨h1, h2, h3⟩ := ih (DmSynth_max y.channel c)
    have hmax : c ≤ DmSynth_max y.channel c ∧ y.channel ≤ DmSynth_max y.channel c ∧
        (DmSynth_max y.channel c = c ∨ DmSynth_max y.channel c = y.channel) := by
      unfold DmSynth_max
      by_cases hge : y.channel ≥ c
      · rw [if_pos hge]
        exact ⟨hge, le_refl _, Or.inr rfl⟩
      · rw [if_neg hge]
        exact ⟨le_refl _, by omega, Or.inl rfl⟩
    refine ⟨le_trans hmax.1 h1, ?_, ?_⟩
    · intro x hx
      rcases List.mem_cons.mp hx with hxy | hxr
      · rw [hxy]
        exact le_trans hmax.2.1 h1
      · exact h2 x hxr
    · rcases h3 with h3 | ⟨x, hx, hxc⟩
      · rcases hmax.2.2 with h4 | h4
        · exact Or.inl (by rw [h3, h4])
        · exact Or.inr ⟨y, List.mem_cons_self y rest, by rw [h3, h4]⟩
      · exact Or.inr ⟨x, List.mem_cons_of_mem y hx, hxc⟩

theorem sendBandUpdate_loop_spec (env : SynthEnv) (m : Memory) (ins : List DmInstrument)
    (t : List (Option Nat)) (w : TsfWorld) (h : ∀ x ∈ ins, x.channel < t.length) :
    ∃ t1 w1, DmSynth_sendBandUpdate_loop env m ins (some t) w = some (some t1, w1) ∧
      t1.length = t.length ∧ ∀ i, (∀ x ∈ ins, x.channel ≠ i) → t1[i]? = t[i]? := by
  induction ins generalizing t w with
  | nil => exact ⟨t, w, rfl, rfl, fun i _ => rfl⟩
  | cons y rest ih =>
    unfold DmSynth_sendBandUpdate_loop
    by_cases hc : env.DmSynth_createTsfForInstrument m y ≠ DmResult.SUCCESS
    · rw [if_pos hc]
      obtain ⟨t1, w1, e1, e2, e3⟩ := ih t w (fun x hx => h x (List.mem_cons_of_mem y hx))
      exact ⟨t1, w1, e1, e2, fun i hi => e3 i (fun x hx => hi x (List.mem_cons_of_mem y hx))⟩
    · rw [if_neg hc]
      simp only []
      rw [if_pos (h y (List.mem_cons_self y rest))]
      obtain ⟨t1, w1, e1, e2, e3⟩ := ih (t.set y.channel (some w.created))
        { created := w.created + 1
          calls := w.calls ++
            [TsfCall.create w.created, TsfCall.set_max_voices (some w.created) 1,
              TsfCall.channel_set_bank_preset (some w.created) 0 0 0,
              TsfCall.channel_set_pan (some w.created) 0
                (if y.flags &&& env.DmInstrument_PAN ≠ 0 then some y.pan else none),
              TsfCall.channel_set_volume (some w.created) 0
                (if y.flags &&& env.DmInstrument_VOLUME ≠ 0 then some y.volume
                  else none)] }
        (fun x hx => by rw [List.length_set]; exact h x (List.mem_cons_of_mem y hx))
      refine ⟨t1, w1, e1, by rw [e2, List.length_set], ?_⟩
      intro i hi
      rw [e3 i (fun x hx => hi x (List.mem_cons_of_mem y hx)),
        List.getElem?_set_ne (hi y (List.mem_cons_self y rest))]

theorem freeChannels_consistent (w : TsfWorld) (s : DmSynth) (h : DmSynth_consistent s) :
    ∃ w1, DmSynth_freeChannels w s = some ({ s with channels := none, channel_count := 0 }, w1) := by
  unfold DmSynth_consistent at h
  unfold DmSynth_freeChannels
  cases hc : s.channels with
  | none =>
    rw [hc] at h
    simp only [] at h
    simp only [h, if_true]
    exact ⟨w, rfl⟩
  | some table =>
    rw [hc] at h
    simp only [] at h
    simp only []
    rw [if_pos (by omega)]
    exact ⟨_, rfl⟩

/-- C13: for a consistent synth, a live band with at least one instrument whose channel
numbers are 32-bit values, and a successful allocation of the table,
`DmSynth_sendBandUpdate` leaves a table whose number of slots and `channel_count` are
`top + 1`, where `top` is the channel of an instrument of the band and no instrument has a
greater channel; every slot whose index is the channel of no instrument is empty. When the
channels are 0 and 3 the table has 4 slots and slots 1 and 2 are empty. -/
theorem sendBandUpdate_table (env : SynthEnv) (m m1 : Memory) (w : TsfWorld) (s : DmSynth)
    (band : Nat) (b : DmBand) (hwf : DmSynth_consistent s)
    (hb : deref m.bands band = some b) (hne : b.instruments ≠ [])
    (hch : ∀ x ∈ b.instruments, x.channel < 2 ^ 32) (halloc : Dm_alloc m = (true, m1)) :
    ∃ top table w1, (∃ x ∈ b.instruments, x.channel = top) ∧
      (∀ x ∈ b.instruments, x.channel ≤ top) ∧
      DmSynth_sendBandUpdate env m w (some s) (some band) =
        some (some ⟨some band, some table, top + 1⟩, m1, w1) ∧
      table.length = top + 1 ∧
      (∀ i, i < table.length → (∀ x ∈ b.instruments, x.channel ≠ i) →
        table[i]? = some none) ∧
      ((∀ x ∈ b.instruments, x.channel = 0 ∨ x.channel = 3) →
        (∃ x ∈ b.instruments, x.channel = 3) →
        table.length = 4 ∧ table[1]? = some none ∧ table[2]? = some none) := by
  obtain ⟨h1, h2, h3⟩ := sendBandUpdate_count_spec b.instruments 0
  have htop : ∃ x ∈ b.instruments, x.channel = DmSynth_sendBandUpdate_count b.instruments 0 := by
    rcases h3 with h3 | h3
    · cases hi : b.instruments with
      | nil => exact absurd hi hne
      | cons y rest =>
        have hy : y ∈ b.instruments := by rw [hi]; exact List.mem_cons_self y rest
        have := h2 y hy
        rw [← hi]
        exact ⟨y, hy, by omega⟩
    · exact h3
  obtain ⟨x0, hx0, hx0c⟩ := htop
  have hlt : DmSynth_sendBandUpdate_count b.instruments 0 < 2 ^ 32 := by
    rw [← hx0c]
    exact hch x0 hx0
  have hcount : (DmSynth_sendBandUpdate_count b.instruments 0 + 1) % SIZE_MOD =
      DmSynth_sendBandUpdate_count b.instruments 0 + 1 := by
    unfold SIZE_MOD
    omega
  have hsize : 8 * (DmSynth_sendBandUpdate_count b.instruments 0 + 1) % SIZE_MOD / 8 =
      DmSynth_sendBandUpdate_count b.instruments 0 + 1 := by
    unfold SIZE_MOD
    omega
  obtain ⟨w0, hfree⟩ := freeChannels_consistent w { s with band := some band }
    (by unfold DmSynth_consistent at hwf ⊢; exact hwf)
  obtain ⟨t1, w1, e1, e2, e3⟩ := sendBandUpdate_loop_spec env m1 b.instruments
    (List.replicate (DmSynth_sendBandUpdate_count b.instruments 0 + 1) none) w0
    (fun x hx => by
      rw [List.length_replicate]
      have := h2 x hx
      omega)
  rw [List.length_replicate] at e2
  have hempty : ∀ i, i < t1.length → (∀ x ∈ b.instruments, x.channel ≠ i) →
      t1[i]? = some none := by
    intro i hi hnot
    rw [e3 i hnot, List.getElem?_replicate]
    rw [if_pos (by omega)]
  refine ⟨DmSynth_sendBandUpdate_count b.instruments 0, t1, w1, ⟨x0, hx0, hx0c⟩, h2, ?_, e2,
    hempty, ?_⟩
  · unfold DmSynth_sendBandUpdate
    simp only [hfree, hb, halloc, hcount, hsize, if_true, e1]
  · intro hall hthree
    obtain ⟨x3, hx3, hx3c⟩ := hthree
    have hle := h2 x3 hx3
    have htop3 : DmSynth_sendBandUpdate_count b.instruments 0 = 3 := by
      rcases hall x0 hx0 with h0 | h0
      · omega
      · omega
    rw [htop3] at e2
    refine ⟨e2, hempty 1 (by omega) ?_, hempty 2 (by omega) ?_⟩
    · intro x hx
      rcases hall x hx with h0 | h0 <;> omega
    · intro x hx
      rcases hall x hx with h0 | h0 <;> omega

theorem sendBandUpdate_table_witness :
    DmSynth_consistent freshSynth ∧
      deref synthMemory.bands 0 = some ⟨1, [synthInstrument 0, synthInstrument 3]⟩ ∧
      ([synthInstrument 0, synthInstrument 3] : List DmInstrument) ≠ [] ∧
      (∀ x ∈ [synthInstrument 0, synthInstrument 3], x.channel < 2 ^ 32) ∧
      Dm_alloc synthMemory = (true, synthMemory) ∧
      (DmSynth_sendBandUpdate sampleSynthEnv synthMemory freshWorld (some freshSynth)
        (some 0)).map (fun r => r.1) =
        some (some ⟨some 0, some [some 0, none, none, some 1], 4⟩) ∧
      ∃ top table w1, (∃ x ∈ [synthInstrument 0, synthInstrument 3], x.channel = top) ∧
        (∀ x ∈ [synthInstrument 0, synthInstrument 3], x.channel ≤ top) ∧
        DmSynth_sendBandUpdate sampleSynthEnv synthMemory freshWorld (some freshSynth)
            (some 0) =
          some (some ⟨some 0, some table, top + 1⟩, synthMemory, w1) ∧
        table.length = top + 1 ∧
        (∀ i, i < table.length →
          (∀ x ∈ [synthInstrument 0, synthInstrument 3], x.channel ≠ i) →
          table[i]? = some none) ∧
        ((∀ x ∈ [synthInstrument 0, synthInstrument 3], x.channel = 0 ∨ x.channel = 3) →
          (∃ x ∈ [synthInstrument 0, synthInstrument 3], x.channel = 3) →
          table.length = 4 ∧ table[1]? = some none ∧ table[2]? = some none) :=
  ⟨by decide, rfl, by decide, by decide, rfl, by decide,
    sendBandUpdate_table sampleSynthEnv synthMemory synthMemory freshWorld freshSynth 0
      ⟨1, [synthInstrument 0, synthInstrument 3]⟩ (by decide) rfl (by decide) (by decide) rfl⟩

theorem sendEvent_spec (w : TsfWorld) (s : DmSynth) (channel : Nat)
    (call : Option Nat → TsfCall) :
    (s.channel_count ≤ channel → DmSynth_sendEvent w (some s) channel call = some w) ∧
      (∀ (table : List (Option Nat)) (ctx : Option Nat), channel < s.channel_count →
        s.channels = some table → table[channel]? = some ctx →
        DmSynth_sendEvent w (some s) channel call =
          some { w with calls := w.calls ++ [call ctx] }) := by
  constructor
  · intro h
    unfold DmSynth_sendEvent
    simp only []
    rw [if_pos h]
  · intro table ctx h hc hslot
    unfold DmSynth_sendEvent
    simp only [hc, hslot]
    rw [if_neg (by omega)]

/-- C14 (the code as it is): the table made for the band with channels 0 and 3 has the
slots 1 and 2 empty. `DmSynth_sendNoteOn`, `DmSynth_sendControl`, `DmSynth_sendNoteOff` and
`DmSynth_sendNoteOffAll` on channel 2 each call the library with the `NULL` content of the
slot as the context; on channel 3 the call goes to the context of the slot, on channel 4
(out of range) no call is made. -/
theorem send_to_empty_slot_calls_library :
    (DmSynth_sendBandUpdate sampleSynthEnv synthMemory freshWorld (some freshSynth)
        (some 0)).map (fun r => r.1) =
        some (some ⟨some 0, some [some 0, none, none, some 1], 4⟩) ∧
      DmSynth_sendNoteOn freshWorld (some ⟨some 0, some [some 0, none, none, some 1], 4⟩)
        2 60 100 = some ⟨0, [TsfCall.channel_note_on none 0 60 100]⟩ ∧
      DmSynth_sendControl freshWorld (some ⟨some 0, some [some 0, none, none, some 1], 4⟩)
        2 7 100 = some ⟨0, [TsfCall.channel_midi_control none 0 7 100]⟩ ∧
      DmSynth_sendNoteOff freshWorld (some ⟨some 0, some [some 0, none, none, some 1], 4⟩)
        2 60 = some ⟨0, [TsfCall.channel_note_off none 0 60]⟩ ∧
      DmSynth_sendNoteOffAll freshWorld (some ⟨some 0, some [some 0, none, none, some 1], 4⟩)
        2 = some ⟨0, [TsfCall.channel_note_off_all none 0]⟩ ∧
      DmSynth_sendNoteOn freshWorld (some ⟨some 0, some [some 0, none, none, some 1], 4⟩)
        3 60 100 = some ⟨0, [TsfCall.channel_note_on (some 1) 0 60 100]⟩ ∧
      DmSynth_sendNoteOn freshWorld (some ⟨some 0, some [some 0, none, none, some 1], 4⟩)
        4 60 100 = some freshWorld := by
  decide

/-- C17 (the code as it is): the band at address 1 has two instruments on channel 0. The
update constructs two contexts, 0 and 1, and closes none; the table has one slot, which
holds context 1. `DmSynth_free` afterwards closes context 1 only: context 0 is never
closed. -/
theorem same_channel_context_never_closed :
    (DmSynth_sendBandUpdate sampleSynthEnv synthMemory freshWorld (some freshSynth)
        (some 1)).map (fun r => (r.1, r.2.2.created, closedContexts r.2.2.calls)) =
        some (some ⟨some 1, some [some 1], 1⟩, 2, []) ∧
      ((DmSynth_sendBandUpdate sampleSynthEnv synthMemory freshWorld (some freshSynth)
        (some 1)).bind (fun r => DmSynth_free r.2.2 r.1)).map
        (fun r => (r.1, r.2.created, closedContexts r.2.calls)) =
        some (some ⟨some 1, none, 0⟩, 2, [1]) := by
  decide

/-! ### Rendering -/

end DMusic
